import Mathlib

/-!
# Incapsula role and user client: request building and response classification

A shallow embedding of `incapsula/client_role.go` and `incapsula/client_user.go`; the
destroy check of `incapsula/resource_acl_security_rule_test.go` has a section of its
own.

Each operation of the Go client is a Lean function of

* the standard-library functions the operation calls (`Stdlib`: `json.Marshal`,
  `json.Unmarshal` and the failure of `http.NewRequest`),
* the client (`Client`: its configuration and its HTTP transport, a function from
  the request handed to it to the response or the transport failure),
* the operation's own arguments,

and returns what the Go function returns together with the list of requests it
handed to the transport.  The calls to `log.Printf` and the deferred
`resp.Body.Close()` have no part in what is returned and are left out.
`fmt.Sprintf` and `fmt.Errorf` are string concatenation, `%d` is `fmtD`, `%s` on a
string is the string itself and `%s` on an error value is `fmtErr`.  A Go error value
is its `Error()` text; `none` is the nil error, the nil pointer and the nil slice.
Go `int` values are `Int` (no arithmetic is performed on them; `encoding/json`
range-checks them against 64 bits).  Go strings are byte strings; here they are
`String`.  Pointer arguments (`*CreateRole`, `*UpdateRole`, `*CreateUser`) are taken
to be non-nil, as every caller in the repository passes them.

`goStdlib` is a concrete model of the standard library on the struct declarations of
the two files: the struct tags are read as `reflect.StructTag.Lookup` reads them, the
member names of a JSON object are matched against the field names as `encoding/json`
matches them, and documents are read by a parser of the JSON grammar.  What the model
leaves to the library is a parameter: the texts of the errors of `json.Unmarshal` and
the failure of `http.NewRequest`.

The theorems on error messages and on classification hold for every `Stdlib`; the
theorems on decoded and encoded values are about `goStdlib`.
-/

namespace Incapsula

/-! ## Data model -/

/-- A Go slice: `none` is the nil slice, `some xs` a non-nil slice of the elements `xs`. -/
abbrev Slice (α : Type) := Option (List α)

/-- Modelled from the spec: the ClientConfig of the data model, "base API URL and a
credential pair (identifier + secret)".  The declaration of `Config` is outside the
given sources; the three fields are the ones the operations and their tests use. -/
structure Config where
  BaseURLAPI : String
  APIID : String
  APIKey : String
deriving DecidableEq, Repr

/-- A request as handed to the HTTP transport: the method, the URL string as the
operation wrote it (the text given to `http.NewRequest`, `Get` or `Post`), the
`Content-Type` header (`none` when the code sets none) and the body (`none` when the
code passes no body). -/
structure Request where
  Method : String
  URL : String
  ContentType : Option String
  Body : Option String
deriving DecidableEq, Repr

/-- A response as the operations read it: `resp.StatusCode`, and the two results of
`ioutil.ReadAll(resp.Body)`, the bytes read and the read error. -/
structure Response where
  StatusCode : Int
  Body : String
  ReadErr : Option String
deriving DecidableEq, Repr

/-- Modelled from the spec: the Transport wrapper, "one long-lived underlying HTTP
client and one ClientConfig".  The declaration of `Client` is outside the given
sources; `httpClient` answers a request with a response or with the text of the
transport failure. -/
structure Client where
  config : Config
  httpClient : Request → Except String Response

/-- The element type of `RoleDetails.UserAssignment`; the tags are
`json:userEmail` and `json:accountId`, written without quotes. -/
structure UserAssignment where
  UserEmail : String
  AccountID : Int
deriving DecidableEq, Repr

/-- The struct `RoleDetails` of client_role.go. -/
structure RoleDetails where
  RoleID : Int
  RoleName : String
  RoleDescription : String
  AccountID : Int
  AccountName : String
  RoleAbilities : Slice String
  UserAssignment : Slice UserAssignment
  UpdateDate : String
  IsEditable : Bool
deriving DecidableEq, Repr

/-- The struct `CreateRole` of client_role.go. -/
structure CreateRole where
  RoleName : String
  RoleDescription : String
  AccountID : Int
  RoleAbilities : Slice String
deriving DecidableEq, Repr

/-- The struct `UpdateRole` of client_role.go. -/
structure UpdateRole where
  RoleName : String
  RoleDescription : String
  RoleAbilities : Slice String
deriving DecidableEq, Repr

/-- The element type of `User.RoleDetails`; the tags are `json:roleId` and
`json:roleName`, written without quotes. -/
structure UserRole where
  RoleID : Int
  RoleName : String
deriving DecidableEq, Repr

/-- The struct `User` of client_user.go. -/
structure User where
  UserID : Int
  AccountID : Int
  FirstName : String
  LastName : String
  UserEmail : String
  RoleDetails : Slice UserRole
deriving DecidableEq, Repr

/-- The struct `CreateUser` of client_user.go. -/
structure CreateUser where
  AccountID : Int
  UserEmail : String
  RoleIds : Slice Int
  RoleNames : Slice String
  FirstName : String
  LastName : String
deriving DecidableEq, Repr

/-! ## JSON documents -/

/-- A JSON document.  A number keeps its literal, as `encoding/json` hands the
literal to `strconv`. -/
inductive JSON where
  | null
  | bool (b : Bool)
  | num (lit : String)
  | str (s : String)
  | arr (xs : List JSON)
  | obj (kvs : List (String × JSON))
deriving Repr

/-- The local struct `DeleteRoleResponse` of `DeleteRole`.  `DebugInfo` has type
`interface{}`: `none` is the nil interface, `some j` the decoded value. -/
structure DeleteRoleResponse where
  Code : Int
  Message : String
  DebugInfo : Option JSON

/-- The local struct `DeleteUserResponse` of `DeleteUser`, declared there with the
same fields and tags as `DeleteRoleResponse`. -/
abbrev DeleteUserResponse := DeleteRoleResponse

/-! ## The standard library as the operations see it -/

/-- The standard-library functions the operations call.  `Marshal*` is
`json.Marshal` at the argument type, `Unmarshal*` is `json.Unmarshal` of a body
into a zero value of the result type (the decoded value, or the text of the error),
and `NewRequestErr method url` is the text of the error of
`http.NewRequest(method, url, body)` when it fails. -/
structure Stdlib where
  MarshalCreateRole : CreateRole → Except String String
  MarshalUpdateRole : UpdateRole → Except String String
  MarshalCreateUser : CreateUser → Except String String
  UnmarshalRoleDetails : String → Except String RoleDetails
  UnmarshalUser : String → Except String User
  UnmarshalDeleteRoleResponse : String → Except String DeleteRoleResponse
  UnmarshalDeleteUserResponse : String → Except String DeleteUserResponse
  NewRequestErr : String → String → Option String

/-- The function `http.NewRequest(method, url, body)`: the error, or a request
with that method, URL and body and no header.  The URL of the request is kept as the
text the function was given; net/http parses that text and writes the path of the
URL in escaped form on the wire (a blank of the path as `%20`), the query as it
is. -/
def Stdlib.NewRequest (lib : Stdlib) (method url : String) (body : Option String) :
    Except String Request :=
  match lib.NewRequestErr method url with
  | some err => .error err
  | none => .ok ⟨method, url, none, body⟩

/-- The request the method `(*http.Client).Get(url)` hands to the transport: `Get`
builds it with `http.NewRequest("GET", url, nil)` and returns the error of that
function, with nothing handed to the transport, when the URL is rejected. -/
def Stdlib.Get (lib : Stdlib) (url : String) : Except String Request :=
  lib.NewRequest "GET" url none

/-- The request the method `(*http.Client).Post(url, contentType, body)` hands to
the transport: `Post` builds it with `http.NewRequest("POST", url, body)`, returns
the error of that function, with nothing handed to the transport, when the URL is
rejected, and sets the `Content-Type` header otherwise. -/
def Stdlib.Post (lib : Stdlib) (url contentType body : String) : Except String Request :=
  match lib.NewRequest "POST" url (some body) with
  | .error err => .error err
  | .ok req => .ok { req with ContentType := some contentType }

/-! ## Formatting -/

/-- The verb `%d` of package fmt on an `int`: decimal digits, a leading minus sign
when negative. -/
def fmtD : Int → String
  | Int.ofNat n => String.mk (Nat.toDigits 10 n)
  | Int.negSucc n => "-" ++ String.mk (Nat.toDigits 10 (n + 1))

/-- The verb `%s` of package fmt on a value of type `error`: its `Error()` text, and
`%!s(<nil>)` for the nil error. -/
def fmtErr : Option String → String
  | some e => e
  | none => "%!s(<nil>)"

/-! ## The operations -/

/-- What an operation returning `(*T, error)` does: the requests handed to the
transport, in order, the returned pointer and the returned error. -/
structure Result (α : Type) where
  sent : List Request
  record : Option α
  err : Option String
deriving DecidableEq, Repr

/-- What an operation returning `error` does: the requests handed to the transport,
in order, and the returned error. -/
structure DeleteResult where
  sent : List Request
  err : Option String
deriving DecidableEq, Repr

/-- The constant `endpointRole`. -/
def endpointRole : String := "user-management/v1/roles"

/-- The constant `endpointUser`. -/
def endpointUser : String := "user-management/v1/users"

/-- The method `AddRole` of client_role.go. -/
def Client.AddRole (lib : Stdlib) (c : Client) (role : CreateRole) : Result RoleDetails :=
  match lib.MarshalCreateRole role with
  | .error err => ⟨[], none, some ("Failed to JSON marshal Role: " ++ err)⟩
  | .ok roleJSON =>
    -- c.httpClient.Post(url, "application/json", bytes.NewReader(roleJSON))
    match lib.Post
        (c.config.BaseURLAPI ++ "/" ++ endpointRole ++ "?api_id=" ++ c.config.APIID
          ++ "&api_key=" ++ c.config.APIKey)
        "application/json" roleJSON with
    | .error err =>
      ⟨[], none, some ("Error from Incapsula service when adding Role: " ++ err)⟩
    | .ok req =>
      match c.httpClient req with
      | .error err =>
        ⟨[req], none, some ("Error from Incapsula service when adding Role: " ++ err)⟩
      | .ok resp =>
        -- responseBody, err := ioutil.ReadAll(resp.Body); err is not looked at
        let responseBody := resp.Body
        if resp.StatusCode ≠ 200 then
          ⟨[req], none, some ("Error status code " ++ fmtD resp.StatusCode
            ++ " from Incapsula service when adding Role: " ++ responseBody)⟩
        else
          match lib.UnmarshalRoleDetails responseBody with
          | .error err =>
            ⟨[req], none, some ("Error parsing Role JSON response: " ++ err
              ++ "\nresponse: " ++ responseBody)⟩
          | .ok roleDetails => ⟨[req], some roleDetails, none⟩

/-- The method `GetRole` of client_role.go. -/
def Client.GetRole (lib : Stdlib) (c : Client) (roleID : Int) : Result RoleDetails :=
  -- c.httpClient.Get(url)
  match lib.Get
      (c.config.BaseURLAPI ++ "/" ++ endpointRole ++ "/" ++ fmtD roleID ++ "?api_id="
        ++ c.config.APIID ++ "&api_key=" ++ c.config.APIKey) with
  | .error err =>
    ⟨[], none, some ("Error from Incapsula service when reading Role " ++ fmtD roleID
      ++ ": " ++ err)⟩
  | .ok req =>
    match c.httpClient req with
    | .error err =>
      ⟨[req], none, some ("Error from Incapsula service when reading Role " ++ fmtD roleID
        ++ ": " ++ err)⟩
    | .ok resp =>
      let responseBody := resp.Body
      if resp.StatusCode ≠ 200 then
        ⟨[req], none, some ("Error status code " ++ fmtD resp.StatusCode
          ++ " from Incapsula service when reading Role " ++ fmtD roleID ++ ": "
          ++ responseBody)⟩
      else
        match lib.UnmarshalRoleDetails responseBody with
        | .error err =>
          ⟨[req], none, some ("Error parsing Role " ++ fmtD roleID ++ " JSON response: "
            ++ err ++ "\nresponse: " ++ responseBody)⟩
        | .ok roleDetails => ⟨[req], some roleDetails, none⟩

/-- The method `UpdateRole` of client_role.go. -/
def Client.UpdateRole (lib : Stdlib) (c : Client) (roleID : Int) (role : Incapsula.UpdateRole) :
    Result RoleDetails :=
  match lib.MarshalUpdateRole role with
  | .error err => ⟨[], none, some ("Failed to JSON marshal Role: " ++ err)⟩
  | .ok roleJSON =>
    match lib.NewRequest "PUT"
        (c.config.BaseURLAPI ++ "/" ++ endpointRole ++ "/" ++ fmtD roleID ++ "?api_id="
          ++ c.config.APIID ++ "&api_key=" ++ c.config.APIKey)
        (some roleJSON) with
    | .error err =>
      ⟨[], none, some ("Error preparing HTTP PUT for updating Role " ++ fmtD roleID
        ++ ": " ++ err)⟩
    | .ok req =>
      -- c.httpClient.Do(req)
      match c.httpClient req with
      | .error err =>
        ⟨[req], none, some ("Error from Incapsula service when updating Role "
          ++ fmtD roleID ++ ": " ++ err)⟩
      | .ok resp =>
        let responseBody := resp.Body
        if resp.StatusCode ≠ 200 then
          ⟨[req], none, some ("Error status code " ++ fmtD resp.StatusCode
            ++ " from Incapsula service when updating Role " ++ fmtD roleID ++ ": "
            ++ responseBody)⟩
        else
          match lib.UnmarshalRoleDetails responseBody with
          | .error err =>
            ⟨[req], none, some ("Error parsing Role " ++ fmtD roleID
              ++ " JSON response: " ++ err ++ "\nresponse: " ++ responseBody)⟩
          | .ok roleDetails => ⟨[req], some roleDetails, none⟩

/-- The method `DeleteRole` of client_role.go. -/
def Client.DeleteRole (lib : Stdlib) (c : Client) (roleID : Int) : DeleteResult :=
  match lib.NewRequest "DELETE"
      (c.config.BaseURLAPI ++ "/" ++ endpointRole ++ "/" ++ fmtD roleID ++ "?api_id="
        ++ c.config.APIID ++ "&api_key=" ++ c.config.APIKey)
      none with
  | .error err =>
    ⟨[], some ("Error preparing HTTP DELETE for deleting Role " ++ fmtD roleID ++ ": "
      ++ err)⟩
  | .ok req =>
    match c.httpClient req with
    | .error err =>
      ⟨[req], some ("Error from Incapsula service when deleting Role " ++ fmtD roleID
        ++ ": " ++ err)⟩
    | .ok resp =>
      let responseBody := resp.Body
      if resp.StatusCode ≠ 200 then
        ⟨[req], some ("Error status code " ++ fmtD resp.StatusCode
          ++ " from Incapsula service when deleting Role " ++ fmtD roleID ++ ": "
          ++ responseBody)⟩
      else
        match lib.UnmarshalDeleteRoleResponse responseBody with
        | .error err =>
          ⟨[req], some ("Error parsing Delete Role " ++ fmtD roleID
            ++ " JSON response: " ++ err ++ "\nresponse: " ++ responseBody)⟩
        | .ok deleteRoleResponse =>
          -- here err is the nil error json.Unmarshal returned
          let err : Option String := none
          if deleteRoleResponse.Code ≠ 200 then
            ⟨[req], some ("Error deleting Role " ++ fmtD roleID ++ " JSON response: "
              ++ fmtErr err ++ "\nresponse: " ++ responseBody)⟩
          else ⟨[req], none⟩

/-- The method `AddUser` of client_user.go. -/
def Client.AddUser (lib : Stdlib) (c : Client) (user : CreateUser) : Result User :=
  match lib.MarshalCreateUser user with
  | .error err => ⟨[], none, some ("Failed to JSON marshal User: " ++ err)⟩
  | .ok userJSON =>
    -- c.httpClient.Post(url, "application/json", bytes.NewReader(userJSON))
    match lib.Post
        (c.config.BaseURLAPI ++ "/" ++ endpointUser ++ "?api_id=" ++ c.config.APIID
          ++ "&api_key=" ++ c.config.APIKey)
        "application/json" userJSON with
    | .error err =>
      ⟨[], none, some ("Error from Incapsula service when adding User "
        ++ user.UserEmail ++ ": " ++ err)⟩
    | .ok req =>
      match c.httpClient req with
      | .error err =>
        ⟨[req], none, some ("Error from Incapsula service when adding User "
          ++ user.UserEmail ++ ": " ++ err)⟩
      | .ok resp =>
        let responseBody := resp.Body
        if resp.StatusCode ≠ 200 then
          ⟨[req], none, some ("Error status code " ++ fmtD resp.StatusCode
            ++ " from Incapsula service when adding User " ++ user.UserEmail ++ ": "
            ++ responseBody)⟩
        else
          match lib.UnmarshalUser responseBody with
          | .error err =>
            ⟨[req], none, some ("Error parsing User JSON response for email "
              ++ user.UserEmail ++ ": " ++ err ++ "\nresponse: " ++ responseBody)⟩
          | .ok userResponse => ⟨[req], some userResponse, none⟩

/-- The method `GetUser` of client_user.go. -/
def Client.GetUser (lib : Stdlib) (c : Client) (userEmail : String) (accountID : Int) :
    Result User :=
  -- c.httpClient.Get(url)
  match lib.Get
      (c.config.BaseURLAPI ++ "/" ++ endpointUser ++ "?userEmail=" ++ userEmail
        ++ "&accountId=" ++ fmtD accountID ++ "&api_id=" ++ c.config.APIID
        ++ "&api_key=" ++ c.config.APIKey) with
  | .error err =>
    ⟨[], none, some ("Error from Incapsula service when reading User for Email "
      ++ userEmail ++ " (account id: " ++ fmtD accountID ++ "): " ++ err)⟩
  | .ok req =>
    match c.httpClient req with
    | .error err =>
      ⟨[req], none, some ("Error from Incapsula service when reading User for Email "
        ++ userEmail ++ " (account id: " ++ fmtD accountID ++ "): " ++ err)⟩
    | .ok resp =>
      let responseBody := resp.Body
      if resp.StatusCode ≠ 200 then
        ⟨[req], none, some ("Error status code " ++ fmtD resp.StatusCode
          ++ " from Incapsula service when reading User for Email " ++ userEmail
          ++ " (account id: " ++ fmtD accountID ++ "): " ++ responseBody)⟩
      else
        match lib.UnmarshalUser responseBody with
        | .error err =>
          ⟨[req], none, some ("Error parsing User JSON response for Email " ++ userEmail
            ++ " (account id: " ++ fmtD accountID ++ "): " ++ err ++ "\nresponse: "
            ++ responseBody)⟩
        | .ok userResponse => ⟨[req], some userResponse, none⟩

/-- The method `DeleteUser` of client_user.go. -/
def Client.DeleteUser (lib : Stdlib) (c : Client) (userEmail : String) (accountID : Int) :
    DeleteResult :=
  match lib.NewRequest "DELETE"
      (c.config.BaseURLAPI ++ "/" ++ endpointUser ++ "?userEmail=" ++ userEmail
        ++ "&accountId=" ++ fmtD accountID ++ "&api_id=" ++ c.config.APIID
        ++ "&api_key=" ++ c.config.APIKey)
      none with
  | .error err =>
    ⟨[], some ("Error preparing HTTP DELETE for deleting User with Email " ++ userEmail
      ++ " (account id: " ++ fmtD accountID ++ "): " ++ err)⟩
  | .ok req =>
    match c.httpClient req with
    | .error err =>
      ⟨[req], some ("Error from Incapsula service when deleting User with Email "
        ++ userEmail ++ " (account id: " ++ fmtD accountID ++ "): " ++ err)⟩
    | .ok resp =>
      let responseBody := resp.Body
      if resp.StatusCode ≠ 200 then
        ⟨[req], some ("Error status code " ++ fmtD resp.StatusCode
          ++ " from Incapsula service when deleting User with Email " ++ userEmail
          ++ " (account id: " ++ fmtD accountID ++ "): " ++ responseBody)⟩
      else
        match lib.UnmarshalDeleteUserResponse responseBody with
        | .error err =>
          ⟨[req], some ("Error parsing Email " ++ userEmail
            ++ " JSON response for Account ID " ++ fmtD accountID ++ ": " ++ err
            ++ "\nresponse: " ++ responseBody)⟩
        | .ok deleteUserResponse =>
          let err : Option String := none
          if deleteUserResponse.Code ≠ 200 then
            ⟨[req], some ("Error deleting Email " ++ userEmail
              ++ " JSON response for Account ID " ++ fmtD accountID ++ ": "
              ++ fmtErr err ++ "\nresponse: " ++ responseBody)⟩
          else ⟨[req], none⟩

/-! ## Struct tags and field names, as `reflect` and `encoding/json` read them -/

/-- The double quote character. -/
def dquote : Char := Char.ofNat 34

/-- The backslash character. -/
def backslash : Char := Char.ofNat 92

/-- The opening brace. -/
def lbrace : Char := Char.ofNat 123

/-- The closing brace. -/
def rbrace : Char := Char.ofNat 125

/-- The quoted value of a struct tag, scanned as `reflect.StructTag.Lookup` scans
it: the input starts after the opening quote; the result is the text up to the
closing quote and what follows it.  A backslash protects the next character. -/
def tagQuoted : Nat → List Char → Option (List Char × List Char)
  | 0, _ => none
  | _ + 1, [] => none
  | fuel + 1, c :: rest =>
    if c = dquote then some ([], rest)
    else if c = backslash then
      match rest with
      | [] => none
      | d :: rest2 => (tagQuoted fuel rest2).map (fun p => (c :: d :: p.1, p.2))
    else (tagQuoted fuel rest).map (fun p => (c :: p.1, p.2))

/-- The loop of `reflect.StructTag.Lookup`: a tag is a sequence of `name:"value"`
pairs separated by spaces; the scan stops without a value at the first pair that is
not of that form.  An escape sequence inside a value is returned as written (no tag
of the two files has one). -/
def tagLookupAux (key : List Char) : Nat → List Char → Option String
  | 0, _ => none
  | fuel + 1, tag =>
    let tag1 := tag.dropWhile (fun ch => ch = ' ')
    let name := tag1.takeWhile
      (fun ch => decide (ch.toNat > 32) && ch != ':' && ch != dquote && ch.toNat != 127)
    match tag1.drop name.length with
    | c1 :: c2 :: rest =>
      if name.isEmpty || c1 != ':' || c2 != dquote then none
      else
        match tagQuoted (rest.length + 1) rest with
        | none => none
        | some (value, rest2) =>
          if name = key then some (String.mk value) else tagLookupAux key fuel rest2
    | _ => none

/-- The method `reflect.StructTag.Lookup(key)` on the tag text of a struct field. -/
def tagLookup (key tag : String) : Option String :=
  tagLookupAux key.data (tag.length + 1) tag.data

/-- The function `isValidTag` of encoding/json on a name of ASCII characters. -/
def isValidTag (s : String) : Bool :=
  !s.data.isEmpty &&
  s.data.all (fun c => c.isAlphanum || "!#$%&()*+-./:;<=>?@[]^_\x7b|\x7d~ ".data.contains c)

/-- The name under which encoding/json reads and writes a struct field, from the Go
name of the field and the text of its tag: the part of the `json` tag value before
the first comma when the tag has a `json` value and that part is a valid name, the Go
name of the field otherwise; `none` when the tag value is `-` (the field is
skipped).  The tags of the two files carry no option after a comma. -/
def jsonFieldName (goName tag : String) : Option String :=
  match tagLookup "json" tag with
  | none => some goName
  | some value =>
    if value = "-" then none
    else
      let name := String.mk (value.data.takeWhile (fun ch => ch != ','))
      if isValidTag name then some name else some goName

/-- The fields of `RoleDetails`: Go name and tag text, in declaration order. -/
def roleDetailsFields : List (String × String) :=
  [("RoleID", "json:roleId"), ("RoleName", "json:roleName"),
   ("RoleDescription", "json:roleDescription"), ("AccountID", "json:accountId"),
   ("AccountName", "json:accountName"), ("RoleAbilities", "json:roleAbilities"),
   ("UserAssignment", "json:userAssignment"), ("UpdateDate", "json:updateDate"),
   ("IsEditable", "json:isEditable")]

/-- The fields of the element struct of `RoleDetails.UserAssignment`. -/
def userAssignmentFields : List (String × String) :=
  [("UserEmail", "json:userEmail"), ("AccountID", "json:accountId")]

/-- The fields of `CreateRole`. -/
def createRoleFields : List (String × String) :=
  [("RoleName", "json:roleName"), ("RoleDescription", "json:roleDescription"),
   ("AccountID", "json:accountId"), ("RoleAbilities", "json:roleAbilities")]

/-- The fields of `UpdateRole`. -/
def updateRoleFields : List (String × String) :=
  [("RoleName", "json:roleName"), ("RoleDescription", "json:roleDescription"),
   ("RoleAbilities", "json:roleAbilities")]

/-- The fields of `User`. -/
def userFields : List (String × String) :=
  [("UserID", "json:userId"), ("AccountID", "json:accountId"),
   ("FirstName", "json:firstName"), ("LastName", "json:lastName"),
   ("UserEmail", "json:userEmail"), ("RoleDetails", "json:rolesDetails")]

/-- The fields of the element struct of `User.RoleDetails`. -/
def userRoleFields : List (String × String) :=
  [("RoleID", "json:roleId"), ("RoleName", "json:roleName")]

/-- The fields of `CreateUser`. -/
def createUserFields : List (String × String) :=
  [("AccountID", "json:accountId"), ("UserEmail", "json:userEmail"),
   ("RoleIds", "json:roleIds"), ("RoleNames", "json:roleNames"),
   ("FirstName", "json:firstName"), ("LastName", "json:lastName")]

/-- The fields of `DeleteRoleResponse` and of `DeleteUserResponse`; these tags are
written with their quotes. -/
def deleteResponseFields : List (String × String) :=
  [("Code", "json:\"code\""), ("Message", "json:\"message\""),
   ("DebugInfo", "json:\"debug_info\"")]

/-- One character of the case-insensitive comparison of encoding/json between a
field name of ASCII characters and a member name: equal characters, ASCII letters
that differ in case only, and the two letters outside ASCII that fold to `s` and
`k` (U+017F and U+212A). -/
def foldEqChar (sb tc : Char) : Bool :=
  if tc.toNat < 128 then sb = tc || (sb.isAlpha && sb.toUpper = tc.toUpper)
  else ((sb = 's' || sb = 'S') && tc.toNat = 0x17F)
    || ((sb = 'k' || sb = 'K') && tc.toNat = 0x212A)

/-- The case-insensitive comparison of a field name with a member name. -/
def equalFold : List Char → List Char → Bool
  | [], [] => true
  | sb :: s, tc :: t => foldEqChar sb tc && equalFold s t
  | _, _ => false

/-- The field of a struct a member name selects when encoding/json decodes an
object: the field whose JSON name is the member name, and failing that the first
field whose JSON name equals it up to case.  The result is the Go name of the
field. -/
def findField (fields : List (String × String)) (key : String) : Option String :=
  let named := fields.filterMap
    (fun f => (jsonFieldName f.1 f.2).map (fun n => (f.1, n)))
  match named.find? (fun f => f.2 = key) with
  | some f => some f.1
  | none => (named.find? (fun f => equalFold f.2.data key.data)).map (fun f => f.1)

/-! ## Reading a JSON document -/

/-- The white space of the JSON grammar. -/
def isSpace (c : Char) : Bool := c = ' ' || c = '\t' || c = '\r' || c = '\n'

/-- The input after its leading white space. -/
def skipSpace (cs : List Char) : List Char := cs.dropWhile isSpace

/-- The value of a hexadecimal digit. -/
def hexVal (c : Char) : Option Nat :=
  if '0' ≤ c ∧ c ≤ '9' then some (c.toNat - 48)
  else if 'a' ≤ c ∧ c ≤ 'f' then some (c.toNat - 87)
  else if 'A' ≤ c ∧ c ≤ 'F' then some (c.toNat - 55)
  else none

/-- The function `getu4` of encoding/json: the number written by the six
characters of a `\uXXXX` escape at the head of the input. -/
def getu4 : List Char → Option Nat
  | b :: u :: h1 :: h2 :: h3 :: h4 :: _ =>
    if b = backslash ∧ u = 'u' then
      match hexVal h1, hexVal h2, hexVal h3, hexVal h4 with
      | some a, some b, some c, some d => some (((a * 16 + b) * 16 + c) * 16 + d)
      | _, _, _, _ => none
    else none
  | _ => none

/-- A string literal after its opening quote: the characters it denotes and the
input after its closing quote.  Escapes are read as `unquote` of encoding/json reads
them: a `\u` escape of a surrogate pair is one character, a lone surrogate is
U+FFFD. -/
def parseStringBody : Nat → List Char → Option (List Char × List Char)
  | 0, _ => none
  | _ + 1, [] => none
  | fuel + 1, c :: rest =>
    if c = dquote then some ([], rest)
    else if c = backslash then
      match rest with
      | [] => none
      | e :: rest2 =>
        if e = 'u' then
          match getu4 (c :: rest) with
          | none => none
          | some rr =>
            let rest3 := rest2.drop 4
            if 0xD800 ≤ rr ∧ rr < 0xE000 then
              match getu4 rest3 with
              | some rr1 =>
                if rr < 0xDC00 ∧ 0xDC00 ≤ rr1 ∧ rr1 < 0xE000 then
                  (parseStringBody fuel (rest3.drop 6)).map (fun p =>
                    (Char.ofNat ((rr - 0xD800) * 0x400 + (rr1 - 0xDC00) + 0x10000) :: p.1, p.2))
                else (parseStringBody fuel rest3).map (fun p => (Char.ofNat 0xFFFD :: p.1, p.2))
              | none => (parseStringBody fuel rest3).map (fun p => (Char.ofNat 0xFFFD :: p.1, p.2))
            else (parseStringBody fuel rest3).map (fun p => (Char.ofNat rr :: p.1, p.2))
        else
          let plain : Option Char :=
            if e = dquote ∨ e = backslash ∨ e = '/' then some e
            else if e = 'b' then some (Char.ofNat 8)
            else if e = 'f' then some (Char.ofNat 12)
            else if e = 'n' then some '\n'
            else if e = 'r' then some '\r'
            else if e = 't' then some '\t'
            else none
          match plain with
          | none => none
          | some ch => (parseStringBody fuel rest2).map (fun p => (ch :: p.1, p.2))
    else if c.toNat < 0x20 then none
    else (parseStringBody fuel rest).map (fun p => (c :: p.1, p.2))

/-- The longest run of decimal digits at the head of the input, and what follows. -/
def spanDigits (cs : List Char) : List Char × List Char := cs.span Char.isDigit

/-- A number literal at the head of the input: an optional minus sign, an integer
part without a superfluous leading zero, an optional fraction and an optional
exponent.  The result is the literal and what follows it. -/
def scanNumber (cs : List Char) : Option (List Char × List Char) :=
  let (sign, cs1) := match cs with
    | c :: rest => if c = '-' then ([c], rest) else ([], cs)
    | [] => ([], cs)
  let intPart : Option (List Char × List Char) := match cs1 with
    | c :: rest =>
      if c = '0' then some ([c], rest)
      else if c.isDigit then some (spanDigits cs1)
      else none
    | [] => none
  match intPart with
  | none => none
  | some (ds, cs2) =>
    let fracPart : Option (List Char × List Char) := match cs2 with
      | c :: rest =>
        if c = '.' then
          let (fs, r) := spanDigits rest
          if fs.isEmpty then none else some (c :: fs, r)
        else some ([], cs2)
      | [] => some ([], cs2)
    match fracPart with
    | none => none
    | some (fs, cs3) =>
      let expPart : Option (List Char × List Char) := match cs3 with
        | c :: rest =>
          if c = 'e' ∨ c = 'E' then
            let (sg, rest2) := match rest with
              | d :: rest3 => if d = '+' ∨ d = '-' then ([d], rest3) else ([], rest)
              | [] => ([], rest)
            let (es, r) := spanDigits rest2
            if es.isEmpty then none else some (c :: (sg ++ es), r)
          else some ([], cs3)
        | [] => some ([], cs3)
      match expPart with
      | none => none
      | some (es, cs4) => some (sign ++ ds ++ fs ++ es, cs4)

/-- The input after the literal word `w`, when the input starts with it. -/
def dropWord (w : String) (cs : List Char) : Option (List Char) :=
  if w.data.isPrefixOf cs then some (cs.drop w.length) else none

mutual

/-- A JSON value at the head of the input (no leading white space): the value and
the input after it. -/
def parseValue : Nat → List Char → Option (JSON × List Char)
  | 0, _ => none
  | _ + 1, [] => none
  | fuel + 1, c :: rest =>
    if c = lbrace then
      match skipSpace rest with
      | [] => none
      | d :: rest2 =>
        if d = rbrace then some (JSON.obj [], rest2)
        else (parseMembers fuel (d :: rest2)).map (fun p => (JSON.obj p.1, p.2))
    else if c = '[' then
      match skipSpace rest with
      | [] => none
      | d :: rest2 =>
        if d = ']' then some (JSON.arr [], rest2)
        else (parseElements fuel (d :: rest2)).map (fun p => (JSON.arr p.1, p.2))
    else if c = dquote then
      (parseStringBody (rest.length + 1) rest).map (fun p => (JSON.str (String.mk p.1), p.2))
    else if c = 't' then (dropWord "true" (c :: rest)).map (fun r => (JSON.bool true, r))
    else if c = 'f' then (dropWord "false" (c :: rest)).map (fun r => (JSON.bool false, r))
    else if c = 'n' then (dropWord "null" (c :: rest)).map (fun r => (JSON.null, r))
    else (scanNumber (c :: rest)).map (fun p => (JSON.num (String.mk p.1), p.2))

/-- The members of an object, from the opening quote of a member name to the
closing brace. -/
def parseMembers : Nat → List Char → Option (List (String × JSON) × List Char)
  | 0, _ => none
  | _ + 1, [] => none
  | fuel + 1, c :: rest =>
    if c ≠ dquote then none
    else
      match parseStringBody (rest.length + 1) rest with
      | none => none
      | some (key, rest1) =>
        match skipSpace rest1 with
        | [] => none
        | colon :: rest2 =>
          if colon ≠ ':' then none
          else
            match parseValue fuel (skipSpace rest2) with
            | none => none
            | some (v, rest3) =>
              match skipSpace rest3 with
              | [] => none
              | sep :: rest4 =>
                if sep = rbrace then some ([(String.mk key, v)], rest4)
                else if sep = ',' then
                  (parseMembers fuel (skipSpace rest4)).map
                    (fun p => ((String.mk key, v) :: p.1, p.2))
                else none

/-- The elements of an array, from the first element to the closing bracket. -/
def parseElements : Nat → List Char → Option (List JSON × List Char)
  | 0, _ => none
  | fuel + 1, cs =>
    match parseValue fuel cs with
    | none => none
    | some (v, rest1) =>
      match skipSpace rest1 with
      | [] => none
      | sep :: rest2 =>
        if sep = ']' then some ([v], rest2)
        else if sep = ',' then
          (parseElements fuel (skipSpace rest2)).map (fun p => (v :: p.1, p.2))
        else none

end

/-- The number of arrays and objects a document nests inside one another: 0 for a
scalar, 1 for an array or an object of scalars (and for an empty one). -/
def JSON.depth : JSON → Nat
  | .null => 0
  | .bool _ => 0
  | .num _ => 0
  | .str _ => 0
  | .arr xs => elems xs + 1
  | .obj kvs => members kvs + 1
where
  /-- The greatest depth of an element. -/
  elems : List JSON → Nat
    | [] => 0
    | x :: xs => max x.depth (elems xs)
  /-- The greatest depth of a member value. -/
  members : List (String × JSON) → Nat
    | [] => 0
    | kv :: rest => max kv.2.depth (members rest)

/-- The constant `maxNestingDepth` of the scanner of encoding/json. -/
def maxNestingDepth : Nat := 10000

/-- The document a text denotes when encoding/json accepts it as valid JSON: one
value, with white space allowed before and after it, in which arrays and objects are
nested no deeper than `maxNestingDepth` (the scanner of the releases since Go 1.15
reports `exceeded max depth` beyond it); `none` when the text is not accepted. -/
def parseJSON (s : String) : Option JSON :=
  match parseValue (2 * s.length + 2) (skipSpace s.data) with
  | none => none
  | some (j, rest) =>
    if (skipSpace rest).isEmpty ∧ j.depth ≤ maxNestingDepth then some j else none


/-! ## Decoding a document into the structs -/

/-- The function `strconv.ParseInt(lit, 10, 64)` on a JSON number literal: the
integer the literal writes when it has neither fraction nor exponent and fits 64
bits. -/
def parseInt64 (lit : String) : Option Int :=
  let signed : Bool × List Char := match lit.data with
    | c :: rest => if c = '-' then (true, rest) else (false, lit.data)
    | [] => (false, [])
  if signed.2.isEmpty || !signed.2.all Char.isDigit then none
  else
    let n : Nat := signed.2.foldl (fun acc d => acc * 10 + (d.toNat - 48)) 0
    let v : Int := if signed.1 then -(n : Int) else (n : Int)
    if -(2 ^ 63 : Int) ≤ v ∧ v < (2 ^ 63 : Int) then some v else none

/-- Whether `strconv.ParseFloat(lit, 64)` reports a range error on a JSON number
literal: the number it writes is, in absolute value, at least `2^1024 - 2^970`, the
least number that rounds beyond the largest float64. -/
def floatOverflows (lit : String) : Bool :=
  let cs := match lit.data with
    | c :: rest => if c = '-' then rest else lit.data
    | [] => []
  let ip := spanDigits cs
  let fp : List Char × List Char := match ip.2 with
    | c :: rest => if c = '.' then spanDigits rest else ([], ip.2)
    | [] => ([], [])
  let ex : Int := match fp.2 with
    | c :: rest =>
      if c = 'e' ∨ c = 'E' then
        match rest with
        | d :: rest2 =>
          if d = '-' then -((rest2.foldl (fun acc x => acc * 10 + (x.toNat - 48)) 0 : Nat) : Int)
          else if d = '+' then ((rest2.foldl (fun acc x => acc * 10 + (x.toNat - 48)) 0 : Nat) : Int)
          else ((rest.foldl (fun acc x => acc * 10 + (x.toNat - 48)) 0 : Nat) : Int)
        | [] => 0
      else 0
    | [] => 0
  let mant : Nat := (ip.1 ++ fp.1).foldl (fun acc x => acc * 10 + (x.toNat - 48)) 0
  let e10 : Int := ex - (fp.1.length : Int)
  let bound : Nat := 2 ^ 1024 - 2 ^ 970
  if 0 ≤ e10 then decide (bound ≤ mant * 10 ^ e10.toNat)
  else decide (bound * 10 ^ (-e10).toNat ≤ mant)

/-- Whether every number of a document can be stored in a float64, as decoding into
an `interface{}` stores it. -/
def JSON.numbersFit : JSON → Bool
  | .null => true
  | .bool _ => true
  | .num lit => !floatOverflows lit
  | .str _ => true
  | .arr xs => elems xs
  | .obj kvs => members kvs
where
  /-- Every element fits. -/
  elems : List JSON → Bool
    | [] => true
    | x :: xs => x.numbersFit && elems xs
  /-- Every member value fits. -/
  members : List (String × JSON) → Bool
    | [] => true
    | kv :: rest => kv.2.numbersFit && members rest

/-- Decoding into an `int`: `null` leaves the value, a number literal must be an
integer of 64 bits, anything else is a type error (`none`). -/
def decodeInt (cur : Int) : JSON → Option Int
  | .null => some cur
  | .num lit => parseInt64 lit
  | _ => none

/-- Decoding into a `string`. -/
def decodeString (cur : String) : JSON → Option String
  | .null => some cur
  | .str s => some s
  | _ => none

/-- Decoding into a `bool`. -/
def decodeBool (cur : Bool) : JSON → Option Bool
  | .null => some cur
  | .bool b => some b
  | _ => none

/-- Decoding into an `interface{}`: `null` gives the nil interface, any other
document is stored, unless one of its numbers does not fit a float64. -/
def decodeInterface : JSON → Option (Option JSON)
  | .null => some none
  | j => if j.numbersFit then some (some j) else none

/-- The list of the values of `f` on the elements, when `f` succeeds on each. -/
def mapOpt {α β : Type} (f : α → Option β) : List α → Option (List β)
  | [] => some []
  | x :: xs =>
    match f x with
    | none => none
    | some y =>
      match mapOpt f xs with
      | none => none
      | some ys => some (y :: ys)

/-- Decoding into a slice: `null` gives the nil slice, an array gives the slice of
its decoded elements, each decoded into a zero element.  (When a member name occurs
twice in one object Go decodes the second array over the elements of the first;
here the second array replaces the first.) -/
def decodeSlice {α : Type} (elem : JSON → Option α) : JSON → Option (Slice α)
  | .null => some none
  | .arr xs => (mapOpt elem xs).map some
  | _ => none

/-- The members of an object decoded, in order, into a struct: a member whose name
selects no field is skipped, a member whose value does not fit the field makes the
decoding fail. -/
def decodeMembers {α : Type} (fields : List (String × String))
    (setField : α → String → JSON → Option α) : α → List (String × JSON) → Option α
  | r, [] => some r
  | r, kv :: rest =>
    match findField fields kv.1 with
    | none => decodeMembers fields setField r rest
    | some f =>
      match setField r f kv.2 with
      | none => none
      | some r1 => decodeMembers fields setField r1 rest

/-- Decoding into a struct: `null` leaves the struct, an object is decoded member by
member, anything else is a type error. -/
def decodeStruct {α : Type} (fields : List (String × String))
    (setField : α → String → JSON → Option α) (cur : α) : JSON → Option α
  | .null => some cur
  | .obj kvs => decodeMembers fields setField cur kvs
  | _ => none

/-- Decoding a value into the field of the element struct of
`RoleDetails.UserAssignment` with the given Go name. -/
def UserAssignment.setField (r : UserAssignment) (field : String) (v : JSON) :
    Option UserAssignment :=
  if field = "UserEmail" then (decodeString r.UserEmail v).map (fun x => { r with UserEmail := x })
  else if field = "AccountID" then (decodeInt r.AccountID v).map (fun x => { r with AccountID := x })
  else some r

/-- Decoding one element of `RoleDetails.UserAssignment`. -/
def decodeUserAssignment (j : JSON) : Option UserAssignment :=
  decodeStruct userAssignmentFields UserAssignment.setField ⟨"", 0⟩ j

/-- Decoding a value into the field of `RoleDetails` with the given Go name. -/
def RoleDetails.setField (r : RoleDetails) (field : String) (v : JSON) : Option RoleDetails :=
  if field = "RoleID" then (decodeInt r.RoleID v).map (fun x => { r with RoleID := x })
  else if field = "RoleName" then
    (decodeString r.RoleName v).map (fun x => { r with RoleName := x })
  else if field = "RoleDescription" then
    (decodeString r.RoleDescription v).map (fun x => { r with RoleDescription := x })
  else if field = "AccountID" then
    (decodeInt r.AccountID v).map (fun x => { r with AccountID := x })
  else if field = "AccountName" then
    (decodeString r.AccountName v).map (fun x => { r with AccountName := x })
  else if field = "RoleAbilities" then
    (decodeSlice (decodeString "") v).map (fun x => { r with RoleAbilities := x })
  else if field = "UserAssignment" then
    (decodeSlice decodeUserAssignment v).map (fun x => { r with UserAssignment := x })
  else if field = "UpdateDate" then
    (decodeString r.UpdateDate v).map (fun x => { r with UpdateDate := x })
  else if field = "IsEditable" then
    (decodeBool r.IsEditable v).map (fun x => { r with IsEditable := x })
  else some r

/-- The zero value of `RoleDetails`, as `var roleDetails RoleDetails` declares it. -/
def RoleDetails.zero : RoleDetails := ⟨0, "", "", 0, "", none, none, "", false⟩

/-- Decoding a value into the field of the element struct of `User.RoleDetails` with
the given Go name. -/
def UserRole.setField (r : UserRole) (field : String) (v : JSON) : Option UserRole :=
  if field = "RoleID" then (decodeInt r.RoleID v).map (fun x => { r with RoleID := x })
  else if field = "RoleName" then (decodeString r.RoleName v).map (fun x => { r with RoleName := x })
  else some r

/-- Decoding one element of `User.RoleDetails`. -/
def decodeUserRole (j : JSON) : Option UserRole :=
  decodeStruct userRoleFields UserRole.setField ⟨0, ""⟩ j

/-- Decoding a value into the field of `User` with the given Go name. -/
def User.setField (r : User) (field : String) (v : JSON) : Option User :=
  if field = "UserID" then (decodeInt r.UserID v).map (fun x => { r with UserID := x })
  else if field = "AccountID" then
    (decodeInt r.AccountID v).map (fun x => { r with AccountID := x })
  else if field = "FirstName" then
    (decodeString r.FirstName v).map (fun x => { r with FirstName := x })
  else if field = "LastName" then
    (decodeString r.LastName v).map (fun x => { r with LastName := x })
  else if field = "UserEmail" then
    (decodeString r.UserEmail v).map (fun x => { r with UserEmail := x })
  else if field = "RoleDetails" then
    (decodeSlice decodeUserRole v).map (fun x => { r with RoleDetails := x })
  else some r

/-- The zero value of `User`, as `var userResponse User` declares it. -/
def User.zero : User := ⟨0, 0, "", "", "", none⟩

/-- Decoding a value into the field of `DeleteRoleResponse` (and of
`DeleteUserResponse`) with the given Go name. -/
def DeleteRoleResponse.setField (r : DeleteRoleResponse) (field : String) (v : JSON) :
    Option DeleteRoleResponse :=
  if field = "Code" then (decodeInt r.Code v).map (fun x => { r with Code := x })
  else if field = "Message" then (decodeString r.Message v).map (fun x => { r with Message := x })
  else if field = "DebugInfo" then (decodeInterface v).map (fun x => { r with DebugInfo := x })
  else some r

/-- The zero value of `DeleteRoleResponse`. -/
def DeleteRoleResponse.zero : DeleteRoleResponse := ⟨0, "", none⟩

/-! ## Encoding the mutation records -/

/-- One character inside a string written by `json.Marshal` (with its default HTML
escaping, as Go releases before 1.22 write backspace and form feed). -/
def encodeChar (c : Char) : List Char :=
  if c = dquote ∨ c = backslash then [backslash, c]
  else if c = '\n' then [backslash, 'n']
  else if c = '\r' then [backslash, 'r']
  else if c = '\t' then [backslash, 't']
  else if c.toNat < 0x20 ∨ c = '<' ∨ c = '>' ∨ c = '&' then
    [backslash, 'u', '0', '0', "0123456789abcdef".data.getD (c.toNat / 16) '0',
      "0123456789abcdef".data.getD (c.toNat % 16) '0']
  else if c.toNat = 0x2028 then [backslash, 'u', '2', '0', '2', '8']
  else if c.toNat = 0x2029 then [backslash, 'u', '2', '0', '2', '9']
  else [c]

/-- A string as `json.Marshal` writes it. -/
def encodeString (s : String) : String :=
  String.mk (dquote :: ((s.data.map encodeChar).flatten ++ [dquote]))

/-- A slice as `json.Marshal` writes it: `null` for the nil slice, the bracketed
elements otherwise. -/
def encodeSlice {α : Type} (elem : α → String) : Slice α → String
  | none => "null"
  | some xs => "[" ++ ",".intercalate (xs.map elem) ++ "]"

/-- A struct as `json.Marshal` writes it, from its fields and their encoded values
in declaration order: an object with one member per field that is not skipped, named
by `jsonFieldName`. -/
def marshalStruct (fields : List (String × String)) (values : List String) : String :=
  let members := (fields.zip values).filterMap
    (fun fv => (jsonFieldName fv.1.1 fv.1.2).map (fun n => encodeString n ++ ":" ++ fv.2))
  String.singleton lbrace ++ ",".intercalate members ++ String.singleton rbrace

/-- The text `json.Marshal` produces for a `CreateRole`. -/
def marshalCreateRole (r : CreateRole) : String :=
  marshalStruct createRoleFields
    [encodeString r.RoleName, encodeString r.RoleDescription, fmtD r.AccountID,
     encodeSlice encodeString r.RoleAbilities]

/-- The text `json.Marshal` produces for an `UpdateRole`. -/
def marshalUpdateRole (r : UpdateRole) : String :=
  marshalStruct updateRoleFields
    [encodeString r.RoleName, encodeString r.RoleDescription,
     encodeSlice encodeString r.RoleAbilities]

/-- The text `json.Marshal` produces for a `CreateUser`. -/
def marshalCreateUser (r : CreateUser) : String :=
  marshalStruct createUserFields
    [fmtD r.AccountID, encodeString r.UserEmail, encodeSlice fmtD r.RoleIds,
     encodeSlice encodeString r.RoleNames, encodeString r.FirstName,
     encodeString r.LastName]

/-! ## The standard library, concretely -/

/-- The function `json.Unmarshal` of a body into a zero value: the body must be
valid JSON and must fit the target.  `jsonErr body` is the text of the error
`json.Unmarshal` returns for a body it rejects. -/
def unmarshal {α : Type} (jsonErr : String → String) (decode : JSON → Option α)
    (body : String) : Except String α :=
  match parseJSON body with
  | none => .error (jsonErr body)
  | some j =>
    match decode j with
    | none => .error (jsonErr body)
    | some r => .ok r

/-- The standard library on the structs of the two files.  `json.Marshal` cannot
fail on them.  The two parameters are what this model leaves to the library: the
texts of the errors of `json.Unmarshal`, and the failure of `http.NewRequest` on a
method and a URL. -/
def goStdlib (jsonErr : String → String) (urlErr : String → String → Option String) :
    Stdlib where
  MarshalCreateRole := fun r => .ok (marshalCreateRole r)
  MarshalUpdateRole := fun r => .ok (marshalUpdateRole r)
  MarshalCreateUser := fun r => .ok (marshalCreateUser r)
  UnmarshalRoleDetails :=
    unmarshal jsonErr (decodeStruct roleDetailsFields RoleDetails.setField RoleDetails.zero)
  UnmarshalUser := unmarshal jsonErr (decodeStruct userFields User.setField User.zero)
  UnmarshalDeleteRoleResponse :=
    unmarshal jsonErr
      (decodeStruct deleteResponseFields DeleteRoleResponse.setField DeleteRoleResponse.zero)
  UnmarshalDeleteUserResponse :=
    unmarshal jsonErr
      (decodeStruct deleteResponseFields DeleteRoleResponse.setField DeleteRoleResponse.zero)
  NewRequestErr := urlErr

/-- One character as the verb `%q` of package fmt (`strconv.Quote`) writes it inside
the quotes: the quote and the backslash after a backslash, the control characters of
ASCII by their escapes, any other character as it is.  (For a character outside
ASCII `strconv.Quote` consults the tables of package unicode and escapes the ones
that are not printable; those tables are not part of this model.) -/
def quoteChar (c : Char) : List Char :=
  if c = dquote ∨ c = backslash then [backslash, c]
  else if c.toNat = 7 then [backslash, 'a']
  else if c.toNat = 8 then [backslash, 'b']
  else if c.toNat = 12 then [backslash, 'f']
  else if c = '\n' then [backslash, 'n']
  else if c = '\r' then [backslash, 'r']
  else if c = '\t' then [backslash, 't']
  else if c.toNat = 11 then [backslash, 'v']
  else if c.toNat < 0x20 ∨ c.toNat = 0x7f then
    [backslash, 'x', "0123456789abcdef".data.getD (c.toNat / 16) '0',
      "0123456789abcdef".data.getD (c.toNat % 16) '0']
  else [c]

/-- The verb `%q` of package fmt on a string. -/
def fmtQ (s : String) : String :=
  String.mk (dquote :: ((s.data.map quoteChar).flatten ++ [dquote]))

/-- The check of `net/url` that rejects a URL containing an ASCII control
character, one of the ways `http.NewRequest` fails.  `url.Parse` cuts the text at
its first `#` and applies the check to the part before it; the text of the error is
the one of `url.Error` as Go releases since 1.14 write it, `parse "<url>": <cause>`
with that part of the URL quoted by `%q`. -/
def urlControlErr (_method url : String) : Option String :=
  let u := url.data.takeWhile (fun c => c != '#')
  if u.any (fun c => decide (c.toNat < 0x20) || c.toNat = 0x7f) then
    some ("parse " ++ fmtQ (String.mk u) ++ ": net/url: invalid control character in URL")
  else none

/-! ## The seven operations as one family -/

/-- One call of one of the seven operations, with its arguments. -/
inductive Call where
  | addRole (role : CreateRole)
  | getRole (roleID : Int)
  | updateRole (roleID : Int) (role : UpdateRole)
  | deleteRole (roleID : Int)
  | addUser (user : CreateUser)
  | getUser (userEmail : String) (accountID : Int)
  | deleteUser (userEmail : String) (accountID : Int)

/-- A decoded entity record of either kind. -/
inductive Record where
  | role (r : RoleDetails)
  | user (u : User)
deriving DecidableEq, Repr

/-- What a call does, whatever the operation: the requests handed to the transport,
the returned record (`none` for the nil pointer, and for the two delete operations,
which return no record) and the returned error. -/
structure Observed where
  sent : List Request
  record : Option Record
  err : Option String
deriving DecidableEq, Repr

/-- The observation of an operation that returns a record and an error. -/
def Result.observe {α : Type} (f : α → Record) (r : Result α) : Observed :=
  ⟨r.sent, r.record.map f, r.err⟩

/-- The observation of an operation that returns an error only. -/
def DeleteResult.observe (r : DeleteResult) : Observed := ⟨r.sent, none, r.err⟩

/-- Running a call: the operation of the client applied to the arguments. -/
def Call.run (lib : Stdlib) (c : Client) : Call → Observed
  | .addRole role => (c.AddRole lib role).observe Record.role
  | .getRole roleID => (c.GetRole lib roleID).observe Record.role
  | .updateRole roleID role => (c.UpdateRole lib roleID role).observe Record.role
  | .deleteRole roleID => (c.DeleteRole lib roleID).observe
  | .addUser user => (c.AddUser lib user).observe Record.user
  | .getUser userEmail accountID => (c.GetUser lib userEmail accountID).observe Record.user
  | .deleteUser userEmail accountID => (c.DeleteUser lib userEmail accountID).observe

/-- What a body decodes into: an entity record, or the envelope of a delete
operation. -/
inductive Decoded where
  | record (r : Record)
  | envelope (e : DeleteRoleResponse)

/-- The function `json.Unmarshal` of a body into the result shape of a call. -/
def Call.unmarshal (lib : Stdlib) (b : String) : Call → Except String Decoded
  | .addRole _ | .getRole _ | .updateRole _ _ =>
    match lib.UnmarshalRoleDetails b with
    | .error e => .error e
    | .ok r => .ok (.record (.role r))
  | .deleteRole _ =>
    match lib.UnmarshalDeleteRoleResponse b with
    | .error e => .error e
    | .ok env => .ok (.envelope env)
  | .addUser _ | .getUser _ _ =>
    match lib.UnmarshalUser b with
    | .error e => .error e
    | .ok u => .ok (.record (.user u))
  | .deleteUser _ _ =>
    match lib.UnmarshalDeleteUserResponse b with
    | .error e => .error e
    | .ok env => .ok (.envelope env)

/-- The phrase that names a call in its transport and status errors, as the
specification lists it. -/
def Call.phrase : Call → String
  | .addRole _ => "adding Role"
  | .getRole roleID => "reading Role " ++ fmtD roleID
  | .updateRole roleID _ => "updating Role " ++ fmtD roleID
  | .deleteRole roleID => "deleting Role " ++ fmtD roleID
  | .addUser user => "adding User " ++ user.UserEmail
  | .getUser userEmail accountID =>
    "reading User for Email " ++ userEmail ++ " (account id: " ++ fmtD accountID ++ ")"
  | .deleteUser userEmail accountID =>
    "deleting User with Email " ++ userEmail ++ " (account id: " ++ fmtD accountID ++ ")"

/-- The head of the decode error of a call, as the specification lists it. -/
def Call.parseLead : Call → String
  | .addRole _ => "Error parsing Role JSON response"
  | .getRole roleID => "Error parsing Role " ++ fmtD roleID ++ " JSON response"
  | .updateRole roleID _ => "Error parsing Role " ++ fmtD roleID ++ " JSON response"
  | .deleteRole roleID => "Error parsing Delete Role " ++ fmtD roleID ++ " JSON response"
  | .addUser user => "Error parsing User JSON response for email " ++ user.UserEmail
  | .getUser userEmail accountID =>
    "Error parsing User JSON response for Email " ++ userEmail ++ " (account id: "
      ++ fmtD accountID ++ ")"
  | .deleteUser userEmail accountID =>
    "Error parsing Email " ++ userEmail ++ " JSON response for Account ID "
      ++ fmtD accountID

/-- The head of the semantic error of a delete call, as the specification lists it
(the empty string for the other calls, which have no semantic check). -/
def Call.semanticLead : Call → String
  | .deleteRole roleID => "Error deleting Role " ++ fmtD roleID ++ " JSON response"
  | .deleteUser userEmail accountID =>
    "Error deleting Email " ++ userEmail ++ " JSON response for Account ID "
      ++ fmtD accountID
  | _ => ""

/-- The Request Builder of the specification (section 4.2) for a call: the request
handed to the transport, or the text of the error the operation returns when the
body cannot be serialized or net/http rejects the URL (in `http.NewRequest` for
UpdateRole and the delete operations, inside `Get` and `Post` for the others), in
which case nothing is handed to the transport. -/
def Call.prepare (lib : Stdlib) (c : Client) : Call → Except String Request
  | .addRole role =>
    match lib.MarshalCreateRole role with
    | .error e => .error ("Failed to JSON marshal Role: " ++ e)
    | .ok body =>
      match lib.Post (c.config.BaseURLAPI ++ "/user-management/v1/roles?api_id="
          ++ c.config.APIID ++ "&api_key=" ++ c.config.APIKey) "application/json" body with
      | .error e => .error ("Error from Incapsula service when adding Role: " ++ e)
      | .ok req => .ok req
  | .getRole roleID =>
    match lib.Get (c.config.BaseURLAPI ++ "/user-management/v1/roles/" ++ fmtD roleID
        ++ "?api_id=" ++ c.config.APIID ++ "&api_key=" ++ c.config.APIKey) with
    | .error e =>
      .error ("Error from Incapsula service when reading Role " ++ fmtD roleID ++ ": " ++ e)
    | .ok req => .ok req
  | .updateRole roleID role =>
    match lib.MarshalUpdateRole role with
    | .error e => .error ("Failed to JSON marshal Role: " ++ e)
    | .ok body =>
      match lib.NewRequest "PUT" (c.config.BaseURLAPI ++ "/user-management/v1/roles/"
          ++ fmtD roleID ++ "?api_id=" ++ c.config.APIID ++ "&api_key=" ++ c.config.APIKey)
          (some body) with
      | .error e =>
        .error ("Error preparing HTTP PUT for updating Role " ++ fmtD roleID ++ ": " ++ e)
      | .ok req => .ok req
  | .deleteRole roleID =>
    match lib.NewRequest "DELETE" (c.config.BaseURLAPI ++ "/user-management/v1/roles/"
        ++ fmtD roleID ++ "?api_id=" ++ c.config.APIID ++ "&api_key=" ++ c.config.APIKey)
        none with
    | .error e =>
      .error ("Error preparing HTTP DELETE for deleting Role " ++ fmtD roleID ++ ": " ++ e)
    | .ok req => .ok req
  | .addUser user =>
    match lib.MarshalCreateUser user with
    | .error e => .error ("Failed to JSON marshal User: " ++ e)
    | .ok body =>
      match lib.Post (c.config.BaseURLAPI ++ "/user-management/v1/users?api_id="
          ++ c.config.APIID ++ "&api_key=" ++ c.config.APIKey) "application/json" body with
      | .error e =>
        .error ("Error from Incapsula service when adding User " ++ user.UserEmail ++ ": "
          ++ e)
      | .ok req => .ok req
  | .getUser userEmail accountID =>
    match lib.Get (c.config.BaseURLAPI ++ "/user-management/v1/users?userEmail="
        ++ userEmail ++ "&accountId=" ++ fmtD accountID ++ "&api_id=" ++ c.config.APIID
        ++ "&api_key=" ++ c.config.APIKey) with
    | .error e =>
      .error ("Error from Incapsula service when reading User for Email " ++ userEmail
        ++ " (account id: " ++ fmtD accountID ++ "): " ++ e)
    | .ok req => .ok req
  | .deleteUser userEmail accountID =>
    match lib.NewRequest "DELETE" (c.config.BaseURLAPI
        ++ "/user-management/v1/users?userEmail=" ++ userEmail ++ "&accountId="
        ++ fmtD accountID ++ "&api_id=" ++ c.config.APIID ++ "&api_key=" ++ c.config.APIKey)
        none with
    | .error e =>
      .error ("Error preparing HTTP DELETE for deleting User with Email " ++ userEmail
        ++ " (account id: " ++ fmtD accountID ++ "): " ++ e)
    | .ok req => .ok req

/-- The Response Interpreter of the specification (section 4.3) for a call: the
ordered policy applied to the transport's answer to the request `req`. -/
def Call.interpret (lib : Stdlib) (call : Call) (req : Request) :
    Except String Response → Observed
  | .error e =>
    ⟨[req], none, some ("Error from Incapsula service when " ++ call.phrase ++ ": " ++ e)⟩
  | .ok resp =>
    if resp.StatusCode ≠ 200 then
      ⟨[req], none, some ("Error status code " ++ fmtD resp.StatusCode
        ++ " from Incapsula service when " ++ call.phrase ++ ": " ++ resp.Body)⟩
    else
      match call.unmarshal lib resp.Body with
      | .error e =>
        ⟨[req], none, some (call.parseLead ++ ": " ++ e ++ "\nresponse: " ++ resp.Body)⟩
      | .ok (.record r) => ⟨[req], some r, none⟩
      | .ok (.envelope env) =>
        if env.Code ≠ 200 then
          ⟨[req], none, some (call.semanticLead ++ ": " ++ fmtErr none ++ "\nresponse: "
            ++ resp.Body)⟩
        else ⟨[req], none, none⟩

/-- The pipeline of the specification (section 4.4): build, send, classify. -/
def Call.pipeline (lib : Stdlib) (c : Client) (call : Call) : Observed :=
  match call.prepare lib c with
  | .error e => ⟨[], none, some e⟩
  | .ok req => call.interpret lib req (c.httpClient req)

/-- A library that differs from `lib` in its four `json.Unmarshal` functions only. -/
def Stdlib.withUnmarshal (lib : Stdlib) (u1 : String → Except String RoleDetails)
    (u2 : String → Except String User) (u3 : String → Except String DeleteRoleResponse)
    (u4 : String → Except String DeleteUserResponse) : Stdlib :=
  { lib with
    UnmarshalRoleDetails := u1, UnmarshalUser := u2,
    UnmarshalDeleteRoleResponse := u3, UnmarshalDeleteUserResponse := u4 }

/-- The text `s` starts with the text `p`, as `strings.HasPrefix(s, p)` tests it. -/
def startsWith (s p : String) : Prop := p.data <+: s.data

instance (s p : String) : Decidable (startsWith s p) :=
  inferInstanceAs (Decidable (p.data <+: s.data))

/-! ## The bodies the specification calls well-formed -/

/-- The integer a document writes, when it is a number literal of an `int`. -/
def JSON.asInt : JSON → Option Int
  | .num lit => parseInt64 lit
  | _ => none

/-- The string a document writes, when it is a string. -/
def JSON.asString : JSON → Option String
  | .str s => some s
  | _ => none

/-- The boolean a document writes, when it is `true` or `false`. -/
def JSON.asBool : JSON → Option Bool
  | .bool b => some b
  | _ => none

/-- The list of strings a document writes, when it is an array of strings. -/
def JSON.asStrings : JSON → Option (List String)
  | .arr xs => mapOpt JSON.asString xs
  | _ => none

/-- The value of the member named `k` of an object, read by `f`; `z` when the object
has no such member. -/
def memberOr {α : Type} (kvs : List (String × JSON)) (k : String) (f : JSON → Option α)
    (z : α) : α :=
  match kvs.lookup k with
  | some v => (f v).getD z
  | none => z

/-- A member of an element of `userAssignment`, as the specification describes it:
the key is `userEmail` with a string or `accountId` with an integer. -/
def assignmentMemberOK (k : String) (v : JSON) : Bool :=
  if k = "userEmail" then v.asString.isSome
  else if k = "accountId" then v.asInt.isSome
  else false

/-- The assignment written by the members of an object, over the defaults `r0`. -/
def assignmentOver (r0 : UserAssignment) (kvs : List (String × JSON)) : UserAssignment :=
  { UserEmail := memberOr kvs "userEmail" JSON.asString r0.UserEmail
    AccountID := memberOr kvs "accountId" JSON.asInt r0.AccountID }

/-- The assignment a document writes, when it is an object of distinct members each
of which is a member of an assignment. -/
def JSON.asAssignment : JSON → Option UserAssignment
  | .obj kvs =>
    if (kvs.map Prod.fst).Nodup ∧ kvs.all (fun kv => assignmentMemberOK kv.1 kv.2) = true then
      some (assignmentOver ⟨"", 0⟩ kvs)
    else none
  | _ => none

/-- The list of assignments a document writes, when it is an array of them. -/
def JSON.asAssignments : JSON → Option (List UserAssignment)
  | .arr xs => mapOpt JSON.asAssignment xs
  | _ => none

/-- A member of a role body, as the specification describes it: one of the nine
camelCase keys of the remote schema with a value of the matching type. -/
def roleMemberOK (k : String) (v : JSON) : Bool :=
  if k = "roleId" then v.asInt.isSome
  else if k = "roleName" then v.asString.isSome
  else if k = "roleDescription" then v.asString.isSome
  else if k = "accountId" then v.asInt.isSome
  else if k = "accountName" then v.asString.isSome
  else if k = "roleAbilities" then v.asStrings.isSome
  else if k = "userAssignment" then v.asAssignments.isSome
  else if k = "updateDate" then v.asString.isSome
  else if k = "isEditable" then v.asBool.isSome
  else false

/-- The role written by the members of an object, over the defaults `r0`: each field
is the value of the member with the corresponding camelCase key, and the default
when there is no such member. -/
def roleOver (r0 : RoleDetails) (kvs : List (String × JSON)) : RoleDetails :=
  { RoleID := memberOr kvs "roleId" JSON.asInt r0.RoleID
    RoleName := memberOr kvs "roleName" JSON.asString r0.RoleName
    RoleDescription := memberOr kvs "roleDescription" JSON.asString r0.RoleDescription
    AccountID := memberOr kvs "accountId" JSON.asInt r0.AccountID
    AccountName := memberOr kvs "accountName" JSON.asString r0.AccountName
    RoleAbilities := memberOr kvs "roleAbilities" (fun v => v.asStrings.map some)
      r0.RoleAbilities
    UserAssignment := memberOr kvs "userAssignment" (fun v => v.asAssignments.map some)
      r0.UserAssignment
    UpdateDate := memberOr kvs "updateDate" JSON.asString r0.UpdateDate
    IsEditable := memberOr kvs "isEditable" JSON.asBool r0.IsEditable }

/-- The calls that decode the body into a `RoleDetails`. -/
def Call.decodesRole : Call → Bool
  | .addRole _ | .getRole _ | .updateRole _ _ => true
  | _ => false

/-- The names under which encoding/json reads and writes the fields of a struct, in
declaration order. -/
def memberNames (fields : List (String × String)) : List String :=
  fields.filterMap (fun f => jsonFieldName f.1 f.2)

/-- The member names of a document that is an object, in order. -/
def JSON.keys : JSON → List String
  | .obj kvs => kvs.map Prod.fst
  | _ => []

/-- The part of a URL before its first question mark: the scheme, the host and the
path. -/
def beforeQuery (url : String) : String :=
  String.mk (url.data.takeWhile (fun ch => ch != '?'))

/-! ## Fixtures of the repository's tests -/

/-- The configuration of the tests, `APIID: "foo", APIKey: "bar"`, with a base URL. -/
def testConfig : Config := ⟨"http://127.0.0.1:8080", "foo", "bar"⟩

/-- A client whose transport answers every request with the given status and body,
as the test servers do. -/
def serverClient (status : Int) (body : String) : Client :=
  ⟨testConfig, fun _ => .ok ⟨status, body, none⟩⟩

/-- A client whose transport fails on every request, as the tests with the
unreachable host do. -/
def failingClient (cause : String) : Client := ⟨testConfig, fun _ => .error cause⟩

/-- The `CreateRole` of the tests. -/
def testCreateRole : CreateRole :=
  ⟨"Foo", "Bar", 123, some ["canManageApiKey", "canPurgeCache"]⟩

/-- The `CreateUser` of the tests. -/
def testCreateUser : CreateUser := ⟨123, "example@example.com", none, none, "Foo", "Bar"⟩

/-- The `UpdateRole` of the tests. -/
def testUpdateRole : Incapsula.UpdateRole :=
  ⟨"Foo", "Bar", some ["canManageApiKey", "canPurgeCache"]⟩

/-- A configuration whose base URL ends with a line feed. -/
def newlineConfig : Config := ⟨"http://127.0.0.1:8080\n", "foo", "bar"⟩

/-- A body for a user with every key of the remote schema, `rolesDetails`
included. -/
def userBody : String :=
  "\x7b\"userId\":1527,\"accountId\":123,\"firstName\":\"Foo\",\"lastName\":\"Bar\","
    ++ "\"userEmail\":\"example@example.com\","
    ++ "\"rolesDetails\":[\x7b\"roleId\":7,\"roleName\":\"admin\"\x7d]\x7d"

/-- The concrete library with the decode error text of a truncated document. -/
def testLib : Stdlib := goStdlib (fun _ => "unexpected end of JSON input") urlControlErr

/-! ## Definitions for the claims on requests and outcomes -/

/-- A library whose `json.Marshal` fails with the given text on every record, and
that is the concrete library otherwise.  (encoding/json does not fail on the three
mutation records; the operations guard against a failure all the same.) -/
def failingMarshalLib (cause : String) : Stdlib :=
  { testLib with
    MarshalCreateRole := fun _ => .error cause
    MarshalUpdateRole := fun _ => .error cause
    MarshalCreateUser := fun _ => .error cause }

/-- Two answers of the transport are the same outcome: the same failure, or the same
status code and the same body. -/
def sameOutcome : Except String Response → Except String Response → Prop
  | .error e1, .error e2 => e1 = e2
  | .ok r1, .ok r2 => r1.StatusCode = r2.StatusCode ∧ r1.Body = r2.Body
  | _, _ => False

/-- A client like `c` whose responses carry the read error `g` chooses. -/
def Client.withReadErr (c : Client) (g : Response → Option String) : Client :=
  ⟨c.config, fun req =>
    match c.httpClient req with
    | .error e => .error e
    | .ok resp => .ok ⟨resp.StatusCode, resp.Body, g resp⟩⟩

/-- A client whose transport delivers the status line and then fails while the
body is read: `ioutil.ReadAll` returns the bytes read so far and the failure. -/
def interruptedClient (status : Int) (bytesRead cause : String) : Client :=
  ⟨testConfig, fun _ => .ok ⟨status, bytesRead, some cause⟩⟩

/-- A client that answers the GET of role 123 as `serverClient` does and fails on
every other request. -/
def pickyClient (status : Int) (body : String) : Client :=
  ⟨testConfig, fun req =>
    if req.URL = "http://127.0.0.1:8080/user-management/v1/roles/123?api_id=foo&api_key=bar"
    then .ok ⟨status, body, some "read error"⟩
    else .error "connection refused"⟩

/-! ## Reading the query of a URL -/

/-- The pieces of a text between the occurrences of the separator. -/
def splitOn (sep : Char) : List Char → List (List Char)
  | [] => [[]]
  | c :: cs =>
    if c = sep then [] :: splitOn sep cs
    else
      match splitOn sep cs with
      | [] => [[c]]
      | p :: ps => (c :: p) :: ps

/-- The query component of a URL: the text after the first question mark, up to the
first number sign, where the fragment starts; `none` when there is no question mark
before the fragment. -/
def urlQuery (url : String) : Option (List Char) :=
  match (url.data.takeWhile (fun ch => ch != '#')).dropWhile (fun ch => ch != '?') with
  | [] => none
  | _ :: q => some q

/-- A piece of a query read as `name=value`: the name is the text before the first
equals sign and the value the text after it. -/
def queryPair (p : List Char) : String × String :=
  (String.mk (p.takeWhile (fun ch => ch != '=')),
   String.mk ((p.dropWhile (fun ch => ch != '=')).drop 1))

/-- The parameters of a URL: its query, read as `name=value` pairs separated by
ampersands. -/
def queryParams (url : String) : List (String × String) :=
  match urlQuery url with
  | none => []
  | some q => (splitOn '&' q).map queryPair

/-- The URL carries the parameter `name` with the value `value`. -/
def hasParam (url name value : String) : Prop := (name, value) ∈ queryParams url

instance (url name value : String) : Decidable (hasParam url name value) :=
  inferInstanceAs (Decidable ((name, value) ∈ queryParams url))

/-- The URL an operation builds for a call, as `fmt.Sprintf` writes it. -/
def Call.url (c : Client) : Call → String
  | .addRole _ =>
    c.config.BaseURLAPI ++ "/" ++ endpointRole ++ "?api_id=" ++ c.config.APIID
      ++ "&api_key=" ++ c.config.APIKey
  | .getRole roleID | .updateRole roleID _ | .deleteRole roleID =>
    c.config.BaseURLAPI ++ "/" ++ endpointRole ++ "/" ++ fmtD roleID ++ "?api_id="
      ++ c.config.APIID ++ "&api_key=" ++ c.config.APIKey
  | .addUser _ =>
    c.config.BaseURLAPI ++ "/" ++ endpointUser ++ "?api_id=" ++ c.config.APIID
      ++ "&api_key=" ++ c.config.APIKey
  | .getUser userEmail accountID | .deleteUser userEmail accountID =>
    c.config.BaseURLAPI ++ "/" ++ endpointUser ++ "?userEmail=" ++ userEmail
      ++ "&accountId=" ++ fmtD accountID ++ "&api_id=" ++ c.config.APIID
      ++ "&api_key=" ++ c.config.APIKey

/-- The text argument of a call that is written into its URL: the userEmail of
GetUser and DeleteUser, and nothing for the other calls. -/
def Call.emailInURL : Call → String
  | .getUser userEmail _ | .deleteUser userEmail _ => userEmail
  | _ => ""

/-! ## Telling the operations and the kinds of error apart -/

/-- The seven operations. -/
inductive Op where
  | addRole | getRole | updateRole | deleteRole | addUser | getUser | deleteUser
deriving DecidableEq, Repr

/-- The operation of a call. -/
def Call.op : Call → Op
  | .addRole _ => .addRole
  | .getRole _ => .getRole
  | .updateRole _ _ => .updateRole
  | .deleteRole _ => .deleteRole
  | .addUser _ => .addUser
  | .getUser _ _ => .getUser
  | .deleteUser _ _ => .deleteUser

/-- The five kinds of error of the specification. -/
inductive ErrorKind where
  | serialization | transport | status | decode | semantic
deriving DecidableEq, Repr

/-- The text of the failure of `json.Marshal` on the record a call sends, when it
fails; a call that sends no record has none. -/
def Call.marshalErr (lib : Stdlib) : Call → Option String
  | .addRole role =>
    match lib.MarshalCreateRole role with
    | .error e => some e
    | .ok _ => none
  | .updateRole _ role =>
    match lib.MarshalUpdateRole role with
    | .error e => some e
    | .ok _ => none
  | .addUser user =>
    match lib.MarshalCreateUser user with
    | .error e => some e
    | .ok _ => none
  | _ => none

/-- Modelled from the spec: the kind of the error a call ends with, after the ordered
policy of section 4.3: the serialization of the record fails; or the transport
fails; or the status code is not 200; or the body does not decode; or the envelope
of a delete operation does not carry the code 200.  A call that succeeds, and a call
whose request `http.NewRequest` rejects, have none of the five kinds. -/
def Call.failure (lib : Stdlib) (c : Client) (call : Call) : Option ErrorKind :=
  match call.marshalErr lib with
  | some _ => some .serialization
  | none =>
    match call.prepare lib c with
    | .error _ => none
    | .ok req =>
      match c.httpClient req with
      | .error _ => some .transport
      | .ok resp =>
        if resp.StatusCode ≠ 200 then some .status
        else
          match call.unmarshal lib resp.Body with
          | .error _ => some .decode
          | .ok (.record _) => none
          | .ok (.envelope env) => if env.Code ≠ 200 then some .semantic else none

/-- Two texts differ at a position that both of them have. -/
def diverge : List Char → List Char → Bool
  | a :: as, b :: bs => a != b || diverge as bs
  | _, _ => false

/-! ## Definitions for the claim on the body of UpdateRole -/

/-- The document a slice of strings is written as: `null` for the nil slice, the
array of the strings otherwise. -/
def stringsJSON : Slice String → JSON
  | none => .null
  | some xs => .arr (xs.map JSON.str)

/-- Modelled from the spec: a member name identifies the account when it is, up to
the case of its letters, the name of one of the two account fields of the role
record, `accountId` or `accountName`. -/
def isAccountKey (k : String) : Bool :=
  equalFold "accountId".data k.data || equalFold "accountName".data k.data

/-! ## Definitions for the claims on the bodies of a 200 response -/

/-- The keys of the entity a call decodes, as the struct tags of the source name them
(`json:roleId`, ..., `json:rolesDetails`; `json:"code"`, ...), in the camelCase of the
remote schema: the nine keys of a role, the six keys of a user, and the three keys of
the envelope of the delete operations. -/
def Call.schemaKeys : Call → List String
  | .addRole _ | .getRole _ | .updateRole _ _ =>
    ["roleId", "roleName", "roleDescription", "accountId", "accountName", "roleAbilities",
     "userAssignment", "updateDate", "isEditable"]
  | .addUser _ | .getUser _ _ =>
    ["userId", "accountId", "firstName", "lastName", "userEmail", "rolesDetails"]
  | .deleteRole _ | .deleteUser _ _ => ["code", "message", "debug_info"]

/-- The names a member of the body must differ from, up to case, for the record of a
call to stay untouched: the keys of the schema, and for a user also the name
`roleDetails`, under which encoding/json knows the field whose tag it does not
read. -/
def Call.foldedKeys : Call → List String
  | .addUser user => (Call.addUser user).schemaKeys ++ ["roleDetails"]
  | .getUser userEmail accountID =>
    (Call.getUser userEmail accountID).schemaKeys ++ ["roleDetails"]
  | call => call.schemaKeys

/-- The record of the entity of a call in which every field has its zero value; the
two delete operations return no record. -/
def Call.zeroRecord : Call → Option Record
  | .addRole _ | .getRole _ | .updateRole _ _ => some (.role RoleDetails.zero)
  | .addUser _ | .getUser _ _ => some (.user User.zero)
  | .deleteRole _ | .deleteUser _ _ => none

/-- Modelled from the spec: a document that carries none of the given keys: `null`,
the empty object, or an object none of whose member names is one of the keys. -/
def carriesNoKey (keys : List String) : JSON → Bool
  | .null => true
  | .obj kvs => kvs.all (fun kv => !keys.contains kv.1)
  | _ => false

/-- A document that carries none of the given keys in any case of letters: `null`,
the empty object, or an object none of whose member names equals one of the keys up
to the case of its letters, as encoding/json folds them. -/
def carriesNoKeyUpToCase (keys : List String) : JSON → Bool
  | .null => true
  | .obj kvs => kvs.all (fun kv => keys.all (fun key => !equalFold key.data kv.1.data))
  | _ => false

/-- Two field names of the same length whose characters are, place by place, equal
or the two cases of one letter. -/
def foldsAlike : List Char → List Char → Bool
  | [], [] => true
  | a :: s, b :: t =>
    (a = b || (a.isAlpha && b.isAlpha && a.toUpper = b && b.toUpper = b
      && decide ((a = 's' ∨ a = 'S') ↔ (b = 's' ∨ b = 'S'))
      && decide ((a = 'k' ∨ a = 'K') ↔ (b = 'k' ∨ b = 'K')))) && foldsAlike s t
  | _, _ => false

/-! ## Definitions for the claim on the envelope of the delete operations -/

/-- The document of `n + 1` arrays nested inside one another, the innermost empty. -/
def JSON.nested : Nat → JSON
  | 0 => .arr []
  | n + 1 => .arr [JSON.nested n]

/-- The text of `n` arrays nested inside one another: `n` opening brackets and `n`
closing brackets. -/
def nestedText (n : Nat) : List Char := List.replicate n '[' ++ List.replicate n ']'

/-- The body of a delete response whose `debug_info` is `n` nested arrays, followed
by the code 200. -/
def deepBody (n : Nat) : String :=
  String.mk (lbrace :: ((encodeString "debug_info").data
    ++ ':' :: (nestedText n ++ ",\"code\":200\x7d".data)))

/-! ## The destroy check of the acceptance tests -/

/-- The struct `terraform.InstanceState` (declared in package terraform, outside
these files), of which the check reads the field `ID`. -/
structure InstanceState where
  ID : String
deriving DecidableEq, Repr

/-- The struct `terraform.ResourceState` (declared in package terraform), of which
the check reads the fields `Type` (here `Type_`, the word being reserved) and
`Primary`.  The pointer `Primary` is taken to be non-nil, as it is in every state
the test framework hands to a check. -/
structure ResourceState where
  Type_ : String
  Primary : InstanceState
deriving DecidableEq, Repr

/-- The struct `terraform.ModuleState` (declared in package terraform), of which the
check reads the map `Resources` from names to pointers to resources, taken to be
non-nil.  The map is given by its entries in the order the `range` statement visits
them: Go leaves that order unspecified, so every order of the entries is a possible
one. -/
structure ModuleState where
  Resources : List (String × ResourceState)
deriving DecidableEq, Repr

/-- The struct `terraform.State` (declared in package terraform) as the check uses
it: what the method `RootModule()` gives. -/
structure State where
  RootModule : ModuleState
deriving DecidableEq, Repr

/-- The type of resource the destroy check looks for. -/
def aclSecurityRuleType : String := "incapsula_acl_security_rule"

/-- The loop `for _, res := range state.RootModule().Resources` of
`testAccCheckACLSecurityRuleDestroy`, on the entries still to visit; `none` is the
nil error.  The variable `err` of the source is the string `"nil"`, so the
comparison `err == "nil"` has one outcome only. -/
def destroyLoop : List (String × ResourceState) → Option String
  | [] => none
  | (_, res) :: rest =>
    if res.Type_ ≠ aclSecurityRuleType then destroyLoop rest
    else
      let ruleID := res.Primary.ID
      if ruleID = "" then
        some ("Incapsula acl security rule - rule ID (" ++ ruleID ++ ") does not exist")
      else
        let err := "nil"
        if err = "nil" then
          some ("Incapsula acl security rule for site site_id (" ++ ruleID
            ++ ") still exists")
        else destroyLoop rest

/-- The function `testAccCheckACLSecurityRuleDestroy` of
resource_acl_security_rule_test.go: `none` is the nil error. -/
def testAccCheckACLSecurityRuleDestroy (state : State) : Option String :=
  destroyLoop state.RootModule.Resources

/-- The entries of a module whose resource has the type the destroy check looks for,
in the order of the visit. -/
def ModuleState.aclRules (m : ModuleState) : List (String × ResourceState) :=
  m.Resources.filter (fun e => e.2.Type_ = aclSecurityRuleType)

/-! ## Theorems -/

theorem url_roles (x : String) :
    "/" ++ ("user-management/v1/roles" ++ ("?api_id=" ++ x))
      = "/user-management/v1/roles?api_id=" ++ x := rfl

/-- The URL text of one role, as one literal. -/
theorem url_role (x : String) :
    "/" ++ ("user-management/v1/roles" ++ ("/" ++ x)) = "/user-management/v1/roles/" ++ x := rfl

/-- The URL text of the user collection, as one literal. -/
theorem url_users (x : String) :
    "/" ++ ("user-management/v1/users" ++ ("?api_id=" ++ x))
      = "/user-management/v1/users?api_id=" ++ x := rfl

/-- The URL text of one user, as one literal. -/
theorem url_user (x : String) :
    "/" ++ ("user-management/v1/users" ++ ("?userEmail=" ++ x))
      = "/user-management/v1/users?userEmail=" ++ x := rfl

/-- Every operation of the client is the pipeline of the specification: the code of
each of the seven Go functions computes what build, send, classify computes. -/
theorem Call.run_eq_pipeline (lib : Stdlib) (c : Client) (call : Call) :
    call.run lib c = call.pipeline lib c := by
  cases call <;>
    simp only [Call.run, Call.pipeline, Call.prepare, Call.interpret, Call.unmarshal,
      Call.phrase, Call.parseLead, Call.semanticLead, fmtErr,
      Client.AddRole, Client.GetRole, Client.UpdateRole, Client.DeleteRole,
      Client.AddUser, Client.GetUser, Client.DeleteUser, endpointRole,
      endpointUser, String.append_assoc, url_roles, url_role, url_users, url_user] <;>
    repeat (first | rfl | (split <;> try simp only [*, if_true, if_false, not_true_eq_false, not_false_eq_true, ne_eq]))

/-- The interpretation of an answer records the request that was answered. -/
theorem Call.interpret_sent (lib : Stdlib) (call : Call) (req : Request)
    (ans : Except String Response) : (call.interpret lib req ans).sent = [req] := by
  unfold Call.interpret
  repeat (first | rfl | split)

/-- A call that handed the request `req` to the transport prepared that request. -/
theorem Call.prepare_of_sent (lib : Stdlib) (c : Client) (call : Call) (req : Request)
    (hsent : (call.run lib c).sent = [req]) : call.prepare lib c = .ok req := by
  rw [Call.run_eq_pipeline, Call.pipeline] at hsent
  cases hp : call.prepare lib c with
  | error e => rw [hp] at hsent; simp at hsent
  | ok r =>
    rw [hp] at hsent
    simp only [Call.interpret_sent, List.cons.injEq, and_true] at hsent
    rw [hsent]

/-- The result of a call that handed `req` to the transport is the interpretation of
the transport's answer to `req`. -/
theorem Call.run_of_sent (lib : Stdlib) (c : Client) (call : Call) (req : Request)
    (hsent : (call.run lib c).sent = [req]) :
    call.run lib c = call.interpret lib req (c.httpClient req) := by
  rw [Call.run_eq_pipeline, Call.pipeline, Call.prepare_of_sent lib c call req hsent]

/-- The result of a call whose request is prepared is the interpretation of the
transport's answer to that request. -/
theorem Call.run_of_prepare (lib : Stdlib) (c : Client) (call : Call) (req : Request)
    (hprep : call.prepare lib c = .ok req) :
    call.run lib c = call.interpret lib req (c.httpClient req) := by
  rw [Call.run_eq_pipeline, Call.pipeline, hprep]

/-- The preparation of a request does not use `json.Unmarshal`. -/
theorem Call.prepare_withUnmarshal (lib : Stdlib) (c : Client) (call : Call)
    (u1 : String → Except String RoleDetails) (u2 : String → Except String User)
    (u3 : String → Except String DeleteRoleResponse)
    (u4 : String → Except String DeleteUserResponse) :
    call.prepare (lib.withUnmarshal u1 u2 u3 u4) c = call.prepare lib c := by
  cases call <;> rfl

/-- C1. Status error: for each of the seven operations, whenever the request of the
operation is built (the record serializes and net/http accepts the URL) and the
transport answers it with a status code other than 200 (201 and 204 included) and
any body, the operation hands that request to the transport, returns a nil record
and the error `Error status code <s> from Incapsula service when <phrase>: <b>`,
with the code in decimal and the body verbatim; the body is not decoded: the result
is the same whatever `json.Unmarshal` would make of it. -/
theorem status_error_message (lib : Stdlib) (c : Client) (call : Call) (req : Request)
    (s : Int) (b : String) (re : Option String)
    (hprep : call.prepare lib c = .ok req)
    (hresp : c.httpClient req = .ok ⟨s, b, re⟩)
    (hs : s ≠ 200) :
    (call.run lib c).sent = [req] ∧
    (call.run lib c).record = none ∧
    (call.run lib c).err = some ("Error status code " ++ fmtD s
      ++ " from Incapsula service when " ++ call.phrase ++ ": " ++ b) ∧
    ∀ u1 u2 u3 u4, call.run (lib.withUnmarshal u1 u2 u3 u4) c = call.run lib c := by
  have hrun : ∀ lib2 : Stdlib, call.prepare lib2 c = call.prepare lib c →
      call.run lib2 c = ⟨[req], none, some ("Error status code " ++ fmtD s
        ++ " from Incapsula service when " ++ call.phrase ++ ": " ++ b)⟩ := by
    intro lib2 h2
    rw [Call.run_eq_pipeline, Call.pipeline, h2, hprep]
    simp only [hresp, Call.interpret, ne_eq, hs, not_false_eq_true, if_true]
  refine ⟨?_, ?_, ?_, ?_⟩
  · rw [hrun lib rfl]
  · rw [hrun lib rfl]
  · rw [hrun lib rfl]
  · intro u1 u2 u3 u4
    rw [hrun lib rfl, hrun _ (Call.prepare_withUnmarshal lib c call u1 u2 u3 u4)]

set_option maxRecDepth 100000 in
/-- C1, at the status error test of AddRole, and likewise for the six other
operations: status 406 with the error envelope as body. -/
theorem status_error_message_witness :
    ((Call.addRole testCreateRole).run testLib
        (serverClient 406 "\x7b\"errorCode\":1, \"message\": \"Test Error\"\x7d")).err
      = some ("Error status code 406 from Incapsula service when adding Role: "
          ++ "\x7b\"errorCode\":1, \"message\": \"Test Error\"\x7d") ∧
    ((Call.getRole 123).run testLib (serverClient 201 "created")).err
      = some "Error status code 201 from Incapsula service when reading Role 123: created" ∧
    ((Call.updateRole 123 testUpdateRole).run testLib (serverClient 204 "")).err
      = some "Error status code 204 from Incapsula service when updating Role 123: " ∧
    ((Call.deleteRole 123).run testLib (serverClient 500 "oops")).err
      = some "Error status code 500 from Incapsula service when deleting Role 123: oops" ∧
    ((Call.addUser testCreateUser).run testLib (serverClient 406 "no")).err
      = some ("Error status code 406 from Incapsula service when adding User "
          ++ "example@example.com: no") ∧
    ((Call.getUser "example@example.com" 123).run testLib (serverClient 404 "no")).err
      = some ("Error status code 404 from Incapsula service when reading User for Email "
          ++ "example@example.com (account id: 123): no") ∧
    ((Call.deleteUser "example@example.com" 123).run testLib (serverClient 404 "no")).err
      = some ("Error status code 404 from Incapsula service when deleting User with Email "
          ++ "example@example.com (account id: 123): no") :=
  ⟨(status_error_message testLib
      (serverClient 406 "\x7b\"errorCode\":1, \"message\": \"Test Error\"\x7d")
      (Call.addRole testCreateRole) _
      406 "\x7b\"errorCode\":1, \"message\": \"Test Error\"\x7d" none rfl rfl
      (by decide)).2.2.1,
   (status_error_message testLib (serverClient 201 "created") (Call.getRole 123) _
      201 "created" none rfl rfl (by decide)).2.2.1,
   (status_error_message testLib (serverClient 204 "") (Call.updateRole 123 testUpdateRole) _
      204 "" none rfl rfl (by decide)).2.2.1,
   (status_error_message testLib (serverClient 500 "oops") (Call.deleteRole 123) _
      500 "oops" none rfl rfl (by decide)).2.2.1,
   (status_error_message testLib (serverClient 406 "no") (Call.addUser testCreateUser) _
      406 "no" none rfl rfl (by decide)).2.2.1,
   (status_error_message testLib (serverClient 404 "no")
      (Call.getUser "example@example.com" 123) _ 404 "no" none rfl rfl (by decide)).2.2.1,
   (status_error_message testLib (serverClient 404 "no")
      (Call.deleteUser "example@example.com" 123) _ 404 "no" none rfl rfl (by decide)).2.2.1⟩
/-- C2. Decode error: for each of the seven operations, whenever the request of the
operation is built and the transport answers it with status 200 and a body that
`json.Unmarshal` rejects with the error text `e`, the operation hands that request
to the transport, returns a nil record and the error `<lead>: <e>`, a newline,
`response: ` and the body verbatim, where `<lead>` is the operation's own
`Error parsing ... JSON response` text. -/
theorem decode_error_message (lib : Stdlib) (c : Client) (call : Call) (req : Request)
    (b : String) (re : Option String) (e : String)
    (hprep : call.prepare lib c = .ok req)
    (hresp : c.httpClient req = .ok ⟨200, b, re⟩)
    (hdec : call.unmarshal lib b = .error e) :
    (call.run lib c).sent = [req] ∧
    (call.run lib c).record = none ∧
    (call.run lib c).err
      = some (call.parseLead ++ ": " ++ e ++ "\nresponse: " ++ b) := by
  rw [Call.run_of_prepare lib c call req hprep, hresp]
  simp only [Call.interpret, ne_eq, not_true_eq_false, if_false, hdec, and_self]

/-- C2, at the malformed body of the tests, an opening brace answered with status
200, for each of the seven operations. -/
theorem decode_error_message_witness :
    ((Call.addRole testCreateRole).run testLib (serverClient 200 "\x7b")).err
      = some ("Error parsing Role JSON response: unexpected end of JSON input"
          ++ "\nresponse: \x7b") ∧
    ((Call.getRole 123).run testLib (serverClient 200 "\x7b")).err
      = some ("Error parsing Role 123 JSON response: unexpected end of JSON input"
          ++ "\nresponse: \x7b") ∧
    ((Call.updateRole 123 testUpdateRole).run testLib (serverClient 200 "\x7b")).err
      = some ("Error parsing Role 123 JSON response: unexpected end of JSON input"
          ++ "\nresponse: \x7b") ∧
    ((Call.deleteRole 123).run testLib (serverClient 200 "\x7b")).err
      = some ("Error parsing Delete Role 123 JSON response: unexpected end of JSON input"
          ++ "\nresponse: \x7b") ∧
    ((Call.addUser testCreateUser).run testLib (serverClient 200 "\x7b")).err
      = some ("Error parsing User JSON response for email example@example.com: "
          ++ "unexpected end of JSON input\nresponse: \x7b") ∧
    ((Call.getUser "example@example.com" 123).run testLib (serverClient 200 "\x7b")).err
      = some ("Error parsing User JSON response for Email example@example.com "
          ++ "(account id: 123): unexpected end of JSON input\nresponse: \x7b") ∧
    ((Call.deleteUser "example@example.com" 123).run testLib (serverClient 200 "\x7b")).err
      = some ("Error parsing Email example@example.com JSON response for Account ID 123: "
          ++ "unexpected end of JSON input\nresponse: \x7b") :=
  ⟨(decode_error_message testLib (serverClient 200 "\x7b") (Call.addRole testCreateRole) _
      "\x7b" none "unexpected end of JSON input" rfl rfl rfl).2.2,
   (decode_error_message testLib (serverClient 200 "\x7b") (Call.getRole 123) _
      "\x7b" none "unexpected end of JSON input" rfl rfl rfl).2.2,
   (decode_error_message testLib (serverClient 200 "\x7b") (Call.updateRole 123 testUpdateRole)
      _ "\x7b" none "unexpected end of JSON input" rfl rfl rfl).2.2,
   (decode_error_message testLib (serverClient 200 "\x7b") (Call.deleteRole 123) _
      "\x7b" none "unexpected end of JSON input" rfl rfl rfl).2.2,
   (decode_error_message testLib (serverClient 200 "\x7b") (Call.addUser testCreateUser) _
      "\x7b" none "unexpected end of JSON input" rfl rfl rfl).2.2,
   (decode_error_message testLib (serverClient 200 "\x7b")
      (Call.getUser "example@example.com" 123) _
      "\x7b" none "unexpected end of JSON input" rfl rfl rfl).2.2,
   (decode_error_message testLib (serverClient 200 "\x7b")
      (Call.deleteUser "example@example.com" 123) _
      "\x7b" none "unexpected end of JSON input" rfl rfl rfl).2.2⟩

/-- C8. Transport error: for each of the seven operations, whenever the request of
the operation is built and the transport fails on it with cause `e`, the operation
hands that request to the transport, returns a nil record and the error
`Error from Incapsula service when <phrase>: <e>`. -/
theorem transport_error_message (lib : Stdlib) (c : Client) (call : Call) (req : Request)
    (e : String)
    (hprep : call.prepare lib c = .ok req)
    (hfail : c.httpClient req = .error e) :
    (call.run lib c).sent = [req] ∧
    (call.run lib c).record = none ∧
    (call.run lib c).err
      = some ("Error from Incapsula service when " ++ call.phrase ++ ": " ++ e) := by
  rw [Call.run_of_prepare lib c call req hprep, hfail]
  simp only [Call.interpret, and_self]

/-- C8, at the unreachable host of the tests, for each of the seven operations. -/
theorem transport_error_message_witness :
    ((Call.addRole testCreateRole).run testLib (failingClient "dial tcp: i/o timeout")).err
      = some "Error from Incapsula service when adding Role: dial tcp: i/o timeout" ∧
    ((Call.getRole 123).run testLib (failingClient "dial tcp: i/o timeout")).err
      = some "Error from Incapsula service when reading Role 123: dial tcp: i/o timeout" ∧
    ((Call.updateRole 123 testUpdateRole).run testLib
        (failingClient "dial tcp: i/o timeout")).err
      = some "Error from Incapsula service when updating Role 123: dial tcp: i/o timeout" ∧
    ((Call.deleteRole 123).run testLib (failingClient "dial tcp: i/o timeout")).err
      = some "Error from Incapsula service when deleting Role 123: dial tcp: i/o timeout" ∧
    ((Call.addUser testCreateUser).run testLib (failingClient "dial tcp: i/o timeout")).err
      = some ("Error from Incapsula service when adding User example@example.com: "
          ++ "dial tcp: i/o timeout") ∧
    ((Call.getUser "example@example.com" 123).run testLib
        (failingClient "dial tcp: i/o timeout")).err
      = some ("Error from Incapsula service when reading User for Email "
          ++ "example@example.com (account id: 123): dial tcp: i/o timeout") ∧
    ((Call.deleteUser "example@example.com" 123).run testLib
        (failingClient "dial tcp: i/o timeout")).err
      = some ("Error from Incapsula service when deleting User with Email "
          ++ "example@example.com (account id: 123): dial tcp: i/o timeout") :=
  ⟨(transport_error_message testLib (failingClient "dial tcp: i/o timeout")
      (Call.addRole testCreateRole) _ "dial tcp: i/o timeout" rfl rfl).2.2,
   (transport_error_message testLib (failingClient "dial tcp: i/o timeout")
      (Call.getRole 123) _ "dial tcp: i/o timeout" rfl rfl).2.2,
   (transport_error_message testLib (failingClient "dial tcp: i/o timeout")
      (Call.updateRole 123 testUpdateRole) _ "dial tcp: i/o timeout" rfl rfl).2.2,
   (transport_error_message testLib (failingClient "dial tcp: i/o timeout")
      (Call.deleteRole 123) _ "dial tcp: i/o timeout" rfl rfl).2.2,
   (transport_error_message testLib (failingClient "dial tcp: i/o timeout")
      (Call.addUser testCreateUser) _ "dial tcp: i/o timeout" rfl rfl).2.2,
   (transport_error_message testLib (failingClient "dial tcp: i/o timeout")
      (Call.getUser "example@example.com" 123) _ "dial tcp: i/o timeout" rfl rfl).2.2,
   (transport_error_message testLib (failingClient "dial tcp: i/o timeout")
      (Call.deleteUser "example@example.com" 123) _ "dial tcp: i/o timeout" rfl rfl).2.2⟩

/-- The first seven characters of a status error. -/
theorem take7_status (x : String) :
    List.take 7 ("Error status code " ++ x).data = "Error s".data := rfl

/-- The first seven characters of the semantic error of DeleteRole. -/
theorem take7_deleteRole (x : String) :
    List.take 7 ("Error deleting Role " ++ x).data = "Error d".data := rfl

/-- The first seven characters of the semantic error of DeleteUser. -/
theorem take7_deleteEmail (x : String) :
    List.take 7 ("Error deleting Email " ++ x).data = "Error d".data := rfl

/-- The first seven characters of the decode error of DeleteRole. -/
theorem take7_parseRole (x : String) :
    List.take 7 ("Error parsing Delete Role " ++ x).data = "Error p".data := rfl

/-- The first seven characters of the decode error of DeleteUser. -/
theorem take7_parseEmail (x : String) :
    List.take 7 ("Error parsing Email " ++ x).data = "Error p".data := rfl

/-- When no member of an object selects the field `Code` of the envelope, decoding
the members leaves `Code` as it was. -/
theorem decodeMembers_code_absent (kvs : List (String × JSON)) :
    ∀ r r1 : DeleteRoleResponse,
      (∀ kv ∈ kvs, findField deleteResponseFields kv.1 ≠ some "Code") →
      decodeMembers deleteResponseFields DeleteRoleResponse.setField r kvs = some r1 →
      r1.Code = r.Code := by
  induction kvs with
  | nil =>
    intro r r1 _ h
    simp only [decodeMembers, Option.some.injEq] at h
    rw [h]
  | cons kv rest ih =>
    intro r r1 hno h
    have hkv := hno kv (List.mem_cons_self _ _)
    have hrest : ∀ x ∈ rest, findField deleteResponseFields x.1 ≠ some "Code" :=
      fun x hx => hno x (List.mem_cons_of_mem _ hx)
    simp only [decodeMembers] at h
    split at h
    · exact ih r r1 hrest h
    · rename_i f hf
      have hfc : f ≠ "Code" := fun hc => hkv (by rw [hf, hc])
      split at h
      · exact absurd h (by simp)
      · rename_i r2 hset
        rw [ih r2 r1 hrest h]
        simp only [DeleteRoleResponse.setField, hfc, if_false] at hset
        split_ifs at hset
        · obtain ⟨x, _, rfl⟩ := Option.map_eq_some'.mp hset
          rfl
        · obtain ⟨x, _, rfl⟩ := Option.map_eq_some'.mp hset
          rfl
        · simp only [Option.some.injEq] at hset
          rw [← hset]

/-- C3. Semantic error of the delete operations: whenever the request of DeleteRole
or DeleteUser (the two operations whose body decodes into the envelope) is built and
the transport answers it with status 200 and a body that decodes into an envelope
whose code is not 200, the operation hands that request to the transport and returns
an error that starts with the operation's own `Error deleting ... JSON response`
text and starts neither with the status error text of the operation, for any status
code, nor with its decode error text.  A body that is an object without a member for
`code` decodes into an envelope whose code is 0, so it is such a body. -/
theorem semantic_error_message (lib : Stdlib) (c : Client) (call : Call) (req : Request)
    (b : String) (re : Option String) (env : DeleteRoleResponse)
    (hprep : call.prepare lib c = .ok req)
    (hresp : c.httpClient req = .ok ⟨200, b, re⟩)
    (hdec : call.unmarshal lib b = .ok (.envelope env))
    (hcode : env.Code ≠ 200) :
    (call.run lib c).sent = [req] ∧
    (∃ msg, (call.run lib c).err = some msg ∧ startsWith msg call.semanticLead ∧
      (∀ s : Int, ¬ startsWith msg ("Error status code " ++ fmtD s
        ++ " from Incapsula service when " ++ call.phrase)) ∧
      ¬ startsWith msg call.parseLead) ∧
    ((∃ roleID, call = .deleteRole roleID) ∨
      (∃ userEmail accountID, call = .deleteUser userEmail accountID)) ∧
    (∀ (jsonErr : String → String) (urlErr : String → String → Option String)
      (body : String) (kvs : List (String × JSON)) (e : DeleteRoleResponse),
      parseJSON body = some (.obj kvs) →
      (∀ kv ∈ kvs, findField deleteResponseFields kv.1 ≠ some "Code") →
      call.unmarshal (goStdlib jsonErr urlErr) body = .ok (.envelope e) → e.Code = 0) := by
  refine ⟨?_, ?_, ?_, ?_⟩
  · rw [Call.run_of_prepare lib c call req hprep]
    exact Call.interpret_sent lib call req _
  · rw [Call.run_of_prepare lib c call req hprep, hresp]
    simp only [Call.interpret, ne_eq, not_true_eq_false, if_false, hdec, hcode,
      not_false_eq_true, if_true, Option.some.injEq, exists_eq_left']
    refine ⟨?_, ?_, ?_⟩
    · simp only [startsWith, String.data_append, List.append_assoc]
      exact List.prefix_append _ _
    · intro s h
      have h7 := List.IsPrefix.take h 7
      cases call <;> simp only [Call.unmarshal] at hdec <;>
        (try (split at hdec <;> simp at hdec)) <;>
        simp only [Call.semanticLead, String.append_assoc, take7_status, take7_deleteRole,
          take7_deleteEmail] at h7 <;>
        exact absurd h7 (by decide)
    · intro h
      have h7 := List.IsPrefix.take h 7
      cases call <;> simp only [Call.unmarshal] at hdec <;>
        (try (split at hdec <;> simp at hdec)) <;>
        simp only [Call.semanticLead, Call.parseLead, String.append_assoc, take7_parseRole,
          take7_parseEmail, take7_deleteRole, take7_deleteEmail] at h7 <;>
        exact absurd h7 (by decide)
  · cases call <;> simp only [Call.unmarshal] at hdec <;>
      (try (split at hdec <;> simp at hdec)) <;> simp
  · intro jsonErr urlErr body kvs e hp hno hd
    have key : unmarshal jsonErr
        (decodeStruct deleteResponseFields DeleteRoleResponse.setField DeleteRoleResponse.zero)
        body = .ok e := by
      cases call <;> simp only [Call.unmarshal] at hdec <;>
        (try (split at hdec <;> simp at hdec)) <;>
        simp only [Call.unmarshal, goStdlib] at hd <;>
        split at hd <;> simp only [Except.ok.injEq, Decoded.envelope.injEq, reduceCtorEq] at hd <;>
        rename_i h1 <;> rw [← hd] <;> exact h1
    simp only [unmarshal, hp, decodeStruct] at key
    split at key
    · simp at key
    · rename_i r1 h1
      simp only [Except.ok.injEq] at key
      rw [← key, decodeMembers_code_absent kvs _ r1 hno h1]
      rfl

/-- C3, at the semantic error test of DeleteRole, and likewise for DeleteUser: status
200 with a body that has an `errorCode` and no `code`. -/
theorem semantic_error_message_witness :
    (∃ msg, ((Call.deleteRole 123).run testLib
        (serverClient 200 "\x7b\"errorCode\":1,\"message\":\"fail\"\x7d")).err = some msg ∧
      startsWith msg "Error deleting Role 123 JSON response") ∧
    (∃ msg, ((Call.deleteUser "example@example.com" 123).run testLib
        (serverClient 200 "\x7b\"errorCode\":1,\"message\":\"fail\"\x7d")).err = some msg ∧
      startsWith msg
        "Error deleting Email example@example.com JSON response for Account ID 123") :=
  have h1 := (semantic_error_message testLib
    (serverClient 200 "\x7b\"errorCode\":1,\"message\":\"fail\"\x7d") (Call.deleteRole 123)
    _ "\x7b\"errorCode\":1,\"message\":\"fail\"\x7d" none ⟨0, "fail", none⟩
    rfl rfl rfl (by decide)).2.1
  have h2 := (semantic_error_message testLib
    (serverClient 200 "\x7b\"errorCode\":1,\"message\":\"fail\"\x7d")
    (Call.deleteUser "example@example.com" 123)
    _ "\x7b\"errorCode\":1,\"message\":\"fail\"\x7d" none ⟨0, "fail", none⟩
    rfl rfl rfl (by decide)).2.1
  ⟨⟨h1.choose, h1.choose_spec.1, h1.choose_spec.2.1⟩,
   ⟨h2.choose, h2.choose_spec.1, h2.choose_spec.2.1⟩⟩

/-- A call returns no error exactly when its request was handed to the transport,
the transport answered it with status 200, and the body decoded into a record, or
into an envelope whose code is 200. -/
theorem Call.err_none_iff (lib : Stdlib) (c : Client) (call : Call) :
    (call.run lib c).err = none ↔
      ∃ req resp, (call.run lib c).sent = [req] ∧ c.httpClient req = .ok resp ∧
        resp.StatusCode = 200 ∧
        ((∃ r, call.unmarshal lib resp.Body = .ok (.record r)) ∨
         (∃ env, call.unmarshal lib resp.Body = .ok (.envelope env) ∧ env.Code = 200)) := by
  rw [Call.run_eq_pipeline, Call.pipeline]
  cases hp : call.prepare lib c with
  | error e => simp
  | ok req =>
    simp only [Call.interpret_sent, List.cons.injEq, and_true]
    cases ht : c.httpClient req with
    | error e =>
      simp only [Call.interpret, reduceCtorEq, false_iff, not_exists, not_and]
      intro r resp hr hresp
      rw [← hr, ht] at hresp
      exact absurd hresp (by simp)
    | ok resp =>
      have hex : ∀ P : Response → Prop,
          (∃ r resp2, req = r ∧ c.httpClient r = .ok resp2 ∧ P resp2) ↔ P resp := by
        intro P
        constructor
        · rintro ⟨r, resp2, rfl, h2, hP⟩
          rw [ht] at h2
          simp only [Except.ok.injEq] at h2
          rw [h2]
          exact hP
        · intro hP
          exact ⟨req, resp, rfl, ht, hP⟩
      rw [hex (fun resp2 => resp2.StatusCode = 200 ∧
        ((∃ r, call.unmarshal lib resp2.Body = .ok (.record r)) ∨
         (∃ env, call.unmarshal lib resp2.Body = .ok (.envelope env) ∧ env.Code = 200)))]
      simp only [Call.interpret]
      by_cases hs : resp.StatusCode = 200
      · simp only [hs, ne_eq, not_true_eq_false, if_false, true_and]
        cases hu : call.unmarshal lib resp.Body with
        | error e => simp
        | ok d =>
          cases d with
          | record r => simp
          | envelope env =>
            by_cases hc : env.Code = 200 <;> simp [hc]
      · simp [hs]

/-- C4. Success of the delete operations: DeleteRole, and likewise DeleteUser,
returns no error if and only if its request was handed to the transport and the
transport answered it (the transport call succeeds), the status of the response is
200, the body decodes into the envelope, and the code of the envelope is 200.  The
body of the tests, with code 200, a `debug_info` string and the message `OK`, yields
no error for either operation. -/
theorem delete_succeeds_iff (lib : Stdlib) (c : Client) (roleID : Int) (userEmail : String)
    (accountID : Int) :
    ((c.DeleteRole lib roleID).err = none ↔
      ∃ req resp env, (c.DeleteRole lib roleID).sent = [req] ∧ c.httpClient req = .ok resp ∧
        resp.StatusCode = 200 ∧ lib.UnmarshalDeleteRoleResponse resp.Body = .ok env ∧
        env.Code = 200) ∧
    ((c.DeleteUser lib userEmail accountID).err = none ↔
      ∃ req resp env, (c.DeleteUser lib userEmail accountID).sent = [req] ∧
        c.httpClient req = .ok resp ∧ resp.StatusCode = 200 ∧
        lib.UnmarshalDeleteUserResponse resp.Body = .ok env ∧ env.Code = 200) ∧
    ((serverClient 200
        "\x7b\"code\": 200, \"debug_info\": \"\x7b\x7d\", \"message\": \"OK\"\x7d").DeleteRole
      testLib 123).err = none ∧
    ((serverClient 200
        "\x7b\"code\": 200, \"debug_info\": \"\x7b\x7d\", \"message\": \"OK\"\x7d").DeleteUser
      testLib "example@example.com" 123).err = none := by
  refine ⟨?_, ?_, by decide, by decide⟩
  · have h := Call.err_none_iff lib c (.deleteRole roleID)
    simp only [Call.run, DeleteResult.observe, Call.unmarshal] at h
    rw [h]
    constructor
    · rintro ⟨req, resp, hs, ht, h200, hd⟩
      cases hu : lib.UnmarshalDeleteRoleResponse resp.Body with
      | error e => simp [hu] at hd
      | ok env =>
        simp only [hu, Except.ok.injEq, reduceCtorEq, exists_false, Decoded.envelope.injEq,
          false_or, exists_eq_left'] at hd
        exact ⟨req, resp, env, hs, ht, h200, hu, hd⟩
    · rintro ⟨req, resp, env, hs, ht, h200, hu, hc⟩
      exact ⟨req, resp, hs, ht, h200, Or.inr ⟨env, by simp [hu], hc⟩⟩
  · have h := Call.err_none_iff lib c (.deleteUser userEmail accountID)
    simp only [Call.run, DeleteResult.observe, Call.unmarshal] at h
    rw [h]
    constructor
    · rintro ⟨req, resp, hs, ht, h200, hd⟩
      cases hu : lib.UnmarshalDeleteUserResponse resp.Body with
      | error e => simp [hu] at hd
      | ok env =>
        simp only [hu, Except.ok.injEq, reduceCtorEq, exists_false, Decoded.envelope.injEq,
          false_or, exists_eq_left'] at hd
        exact ⟨req, resp, env, hs, ht, h200, hu, hd⟩
    · rintro ⟨req, resp, env, hs, ht, h200, hu, hc⟩
      exact ⟨req, resp, hs, ht, h200, Or.inr ⟨env, by simp [hu], hc⟩⟩

/-- A function that succeeds wherever another does, with the same value, maps the
same lists to the same results. -/
theorem mapOpt_congr {α β : Type} (f g : α → Option β) (xs : List α) :
    ∀ ys, (∀ x y, f x = some y → g x = some y) → mapOpt f xs = some ys →
      mapOpt g xs = some ys := by
  induction xs with
  | nil => intro ys _ h; exact h
  | cons x xs ih =>
    intro ys hfg h
    simp only [mapOpt] at h ⊢
    cases hx : f x with
    | none => simp [hx] at h
    | some y =>
      rw [hx] at h
      cases hxs : mapOpt f xs with
      | none => simp [hxs] at h
      | some zs =>
        rw [hxs] at h
        simp only [hfg x y hx, ih zs hfg hxs]
        exact h

/-- An integer document decodes into an `int` as the integer it writes. -/
theorem decodeInt_of_asInt (cur : Int) (v : JSON) (a : Int) (h : v.asInt = some a) :
    decodeInt cur v = some a := by
  cases v <;> simp_all [JSON.asInt, decodeInt]

/-- A string document decodes into a `string` as the string it writes. -/
theorem decodeString_of_asString (cur : String) (v : JSON) (a : String)
    (h : v.asString = some a) : decodeString cur v = some a := by
  cases v <;> simp_all [JSON.asString, decodeString]

/-- A boolean document decodes into a `bool` as the boolean it writes. -/
theorem decodeBool_of_asBool (cur : Bool) (v : JSON) (a : Bool) (h : v.asBool = some a) :
    decodeBool cur v = some a := by
  cases v <;> simp_all [JSON.asBool, decodeBool]

/-- An array of strings decodes into a `[]string` as the list it writes. -/
theorem decodeSlice_strings (v : JSON) (l : List String) (h : v.asStrings = some l) :
    decodeSlice (decodeString "") v = some (some l) := by
  cases v <;> simp only [JSON.asStrings, reduceCtorEq] at h
  simp only [decodeSlice, mapOpt_congr JSON.asString (decodeString "") _ l
    (fun x y hx => decodeString_of_asString "" x y hx) h, Option.map_some']

/-- A member with another name does not change the value of the member `k2`. -/
theorem memberOr_cons_ne {α : Type} (k k2 : String) (v : JSON) (rest : List (String × JSON))
    (f : JSON → Option α) (z : α) (h : k2 ≠ k) :
    memberOr ((k, v) :: rest) k2 f z = memberOr rest k2 f z := by
  have : (k2 == k) = false := by simpa using h
  simp [memberOr, List.lookup, this]

/-- The value of a member the object does not have is the default. -/
theorem memberOr_absent {α : Type} (k : String) (kvs : List (String × JSON))
    (f : JSON → Option α) (z : α) (h : k ∉ kvs.map Prod.fst) : memberOr kvs k f z = z := by
  have : kvs.lookup k = none := by
    rw [List.lookup_eq_none_iff]
    intro kv hkv
    simp only [bne_iff_ne, ne_eq]
    intro hk
    exact h (List.mem_map.mpr ⟨kv, hkv, hk.symm⟩)
  simp [memberOr, this]

/-- The value of the member `k` of an object that starts with it. -/
theorem memberOr_cons_same {α : Type} (k : String) (v : JSON) (rest : List (String × JSON))
    (f : JSON → Option α) (z : α) :
    memberOr ((k, v) :: rest) k f z = (f v).getD z := by
  simp [memberOr, List.lookup]

/-- Decoding the members of a well-formed element of `userAssignment` gives the
assignment they write. -/
theorem decodeMembers_assignment (kvs : List (String × JSON)) :
    ∀ r0 : UserAssignment, (kvs.map Prod.fst).Nodup →
      (∀ kv ∈ kvs, assignmentMemberOK kv.1 kv.2 = true) →
      decodeMembers userAssignmentFields UserAssignment.setField r0 kvs
        = some (assignmentOver r0 kvs) := by
  induction kvs with
  | nil => intro r0 _ _; simp [decodeMembers, assignmentOver, memberOr]
  | cons kv rest ih =>
    intro r0 hnd hok
    obtain ⟨k, v⟩ := kv
    have hk := hok (k, v) (List.mem_cons_self _ _)
    have hrest : ∀ x ∈ rest, assignmentMemberOK x.1 x.2 = true :=
      fun x hx => hok x (List.mem_cons_of_mem _ hx)
    simp only [List.map_cons, List.nodup_cons] at hnd
    obtain ⟨hnotin, hnd2⟩ := hnd
    simp only [assignmentMemberOK] at hk
    have f1 : findField userAssignmentFields "userEmail" = some "UserEmail" := by decide
    have f2 : findField userAssignmentFields "accountId" = some "AccountID" := by decide
    split_ifs at hk with h1 h2
    · subst h1
      obtain ⟨a, ha⟩ := Option.isSome_iff_exists.mp hk
      simp only [decodeMembers, f1, UserAssignment.setField, if_true,
        decodeString_of_asString _ v a ha, Option.map_some', ih _ hnd2 hrest, assignmentOver,
        memberOr_cons_same, ha, Option.getD_some, memberOr_absent _ rest _ _ hnotin,
        memberOr_cons_ne "userEmail" "accountId" v rest _ _ (by decide)]
    · subst h2
      obtain ⟨a, ha⟩ := Option.isSome_iff_exists.mp hk
      simp only [decodeMembers, f2, UserAssignment.setField, if_true,
        decodeInt_of_asInt _ v a ha, Option.map_some', ih _ hnd2 hrest, assignmentOver,
        memberOr_cons_same, ha, Option.getD_some, memberOr_absent _ rest _ _ hnotin,
        memberOr_cons_ne "accountId" "userEmail" v rest _ _ (by decide),
        show ("AccountID" = "UserEmail") = False from by decide, if_false]

/-- A well-formed element of `userAssignment` decodes as the assignment it writes. -/
theorem decodeUserAssignment_of_asAssignment (x : JSON) (y : UserAssignment)
    (h : x.asAssignment = some y) : decodeUserAssignment x = some y := by
  cases x <;> simp only [JSON.asAssignment, reduceCtorEq] at h
  rename_i kvs
  split_ifs at h with hok
  simp only [Option.some.injEq] at h
  rw [← h]
  simp only [decodeUserAssignment, decodeStruct]
  exact decodeMembers_assignment kvs _ hok.1
    (fun kv hkv => by simpa using List.all_eq_true.mp hok.2 kv hkv)

/-- An array of well-formed elements decodes into the slice of the assignments. -/
theorem decodeSlice_assignments (v : JSON) (l : List UserAssignment)
    (h : v.asAssignments = some l) :
    decodeSlice decodeUserAssignment v = some (some l) := by
  cases v <;> simp only [JSON.asAssignments, reduceCtorEq] at h
  simp only [decodeSlice, mapOpt_congr JSON.asAssignment decodeUserAssignment _ l
    decodeUserAssignment_of_asAssignment h, Option.map_some']

/-- Decoding the members of a well-formed role body gives the role they write. -/
theorem decodeMembers_role (kvs : List (String × JSON)) :
    ∀ r0 : RoleDetails, (kvs.map Prod.fst).Nodup →
      (∀ kv ∈ kvs, roleMemberOK kv.1 kv.2 = true) →
      decodeMembers roleDetailsFields RoleDetails.setField r0 kvs
        = some (roleOver r0 kvs) := by
  induction kvs with
  | nil => intro r0 _ _; simp [decodeMembers, roleOver, memberOr]
  | cons kv rest ih =>
    intro r0 hnd hok
    obtain ⟨k, v⟩ := kv
    have hk := hok (k, v) (List.mem_cons_self _ _)
    have hrest : ∀ x ∈ rest, roleMemberOK x.1 x.2 = true :=
      fun x hx => hok x (List.mem_cons_of_mem _ hx)
    simp only [List.map_cons, List.nodup_cons] at hnd
    obtain ⟨hnotin, hnd2⟩ := hnd
    simp only [roleMemberOK] at hk
    have f1 : findField roleDetailsFields "roleId" = some "RoleID" := by decide
    have f2 : findField roleDetailsFields "roleName" = some "RoleName" := by decide
    have f3 : findField roleDetailsFields "roleDescription" = some "RoleDescription" := by
      decide
    have f4 : findField roleDetailsFields "accountId" = some "AccountID" := by decide
    have f5 : findField roleDetailsFields "accountName" = some "AccountName" := by decide
    have f6 : findField roleDetailsFields "roleAbilities" = some "RoleAbilities" := by decide
    have f7 : findField roleDetailsFields "userAssignment" = some "UserAssignment" := by
      decide
    have f8 : findField roleDetailsFields "updateDate" = some "UpdateDate" := by decide
    have f9 : findField roleDetailsFields "isEditable" = some "IsEditable" := by decide
    split_ifs at hk with h1 h2 h3 h4 h5 h6 h7 h8 h9
    · subst h1
      obtain ⟨a, ha⟩ := Option.isSome_iff_exists.mp hk
      simp [decodeMembers, f1, RoleDetails.setField, decodeInt_of_asInt _ v a ha, ih _ hnd2 hrest, roleOver,
        memberOr_cons_same, ha, memberOr_absent _ rest _ _ hnotin, memberOr_cons_ne]
    · subst h2
      obtain ⟨a, ha⟩ := Option.isSome_iff_exists.mp hk
      simp [decodeMembers, f2, RoleDetails.setField, decodeString_of_asString _ v a ha, ih _ hnd2 hrest, roleOver,
        memberOr_cons_same, ha, memberOr_absent _ rest _ _ hnotin, memberOr_cons_ne]
    · subst h3
      obtain ⟨a, ha⟩ := Option.isSome_iff_exists.mp hk
      simp [decodeMembers, f3, RoleDetails.setField, decodeString_of_asString _ v a ha, ih _ hnd2 hrest, roleOver,
        memberOr_cons_same, ha, memberOr_absent _ rest _ _ hnotin, memberOr_cons_ne]
    · subst h4
      obtain ⟨a, ha⟩ := Option.isSome_iff_exists.mp hk
      simp [decodeMembers, f4, RoleDetails.setField, decodeInt_of_asInt _ v a ha, ih _ hnd2 hrest, roleOver,
        memberOr_cons_same, ha, memberOr_absent _ rest _ _ hnotin, memberOr_cons_ne]
    · subst h5
      obtain ⟨a, ha⟩ := Option.isSome_iff_exists.mp hk
      simp [decodeMembers, f5, RoleDetails.setField, decodeString_of_asString _ v a ha, ih _ hnd2 hrest, roleOver,
        memberOr_cons_same, ha, memberOr_absent _ rest _ _ hnotin, memberOr_cons_ne]
    · subst h6
      obtain ⟨a, ha⟩ := Option.isSome_iff_exists.mp hk
      simp [decodeMembers, f6, RoleDetails.setField, decodeSlice_strings v a ha, ih _ hnd2 hrest, roleOver,
        memberOr_cons_same, ha, memberOr_absent _ rest _ _ hnotin, memberOr_cons_ne]
    · subst h7
      obtain ⟨a, ha⟩ := Option.isSome_iff_exists.mp hk
      simp [decodeMembers, f7, RoleDetails.setField, decodeSlice_assignments v a ha, ih _ hnd2 hrest, roleOver,
        memberOr_cons_same, ha, memberOr_absent _ rest _ _ hnotin, memberOr_cons_ne]
    · subst h8
      obtain ⟨a, ha⟩ := Option.isSome_iff_exists.mp hk
      simp [decodeMembers, f8, RoleDetails.setField, decodeString_of_asString _ v a ha, ih _ hnd2 hrest, roleOver,
        memberOr_cons_same, ha, memberOr_absent _ rest _ _ hnotin, memberOr_cons_ne]
    · subst h9
      obtain ⟨a, ha⟩ := Option.isSome_iff_exists.mp hk
      simp [decodeMembers, f9, RoleDetails.setField, decodeBool_of_asBool _ v a ha, ih _ hnd2 hrest, roleOver,
        memberOr_cons_same, ha, memberOr_absent _ rest _ _ hnotin, memberOr_cons_ne]

/-- C5. Round trip of a role: for AddRole, GetRole and UpdateRole, whenever the
request of the operation is built and the transport answers it with status 200 and a
body that is a JSON object
whose members have pairwise distinct names among the nine camelCase keys `roleId`,
`roleName`, `roleDescription`, `accountId`, `accountName`, `roleAbilities`,
`userAssignment` (a list of objects with `userEmail` and `accountId`), `updateDate`
and `isEditable`, each with a value of the matching type, the operation returns no
error and the `RoleDetails` in which every field is the value of the member with the
corresponding key, and the zero value when the body has no such member; the
operation hands its request to the transport. -/
theorem role_round_trip (jsonErr : String → String)
    (urlErr : String → String → Option String) (c : Client) (call : Call) (req : Request)
    (b : String) (re : Option String) (kvs : List (String × JSON))
    (hcall : call.decodesRole = true)
    (hprep : call.prepare (goStdlib jsonErr urlErr) c = .ok req)
    (hresp : c.httpClient req = .ok ⟨200, b, re⟩)
    (hbody : parseJSON b = some (.obj kvs))
    (hdistinct : (kvs.map Prod.fst).Nodup)
    (hmembers : ∀ kv ∈ kvs, roleMemberOK kv.1 kv.2 = true) :
    (call.run (goStdlib jsonErr urlErr) c).sent = [req] ∧
    (call.run (goStdlib jsonErr urlErr) c).err = none ∧
    (call.run (goStdlib jsonErr urlErr) c).record
      = some (.role (roleOver RoleDetails.zero kvs)) := by
  have hu : (goStdlib jsonErr urlErr).UnmarshalRoleDetails b
      = .ok (roleOver RoleDetails.zero kvs) := by
    simp only [goStdlib, unmarshal, hbody, decodeStruct,
      decodeMembers_role kvs RoleDetails.zero hdistinct hmembers]
  rw [Call.run_of_prepare _ c call req hprep, hresp]
  cases call <;> simp only [Call.decodesRole, reduceCtorEq] at hcall <;>
    simp only [Call.interpret, Call.unmarshal, hu, ne_eq, not_true_eq_false, if_false,
      and_self]

set_option maxRecDepth 100000 in
/-- C5, at the body of the GetRole test, for GetRole, AddRole and UpdateRole: `roleId`
1527 and `roleName` "Foo Bar" give `RoleID = 1527`, `RoleName = "Foo Bar"` and the
zero value in every other field. -/
theorem role_round_trip_witness :
    ((Call.getRole 123).run testLib
        (serverClient 200 "\x7b\"roleId\":1527, \"roleName\": \"Foo Bar\"\x7d")).record
      = some (.role ⟨1527, "Foo Bar", "", 0, "", none, none, "", false⟩) ∧
    ((Call.addRole testCreateRole).run testLib
        (serverClient 200 "\x7b\"roleId\":1527, \"roleName\": \"Foo Bar\"\x7d")).record
      = some (.role ⟨1527, "Foo Bar", "", 0, "", none, none, "", false⟩) ∧
    ((Call.updateRole 123 testUpdateRole).run testLib
        (serverClient 200 "\x7b\"roleId\":1527, \"roleName\": \"Foo Bar\"\x7d")).record
      = some (.role ⟨1527, "Foo Bar", "", 0, "", none, none, "", false⟩) :=
  ⟨(role_round_trip (fun _ => "unexpected end of JSON input") urlControlErr
      (serverClient 200 "\x7b\"roleId\":1527, \"roleName\": \"Foo Bar\"\x7d")
      (Call.getRole 123) _
      "\x7b\"roleId\":1527, \"roleName\": \"Foo Bar\"\x7d" none
      [("roleId", .num "1527"), ("roleName", .str "Foo Bar")]
      rfl rfl rfl rfl (by decide) (by decide)).2.2.trans (by decide),
   (role_round_trip (fun _ => "unexpected end of JSON input") urlControlErr
      (serverClient 200 "\x7b\"roleId\":1527, \"roleName\": \"Foo Bar\"\x7d")
      (Call.addRole testCreateRole) _
      "\x7b\"roleId\":1527, \"roleName\": \"Foo Bar\"\x7d" none
      [("roleId", .num "1527"), ("roleName", .str "Foo Bar")]
      rfl rfl rfl rfl (by decide) (by decide)).2.2.trans (by decide),
   (role_round_trip (fun _ => "unexpected end of JSON input") urlControlErr
      (serverClient 200 "\x7b\"roleId\":1527, \"roleName\": \"Foo Bar\"\x7d")
      (Call.updateRole 123 testUpdateRole) _
      "\x7b\"roleId\":1527, \"roleName\": \"Foo Bar\"\x7d" none
      [("roleId", .num "1527"), ("roleName", .str "Foo Bar")]
      rfl rfl rfl rfl (by decide) (by decide)).2.2.trans (by decide)⟩

set_option maxRecDepth 100000 in
/-- C6, evaluated: GetUser and AddUser answered with status 200 and a body that
carries `userId`, `accountId`, `firstName`, `lastName`, `userEmail` and a
`rolesDetails` list of one role return a `User` whose five scalar fields are the
values of the body and whose `RoleDetails` is nil.  The tag of the field is
`json:rolesDetails` without quotes, so encoding/json knows the field as
`RoleDetails`, and the member name `rolesDetails` selects no field of `User`. -/
theorem user_roles_not_decoded :
    ((Call.getUser "example@example.com" 123).run testLib (serverClient 200 userBody)).record
      = some (.user ⟨1527, 123, "Foo", "Bar", "example@example.com", none⟩) ∧
    ((Call.getUser "example@example.com" 123).run testLib (serverClient 200 userBody)).err
      = none ∧
    ((Call.addUser testCreateUser).run testLib (serverClient 200 userBody)).record
      = some (.user ⟨1527, 123, "Foo", "Bar", "example@example.com", none⟩) ∧
    (parseJSON userBody).map JSON.keys
      = some ["userId", "accountId", "firstName", "lastName", "userEmail", "rolesDetails"] ∧
    jsonFieldName "RoleDetails" "json:rolesDetails" = some "RoleDetails" ∧
    findField userFields "rolesDetails" = none := by
  refine ⟨by decide, by decide, by decide, by decide, by decide, by decide⟩

set_option maxRecDepth 100000 in
/-- C7, evaluated: the bodies AddRole, UpdateRole and AddUser hand to the transport
for the records of the tests are objects whose member names are the Go names of the
fields (`RoleName`, `RoleDescription`, `AccountID`, `RoleAbilities`, `UserEmail`,
`RoleIds`, `RoleNames`, `FirstName`, `LastName`), not the camelCase names of the
remote schema: the tags are written without quotes, so encoding/json does not read
them.  The member names depend on the struct declarations only, not on the record. -/
theorem request_keys_are_go_names :
    ((Call.addRole testCreateRole).run testLib (serverClient 200 "")).sent.map Request.Body
      = [some ("\x7b\"RoleName\":\"Foo\",\"RoleDescription\":\"Bar\",\"AccountID\":123,"
          ++ "\"RoleAbilities\":[\"canManageApiKey\",\"canPurgeCache\"]\x7d")] ∧
    ((Call.updateRole 123 testUpdateRole).run testLib (serverClient 200 "")).sent.map
        Request.Body
      = [some ("\x7b\"RoleName\":\"Foo\",\"RoleDescription\":\"Bar\","
          ++ "\"RoleAbilities\":[\"canManageApiKey\",\"canPurgeCache\"]\x7d")] ∧
    ((Call.addUser testCreateUser).run testLib (serverClient 200 "")).sent.map Request.Body
      = [some ("\x7b\"AccountID\":123,\"UserEmail\":\"example@example.com\","
          ++ "\"RoleIds\":null,\"RoleNames\":null,\"FirstName\":\"Foo\","
          ++ "\"LastName\":\"Bar\"\x7d")] ∧
    (parseJSON (marshalCreateRole testCreateRole)).map JSON.keys
      = some ["RoleName", "RoleDescription", "AccountID", "RoleAbilities"] ∧
    memberNames createRoleFields = ["RoleName", "RoleDescription", "AccountID", "RoleAbilities"] ∧
    memberNames updateRoleFields = ["RoleName", "RoleDescription", "RoleAbilities"] ∧
    memberNames createUserFields
      = ["AccountID", "UserEmail", "RoleIds", "RoleNames", "FirstName", "LastName"] := by
  refine ⟨by decide, by decide, by decide, by decide, by decide, by decide, by decide⟩

/-- The requests a call hands to the transport: the one it prepared, and none when
the preparation failed. -/
theorem Call.sent_eq (lib : Stdlib) (c : Client) (call : Call) :
    (call.run lib c).sent
      = match call.prepare lib c with
        | .error _ => []
        | .ok req => [req] := by
  rw [Call.run_eq_pipeline, Call.pipeline]
  cases call.prepare lib c <;> simp only [Call.interpret_sent]

/-- A call whose preparation failed returns the error of the preparation. -/
theorem Call.err_of_prepare_error (lib : Stdlib) (c : Client) (call : Call) (e : String)
    (h : call.prepare lib c = .error e) : (call.run lib c).err = some e := by
  rw [Call.run_eq_pipeline, Call.pipeline, h]

/-- C9, as stated, fails: with a base URL that ends with a line feed, net/http
rejects the URL of each of the four operations and none of them hands a request to
the transport; DeleteRole returns an error of preparation. -/
theorem role_requests_counterexample :
    (Client.AddRole testLib ⟨newlineConfig, fun _ => .ok ⟨200, "", none⟩⟩
        testCreateRole).sent = [] ∧
    (Client.GetRole testLib ⟨newlineConfig, fun _ => .ok ⟨200, "", none⟩⟩ 123).sent = [] ∧
    (Client.UpdateRole testLib ⟨newlineConfig, fun _ => .ok ⟨200, "", none⟩⟩ 123
        testUpdateRole).sent = [] ∧
    (Client.DeleteRole testLib ⟨newlineConfig, fun _ => .ok ⟨200, "", none⟩⟩ 123).sent = [] ∧
    (∃ msg,
      (Client.DeleteRole testLib ⟨newlineConfig, fun _ => .ok ⟨200, "", none⟩⟩ 123).err
        = some msg ∧
      startsWith msg "Error preparing HTTP DELETE for deleting Role 123: ") :=
  ⟨by decide, by decide, by decide, by decide, ⟨_, rfl, by decide⟩⟩

/-- C9, amended: for every configuration and every integer roleID, whenever net/http
accepts the URL text (`http.NewRequest`, which `Post` and `Get` call as well),
AddRole hands to the transport one POST of `<BaseURLAPI>/user-management/v1/roles?
api_id=<APIID>&api_key=<APIKey>` with the serialized record and the content type
`application/json`, and GetRole, UpdateRole and DeleteRole one GET, one PUT and one
DELETE of `<BaseURLAPI>/user-management/v1/roles/<roleID>?api_id=<APIID>&api_key=
<APIKey>`, the roleID in decimal, GetRole and DeleteRole without a body; whenever
net/http rejects the URL text with a cause, the operation hands no request to the
transport and returns the error `Error from Incapsula service when adding Role:
<cause>` (AddRole), `Error from Incapsula service when reading Role <roleID>:
<cause>` (GetRole), `Error preparing HTTP PUT for updating Role <roleID>: <cause>`
(UpdateRole), `Error preparing HTTP DELETE for deleting Role <roleID>: <cause>`
(DeleteRole). -/
theorem role_requests (jsonErr : String → String)
    (urlErr : String → String → Option String) (c : Client) (roleID : Int)
    (role : CreateRole) (upd : Incapsula.UpdateRole) :
    (urlErr "POST" (c.config.BaseURLAPI ++ "/user-management/v1/roles?api_id="
        ++ c.config.APIID ++ "&api_key=" ++ c.config.APIKey) = none →
      (c.AddRole (goStdlib jsonErr urlErr) role).sent
        = [⟨"POST", c.config.BaseURLAPI ++ "/user-management/v1/roles?api_id="
            ++ c.config.APIID ++ "&api_key=" ++ c.config.APIKey,
            some "application/json", some (marshalCreateRole role)⟩]) ∧
    (urlErr "GET" (c.config.BaseURLAPI ++ "/user-management/v1/roles/" ++ fmtD roleID
        ++ "?api_id=" ++ c.config.APIID ++ "&api_key=" ++ c.config.APIKey) = none →
      (c.GetRole (goStdlib jsonErr urlErr) roleID).sent
        = [⟨"GET", c.config.BaseURLAPI ++ "/user-management/v1/roles/" ++ fmtD roleID
            ++ "?api_id=" ++ c.config.APIID ++ "&api_key=" ++ c.config.APIKey, none, none⟩]) ∧
    (urlErr "PUT" (c.config.BaseURLAPI ++ "/user-management/v1/roles/" ++ fmtD roleID
        ++ "?api_id=" ++ c.config.APIID ++ "&api_key=" ++ c.config.APIKey) = none →
      (c.UpdateRole (goStdlib jsonErr urlErr) roleID upd).sent
        = [⟨"PUT", c.config.BaseURLAPI ++ "/user-management/v1/roles/" ++ fmtD roleID
            ++ "?api_id=" ++ c.config.APIID ++ "&api_key=" ++ c.config.APIKey, none,
            some (marshalUpdateRole upd)⟩]) ∧
    (urlErr "DELETE" (c.config.BaseURLAPI ++ "/user-management/v1/roles/" ++ fmtD roleID
        ++ "?api_id=" ++ c.config.APIID ++ "&api_key=" ++ c.config.APIKey) = none →
      (c.DeleteRole (goStdlib jsonErr urlErr) roleID).sent
        = [⟨"DELETE", c.config.BaseURLAPI ++ "/user-management/v1/roles/" ++ fmtD roleID
            ++ "?api_id=" ++ c.config.APIID ++ "&api_key=" ++ c.config.APIKey, none, none⟩]) ∧
    (∀ cause, urlErr "POST" (c.config.BaseURLAPI ++ "/user-management/v1/roles?api_id="
        ++ c.config.APIID ++ "&api_key=" ++ c.config.APIKey) = some cause →
      (c.AddRole (goStdlib jsonErr urlErr) role).sent = [] ∧
      (c.AddRole (goStdlib jsonErr urlErr) role).err
        = some ("Error from Incapsula service when adding Role: " ++ cause)) ∧
    (∀ cause, urlErr "GET" (c.config.BaseURLAPI ++ "/user-management/v1/roles/"
        ++ fmtD roleID ++ "?api_id=" ++ c.config.APIID ++ "&api_key=" ++ c.config.APIKey)
        = some cause →
      (c.GetRole (goStdlib jsonErr urlErr) roleID).sent = [] ∧
      (c.GetRole (goStdlib jsonErr urlErr) roleID).err
        = some ("Error from Incapsula service when reading Role " ++ fmtD roleID ++ ": "
            ++ cause)) ∧
    (∀ cause, urlErr "PUT" (c.config.BaseURLAPI ++ "/user-management/v1/roles/"
        ++ fmtD roleID ++ "?api_id=" ++ c.config.APIID ++ "&api_key=" ++ c.config.APIKey)
        = some cause →
      (c.UpdateRole (goStdlib jsonErr urlErr) roleID upd).sent = [] ∧
      (c.UpdateRole (goStdlib jsonErr urlErr) roleID upd).err
        = some ("Error preparing HTTP PUT for updating Role " ++ fmtD roleID ++ ": "
            ++ cause)) ∧
    (∀ cause, urlErr "DELETE" (c.config.BaseURLAPI ++ "/user-management/v1/roles/"
        ++ fmtD roleID ++ "?api_id=" ++ c.config.APIID ++ "&api_key=" ++ c.config.APIKey)
        = some cause →
      (c.DeleteRole (goStdlib jsonErr urlErr) roleID).sent = [] ∧
      (c.DeleteRole (goStdlib jsonErr urlErr) roleID).err
        = some ("Error preparing HTTP DELETE for deleting Role " ++ fmtD roleID ++ ": "
            ++ cause)) := by
  refine ⟨?_, ?_, ?_, ?_, ?_, ?_, ?_, ?_⟩
  · intro hu
    have h := Call.sent_eq (goStdlib jsonErr urlErr) c (.addRole role)
    simpa only [Call.run, Result.observe, Call.prepare, goStdlib, Stdlib.Post,
      Stdlib.NewRequest, hu] using h
  · intro hu
    have h := Call.sent_eq (goStdlib jsonErr urlErr) c (.getRole roleID)
    simpa only [Call.run, Result.observe, Call.prepare, goStdlib, Stdlib.Get,
      Stdlib.NewRequest, hu] using h
  · intro hu
    have h := Call.sent_eq (goStdlib jsonErr urlErr) c (.updateRole roleID upd)
    simpa only [Call.run, Result.observe, Call.prepare, goStdlib, Stdlib.NewRequest, hu]
      using h
  · intro hu
    have h := Call.sent_eq (goStdlib jsonErr urlErr) c (.deleteRole roleID)
    simpa only [Call.run, DeleteResult.observe, Call.prepare, goStdlib, Stdlib.NewRequest, hu]
      using h
  · intro cause hu
    have hp : (Call.addRole role).prepare (goStdlib jsonErr urlErr) c
        = .error ("Error from Incapsula service when adding Role: " ++ cause) := by
      simp only [Call.prepare, goStdlib, Stdlib.Post, Stdlib.NewRequest, hu]
    have h := Call.sent_eq (goStdlib jsonErr urlErr) c (.addRole role)
    have h2 := Call.err_of_prepare_error _ c _ _ hp
    rw [hp] at h
    exact ⟨h, h2⟩
  · intro cause hu
    have hp : (Call.getRole roleID).prepare (goStdlib jsonErr urlErr) c
        = .error ("Error from Incapsula service when reading Role " ++ fmtD roleID ++ ": "
            ++ cause) := by
      simp only [Call.prepare, goStdlib, Stdlib.Get, Stdlib.NewRequest, hu]
    have h := Call.sent_eq (goStdlib jsonErr urlErr) c (.getRole roleID)
    have h2 := Call.err_of_prepare_error _ c _ _ hp
    rw [hp] at h
    exact ⟨h, h2⟩
  · intro cause hu
    have hp : (Call.updateRole roleID upd).prepare (goStdlib jsonErr urlErr) c
        = .error ("Error preparing HTTP PUT for updating Role " ++ fmtD roleID ++ ": "
            ++ cause) := by
      simp only [Call.prepare, goStdlib, Stdlib.NewRequest, hu]
    have h := Call.sent_eq (goStdlib jsonErr urlErr) c (.updateRole roleID upd)
    have h2 := Call.err_of_prepare_error _ c _ _ hp
    rw [hp] at h
    exact ⟨h, h2⟩
  · intro cause hu
    have hp : (Call.deleteRole roleID).prepare (goStdlib jsonErr urlErr) c
        = .error ("Error preparing HTTP DELETE for deleting Role " ++ fmtD roleID ++ ": "
            ++ cause) := by
      simp only [Call.prepare, goStdlib, Stdlib.NewRequest, hu]
    have h := Call.sent_eq (goStdlib jsonErr urlErr) c (.deleteRole roleID)
    have h2 := Call.err_of_prepare_error _ c _ _ hp
    rw [hp] at h
    exact ⟨h, h2⟩

/-- C9, amended, at the tests: with the configuration of the tests net/http accepts
the URLs, and each of the four operations hands its one request to the transport. -/
theorem role_requests_witness :
    ((serverClient 200 "").AddRole testLib testCreateRole).sent
      = [⟨"POST", "http://127.0.0.1:8080/user-management/v1/roles?api_id=foo&api_key=bar",
          some "application/json", some (marshalCreateRole testCreateRole)⟩] ∧
    ((serverClient 200 "").GetRole testLib 123).sent
      = [⟨"GET", "http://127.0.0.1:8080/user-management/v1/roles/123?api_id=foo&api_key=bar",
          none, none⟩] ∧
    ((serverClient 200 "").UpdateRole testLib 123 testUpdateRole).sent
      = [⟨"PUT", "http://127.0.0.1:8080/user-management/v1/roles/123?api_id=foo&api_key=bar",
          none, some (marshalUpdateRole testUpdateRole)⟩] ∧
    ((serverClient 200 "").DeleteRole testLib 123).sent
      = [⟨"DELETE",
          "http://127.0.0.1:8080/user-management/v1/roles/123?api_id=foo&api_key=bar",
          none, none⟩] :=
  have h := role_requests (fun _ => "unexpected end of JSON input") urlControlErr
    (serverClient 200 "") 123 testCreateRole testUpdateRole
  ⟨h.1 (by decide), h.2.1 (by decide), h.2.2.1 (by decide), h.2.2.2.1 (by decide)⟩

/-- The longest run of elements satisfying `p` stops at the latest at an element
that does not satisfy it. -/
theorem takeWhile_append_stop {α : Type} (p : α → Bool) (l1 l2 : List α) (x : α)
    (hx : p x = false) : (l1 ++ x :: l2).takeWhile p = l1.takeWhile p := by
  induction l1 with
  | nil => simp [List.takeWhile, hx]
  | cons y ys ih =>
    simp only [List.cons_append, List.takeWhile_cons]
    split
    · rw [ih]
    · rfl

/-- What follows a question mark is not before the first question mark. -/
theorem beforeQuery_append (u t : String) :
    beforeQuery (u ++ ("?" ++ t)) = beforeQuery u := by
  simp only [beforeQuery, String.data_append]
  rw [List.singleton_append, takeWhile_append_stop _ _ _ _ (by decide)]

/-- The URL text of one user, with its question mark set apart. -/
theorem url_user_split (x : String) :
    "/user-management/v1/users?userEmail=" ++ x
      = "/user-management/v1/users" ++ ("?" ++ ("userEmail=" ++ x)) := rfl

/-- C10, as stated, fails: with a userEmail that ends with a line feed, net/http
rejects the URL of GetUser and of DeleteUser, and neither hands a request to the
transport; with a base URL that ends with a line feed, AddUser hands none either. -/
theorem user_requests_counterexample :
    ((serverClient 200 "").GetUser testLib "example@example.com\n" 123).sent = [] ∧
    ((serverClient 200 "").DeleteUser testLib "example@example.com\n" 123).sent = [] ∧
    (Client.AddUser testLib ⟨newlineConfig, fun _ => .ok ⟨200, "", none⟩⟩
        testCreateUser).sent = [] ∧
    (∃ msg,
      ((serverClient 200 "").DeleteUser testLib "example@example.com\n" 123).err = some msg ∧
      startsWith msg ("Error preparing HTTP DELETE for deleting User with Email "
        ++ "example@example.com\n (account id: 123): ")) :=
  ⟨by decide, by decide, by decide, ⟨_, rfl, by decide⟩⟩

/-- C10, amended: for every configuration, every userEmail string and every integer
accountID, whenever net/http accepts the URL text (`http.NewRequest`, which `Post`
and `Get` call as well), AddUser hands to the transport one POST of `<BaseURLAPI>/
user-management/v1/users?api_id=<APIID>&api_key=<APIKey>` and GetUser and DeleteUser
one GET and one DELETE of `<BaseURLAPI>/user-management/v1/users?userEmail=
<userEmail>&accountId=<accountID>&api_id=<APIID>&api_key=<APIKey>`; whenever
net/http rejects the URL text with a cause, the operation hands no request to the
transport and returns the error `Error from Incapsula service when adding User
<userEmail>: <cause>` (AddUser), `Error from Incapsula service when reading User for
Email <userEmail> (account id: <accountID>): <cause>` (GetUser), `Error preparing
HTTP DELETE for deleting User with Email <userEmail> (account id: <accountID>):
<cause>` (DeleteUser).  In the URL of GetUser and DeleteUser the user is named after
the question mark only: the part before the first question mark is that of
`<BaseURLAPI>/user-management/v1/users`, whatever the userEmail and the
accountID. -/
theorem user_requests (jsonErr : String → String)
    (urlErr : String → String → Option String) (c : Client) (userEmail : String)
    (accountID : Int) (user : CreateUser) :
    (urlErr "POST" (c.config.BaseURLAPI ++ "/user-management/v1/users?api_id="
        ++ c.config.APIID ++ "&api_key=" ++ c.config.APIKey) = none →
      (c.AddUser (goStdlib jsonErr urlErr) user).sent
        = [⟨"POST", c.config.BaseURLAPI ++ "/user-management/v1/users?api_id="
            ++ c.config.APIID ++ "&api_key=" ++ c.config.APIKey,
            some "application/json", some (marshalCreateUser user)⟩]) ∧
    (urlErr "GET" (c.config.BaseURLAPI ++ "/user-management/v1/users?userEmail="
        ++ userEmail ++ "&accountId=" ++ fmtD accountID ++ "&api_id=" ++ c.config.APIID
        ++ "&api_key=" ++ c.config.APIKey) = none →
      (c.GetUser (goStdlib jsonErr urlErr) userEmail accountID).sent
        = [⟨"GET", c.config.BaseURLAPI ++ "/user-management/v1/users?userEmail="
            ++ userEmail ++ "&accountId=" ++ fmtD accountID ++ "&api_id=" ++ c.config.APIID
            ++ "&api_key=" ++ c.config.APIKey, none, none⟩]) ∧
    (urlErr "DELETE" (c.config.BaseURLAPI ++ "/user-management/v1/users?userEmail="
        ++ userEmail ++ "&accountId=" ++ fmtD accountID ++ "&api_id=" ++ c.config.APIID
        ++ "&api_key=" ++ c.config.APIKey) = none →
      (c.DeleteUser (goStdlib jsonErr urlErr) userEmail accountID).sent
        = [⟨"DELETE", c.config.BaseURLAPI ++ "/user-management/v1/users?userEmail="
            ++ userEmail ++ "&accountId=" ++ fmtD accountID ++ "&api_id=" ++ c.config.APIID
            ++ "&api_key=" ++ c.config.APIKey, none, none⟩]) ∧
    (∀ cause, urlErr "POST" (c.config.BaseURLAPI ++ "/user-management/v1/users?api_id="
        ++ c.config.APIID ++ "&api_key=" ++ c.config.APIKey) = some cause →
      (c.AddUser (goStdlib jsonErr urlErr) user).sent = [] ∧
      (c.AddUser (goStdlib jsonErr urlErr) user).err
        = some ("Error from Incapsula service when adding User " ++ user.UserEmail ++ ": "
            ++ cause)) ∧
    (∀ cause, urlErr "GET" (c.config.BaseURLAPI ++ "/user-management/v1/users?userEmail="
        ++ userEmail ++ "&accountId=" ++ fmtD accountID ++ "&api_id=" ++ c.config.APIID
        ++ "&api_key=" ++ c.config.APIKey) = some cause →
      (c.GetUser (goStdlib jsonErr urlErr) userEmail accountID).sent = [] ∧
      (c.GetUser (goStdlib jsonErr urlErr) userEmail accountID).err
        = some ("Error from Incapsula service when reading User for Email " ++ userEmail
            ++ " (account id: " ++ fmtD accountID ++ "): " ++ cause)) ∧
    (∀ cause, urlErr "DELETE" (c.config.BaseURLAPI ++ "/user-management/v1/users?userEmail="
        ++ userEmail ++ "&accountId=" ++ fmtD accountID ++ "&api_id=" ++ c.config.APIID
        ++ "&api_key=" ++ c.config.APIKey) = some cause →
      (c.DeleteUser (goStdlib jsonErr urlErr) userEmail accountID).sent = [] ∧
      (c.DeleteUser (goStdlib jsonErr urlErr) userEmail accountID).err
        = some ("Error preparing HTTP DELETE for deleting User with Email " ++ userEmail
            ++ " (account id: " ++ fmtD accountID ++ "): " ++ cause)) ∧
    beforeQuery (c.config.BaseURLAPI ++ "/user-management/v1/users?userEmail=" ++ userEmail
        ++ "&accountId=" ++ fmtD accountID ++ "&api_id=" ++ c.config.APIID ++ "&api_key="
        ++ c.config.APIKey)
      = beforeQuery (c.config.BaseURLAPI ++ "/user-management/v1/users") := by
  refine ⟨?_, ?_, ?_, ?_, ?_, ?_, ?_⟩
  · intro hu
    have h := Call.sent_eq (goStdlib jsonErr urlErr) c (.addUser user)
    simpa only [Call.run, Result.observe, Call.prepare, goStdlib, Stdlib.Post,
      Stdlib.NewRequest, hu] using h
  · intro hu
    have h := Call.sent_eq (goStdlib jsonErr urlErr) c (.getUser userEmail accountID)
    simpa only [Call.run, Result.observe, Call.prepare, goStdlib, Stdlib.Get,
      Stdlib.NewRequest, hu] using h
  · intro hu
    have h := Call.sent_eq (goStdlib jsonErr urlErr) c (.deleteUser userEmail accountID)
    simpa only [Call.run, DeleteResult.observe, Call.prepare, goStdlib, Stdlib.NewRequest, hu]
      using h
  · intro cause hu
    have hp : (Call.addUser user).prepare (goStdlib jsonErr urlErr) c
        = .error ("Error from Incapsula service when adding User " ++ user.UserEmail
            ++ ": " ++ cause) := by
      simp only [Call.prepare, goStdlib, Stdlib.Post, Stdlib.NewRequest, hu]
    have h := Call.sent_eq (goStdlib jsonErr urlErr) c (.addUser user)
    have h2 := Call.err_of_prepare_error _ c _ _ hp
    rw [hp] at h
    exact ⟨h, h2⟩
  · intro cause hu
    have hp : (Call.getUser userEmail accountID).prepare (goStdlib jsonErr urlErr) c
        = .error ("Error from Incapsula service when reading User for Email " ++ userEmail
            ++ " (account id: " ++ fmtD accountID ++ "): " ++ cause) := by
      simp only [Call.prepare, goStdlib, Stdlib.Get, Stdlib.NewRequest, hu]
    have h := Call.sent_eq (goStdlib jsonErr urlErr) c (.getUser userEmail accountID)
    have h2 := Call.err_of_prepare_error _ c _ _ hp
    rw [hp] at h
    exact ⟨h, h2⟩
  · intro cause hu
    have hp : (Call.deleteUser userEmail accountID).prepare (goStdlib jsonErr urlErr) c
        = .error ("Error preparing HTTP DELETE for deleting User with Email " ++ userEmail
            ++ " (account id: " ++ fmtD accountID ++ "): " ++ cause) := by
      simp only [Call.prepare, goStdlib, Stdlib.NewRequest, hu]
    have h := Call.sent_eq (goStdlib jsonErr urlErr) c (.deleteUser userEmail accountID)
    have h2 := Call.err_of_prepare_error _ c _ _ hp
    rw [hp] at h
    exact ⟨h, h2⟩
  · simp only [String.append_assoc, url_user_split]
    rw [← String.append_assoc, beforeQuery_append]

/-- C10, amended, at the tests: with the configuration, the email and the account of
the tests net/http accepts the URLs, and each of the three operations hands its one
request to the transport. -/
theorem user_requests_witness :
    ((serverClient 200 "").AddUser testLib testCreateUser).sent
      = [⟨"POST", "http://127.0.0.1:8080/user-management/v1/users?api_id=foo&api_key=bar",
          some "application/json", some (marshalCreateUser testCreateUser)⟩] ∧
    ((serverClient 200 "").GetUser testLib "example@example.com" 123).sent
      = [⟨"GET", "http://127.0.0.1:8080/user-management/v1/users?userEmail="
          ++ "example@example.com&accountId=123&api_id=foo&api_key=bar", none, none⟩] ∧
    ((serverClient 200 "").DeleteUser testLib "example@example.com" 123).sent
      = [⟨"DELETE", "http://127.0.0.1:8080/user-management/v1/users?userEmail="
          ++ "example@example.com&accountId=123&api_id=foo&api_key=bar", none, none⟩] :=
  have h := user_requests (fun _ => "unexpected end of JSON input") urlControlErr
    (serverClient 200 "") "example@example.com" 123 testCreateUser
  ⟨h.1 (by decide), h.2.1 (by decide), h.2.2.1 (by decide)⟩

/-- C12, evaluated: the PUT of UpdateRole carries a JSON body and no content type,
for the record of the tests and for every library, client, roleID and record; the
POST of AddRole and the POST of AddUser carry `application/json`.  UpdateRole builds
its request with `http.NewRequest` and sets no header on it, where AddRole and
AddUser pass the content type to `Post`. -/
theorem update_role_sends_no_content_type :
    ((serverClient 200 "").UpdateRole testLib 123 testUpdateRole).sent
      = [⟨"PUT", "http://127.0.0.1:8080/user-management/v1/roles/123?api_id=foo&api_key=bar",
          none, some (marshalUpdateRole testUpdateRole)⟩] ∧
    ((serverClient 200 "").AddRole testLib testCreateRole).sent.map Request.ContentType
      = [some "application/json"] ∧
    ((serverClient 200 "").AddUser testLib testCreateUser).sent.map Request.ContentType
      = [some "application/json"] ∧
    (∀ (lib : Stdlib) (c : Client) (roleID : Int) (role : Incapsula.UpdateRole),
      (c.UpdateRole lib roleID role).sent.all (fun req => req.ContentType == none) = true) := by
  refine ⟨by decide, by decide, by decide, ?_⟩
  intro lib c roleID role
  have h := Call.sent_eq lib c (.updateRole roleID role)
  simp only [Call.run, Result.observe, Call.prepare, Stdlib.NewRequest] at h
  rw [h]
  cases lib.MarshalUpdateRole role with
  | error e => rfl
  | ok body =>
    simp only []
    cases lib.NewRequestErr "PUT" _ <;> rfl

/-- C13. Record or error, never both and never neither: AddRole, GetRole, UpdateRole,
AddUser and GetUser return, for every library, client and arguments, either no error
and a non-nil record, or an error and a nil record. -/
theorem record_xor_error (lib : Stdlib) (c : Client) (roleID : Int) (role : CreateRole)
    (upd : Incapsula.UpdateRole) (user : CreateUser) (userEmail : String) (accountID : Int) :
    (((c.AddRole lib role).err = none ∧ (c.AddRole lib role).record ≠ none) ∨
      ((c.AddRole lib role).err ≠ none ∧ (c.AddRole lib role).record = none)) ∧
    (((c.GetRole lib roleID).err = none ∧ (c.GetRole lib roleID).record ≠ none) ∨
      ((c.GetRole lib roleID).err ≠ none ∧ (c.GetRole lib roleID).record = none)) ∧
    (((c.UpdateRole lib roleID upd).err = none ∧ (c.UpdateRole lib roleID upd).record ≠ none) ∨
      ((c.UpdateRole lib roleID upd).err ≠ none ∧
        (c.UpdateRole lib roleID upd).record = none)) ∧
    (((c.AddUser lib user).err = none ∧ (c.AddUser lib user).record ≠ none) ∨
      ((c.AddUser lib user).err ≠ none ∧ (c.AddUser lib user).record = none)) ∧
    (((c.GetUser lib userEmail accountID).err = none ∧
        (c.GetUser lib userEmail accountID).record ≠ none) ∨
      ((c.GetUser lib userEmail accountID).err ≠ none ∧
        (c.GetUser lib userEmail accountID).record = none)) := by
  refine ⟨?_, ?_, ?_, ?_, ?_⟩
  · simp only [Client.AddRole]
    repeat (first | (split <;> try simp) | simp)
  · simp only [Client.GetRole]
    repeat (first | (split <;> try simp) | simp)
  · simp only [Client.UpdateRole]
    repeat (first | (split <;> try simp) | simp)
  · simp only [Client.AddUser]
    repeat (first | (split <;> try simp) | simp)
  · simp only [Client.GetUser]
    repeat (first | (split <;> try simp) | simp)

/-- C15. One transport call at most: whatever the library, the client, the
operation, its arguments and the outcome (a failure before the request, a transport
failure, a non-200 status, a decode failure, a semantic failure or a success), the
operation hands at most one request to the transport. -/
theorem at_most_one_transport_call (lib : Stdlib) (c : Client) (call : Call) :
    (call.run lib c).sent.length ≤ 1 := by
  rw [Call.sent_eq]
  cases call.prepare lib c <;> simp

/-- C14. Serialization failure is local: if `json.Marshal` fails on the record with
cause `e`, AddRole and UpdateRole return a nil record, the error `Failed to JSON
marshal Role: <e>` and hand no request to the transport; AddUser does the same with
`Failed to JSON marshal User: <e>`. -/
theorem marshal_failure_is_local (lib : Stdlib) (c : Client) (roleID : Int)
    (role : CreateRole) (upd : Incapsula.UpdateRole) (user : CreateUser) (cause : String) :
    (lib.MarshalCreateRole role = .error cause →
      c.AddRole lib role = ⟨[], none, some ("Failed to JSON marshal Role: " ++ cause)⟩ ∧
      startsWith ("Failed to JSON marshal Role: " ++ cause) "Failed to JSON marshal Role") ∧
    (lib.MarshalUpdateRole upd = .error cause →
      c.UpdateRole lib roleID upd
        = ⟨[], none, some ("Failed to JSON marshal Role: " ++ cause)⟩) ∧
    (lib.MarshalCreateUser user = .error cause →
      c.AddUser lib user = ⟨[], none, some ("Failed to JSON marshal User: " ++ cause)⟩ ∧
      startsWith ("Failed to JSON marshal User: " ++ cause) "Failed to JSON marshal User") := by
  refine ⟨?_, ?_, ?_⟩
  · intro h
    refine ⟨by simp only [Client.AddRole, h], ?_⟩
    exact ⟨(": " ++ cause).data, by rw [← String.data_append]; rfl⟩
  · intro h
    simp only [Client.UpdateRole, h]
  · intro h
    refine ⟨by simp only [Client.AddUser, h], ?_⟩
    exact ⟨(": " ++ cause).data, by rw [← String.data_append]; rfl⟩

/-- C14, at a library whose `json.Marshal` fails: AddRole returns the local error and
hands nothing to the transport. -/
theorem marshal_failure_is_local_witness :
    (serverClient 200 "").AddRole (failingMarshalLib "json: unsupported value") testCreateRole
      = ⟨[], none, some "Failed to JSON marshal Role: json: unsupported value"⟩ :=
  ((marshal_failure_is_local (failingMarshalLib "json: unsupported value")
    (serverClient 200 "") 123 testCreateRole testUpdateRole testCreateUser
    "json: unsupported value").1 rfl).1

/-- The interpretation of an answer depends on the failure, or on the status code
and the body, and on nothing else of the answer. -/
theorem Call.interpret_congr (lib : Stdlib) (call : Call) (req : Request)
    (a1 a2 : Except String Response) (h : sameOutcome a1 a2) :
    call.interpret lib req a1 = call.interpret lib req a2 := by
  cases a1 with
  | error e1 =>
    cases a2 with
    | error e2 => simp only [sameOutcome] at h; rw [h]
    | ok r2 => exact absurd h (by simp [sameOutcome])
  | ok r1 =>
    cases a2 with
    | error e2 => exact absurd h (by simp [sameOutcome])
    | ok r2 =>
      simp only [sameOutcome] at h
      simp only [Call.interpret, h.1, h.2]

/-- The preparation of a request depends on the client through its configuration
only. -/
theorem Call.prepare_congr (lib : Stdlib) (c1 c2 : Client) (call : Call)
    (h : c1.config = c2.config) : call.prepare lib c1 = call.prepare lib c2 := by
  cases call <;> simp only [Call.prepare, h]

/-- C18. The result depends on the call's own exchange only: two invocations of the
same operation with the same arguments and the same library, on clients with equal
configuration whose transports give the same outcome (the same failure, or the same
status code and the same body) to the request of the call, return equal records and
equal errors, and hand the same request to the transport, whatever the two
transports answer to any other request. -/
theorem result_depends_on_own_exchange (lib : Stdlib) (c1 c2 : Client) (call : Call)
    (hconfig : c1.config = c2.config)
    (hanswer : ∀ req, (call.run lib c1).sent = [req] →
      sameOutcome (c1.httpClient req) (c2.httpClient req)) :
    (call.run lib c1).record = (call.run lib c2).record ∧
    (call.run lib c1).err = (call.run lib c2).err ∧
    (call.run lib c1).sent = (call.run lib c2).sent := by
  have hp := Call.prepare_congr lib c1 c2 call hconfig
  have hs := Call.sent_eq lib c1 call
  have key : call.run lib c1 = call.run lib c2 := by
    rw [Call.run_eq_pipeline, Call.run_eq_pipeline, Call.pipeline, Call.pipeline, ← hp]
    cases hprep : call.prepare lib c1 with
    | error e => rfl
    | ok req =>
      rw [hprep] at hs
      exact Call.interpret_congr lib call req _ _ (hanswer req hs)
  rw [key]
  exact ⟨rfl, rfl, rfl⟩

/-- C18, at GetRole of role 123: a transport that answers every request alike and a
transport that answers that GET alike and fails on every other request give the same
record. -/
theorem result_depends_on_own_exchange_witness :
    ((Call.getRole 123).run testLib
        (serverClient 200 "\x7b\"roleId\":1527, \"roleName\": \"Foo Bar\"\x7d")).record
      = ((Call.getRole 123).run testLib
        (pickyClient 200 "\x7b\"roleId\":1527, \"roleName\": \"Foo Bar\"\x7d")).record :=
  (result_depends_on_own_exchange testLib
    (serverClient 200 "\x7b\"roleId\":1527, \"roleName\": \"Foo Bar\"\x7d")
    (pickyClient 200 "\x7b\"roleId\":1527, \"roleName\": \"Foo Bar\"\x7d")
    (Call.getRole 123) rfl
    (fun req h => by
      have h2 : req = ⟨"GET",
          "http://127.0.0.1:8080/user-management/v1/roles/123?api_id=foo&api_key=bar",
          none, none⟩ := by
        have h3 : ((Call.getRole 123).run testLib
            (serverClient 200 "\x7b\"roleId\":1527, \"roleName\": \"Foo Bar\"\x7d")).sent
            = [⟨"GET",
              "http://127.0.0.1:8080/user-management/v1/roles/123?api_id=foo&api_key=bar",
              none, none⟩] := by decide
        rw [h3] at h
        simp only [List.cons.injEq, and_true] at h
        exact h.symm
      rw [h2]
      exact ⟨rfl, rfl⟩)).1

/-- C17, evaluated: when the transport delivers the status line and then fails
while the body is read, the operations do not return a transport error.  GetRole
with status 200 and a truncated body returns the decode error of the bytes read;
AddRole with status 406 returns the status error with the bytes read; GetRole and
DeleteRole whose bytes read happen to be a complete document return a record,
respectively no error at all.  For every library, client and call the result is the
same whatever the read error: the error `ioutil.ReadAll` returns is assigned and
never looked at. -/
theorem read_failure_is_not_surfaced :
    ((Call.getRole 123).run testLib
        (interruptedClient 200 "\x7b\"roleId\":15" "context deadline exceeded")).err
      = some ("Error parsing Role 123 JSON response: unexpected end of JSON input"
          ++ "\nresponse: \x7b\"roleId\":15") ∧
    ((Call.addRole testCreateRole).run testLib
        (interruptedClient 406 "\x7b\"errorCode\":1, \"mess" "context deadline exceeded")).err
      = some ("Error status code 406 from Incapsula service when adding Role: "
          ++ "\x7b\"errorCode\":1, \"mess") ∧
    ((Call.getRole 123).run testLib
        (interruptedClient 200 "\x7b\"roleId\":15\x7d" "context deadline exceeded"))
      = ⟨[⟨"GET", "http://127.0.0.1:8080/user-management/v1/roles/123?api_id=foo&api_key=bar",
            none, none⟩],
          some (.role ⟨15, "", "", 0, "", none, none, "", false⟩), none⟩ ∧
    ((Call.deleteRole 123).run testLib
        (interruptedClient 200 "\x7b\"code\": 200\x7d" "context deadline exceeded")).err
      = none ∧
    (∀ (lib : Stdlib) (c : Client) (call : Call) (g : Response → Option String),
      call.run lib (c.withReadErr g) = call.run lib c) := by
  refine ⟨by decide, by decide, by decide, by decide, ?_⟩
  intro lib c call g
  have hp : call.prepare lib (c.withReadErr g) = call.prepare lib c :=
    Call.prepare_congr lib _ _ call rfl
  rw [Call.run_eq_pipeline, Call.run_eq_pipeline, Call.pipeline, Call.pipeline, hp]
  cases call.prepare lib c with
  | error e => rfl
  | ok req =>
    apply Call.interpret_congr
    simp only [Client.withReadErr]
    cases c.httpClient req <;> simp [sameOutcome]

/-- A text has at least one piece. -/
theorem splitOn_ne_nil (sep : Char) (l : List Char) : splitOn sep l ≠ [] := by
  cases l with
  | nil => simp [splitOn]
  | cons c cs =>
    simp only [splitOn]
    split
    · simp
    · split <;> simp

/-- The pieces of two texts joined by the separator are the pieces of the first
followed by the pieces of the second. -/
theorem splitOn_append_sep (sep : Char) (x y : List Char) :
    splitOn sep (x ++ sep :: y) = splitOn sep x ++ splitOn sep y := by
  induction x with
  | nil => simp [splitOn]
  | cons c cs ih =>
    simp only [List.cons_append, splitOn, List.append_eq]
    split
    · rw [ih]; rfl
    · rw [ih]
      cases h : splitOn sep cs with
      | nil => exact absurd h (splitOn_ne_nil sep cs)
      | cons p ps => rfl

/-- A text without the separator is its only piece. -/
theorem splitOn_of_not_mem (sep : Char) (x : List Char) (h : sep ∉ x) :
    splitOn sep x = [x] := by
  induction x with
  | nil => rfl
  | cons c cs ih =>
    simp only [List.mem_cons, not_or] at h
    simp only [splitOn, if_neg (Ne.symm h.1), ih h.2]

/-- The character of a decimal digit is a digit. -/
theorem digitChar_isDigit (d : Nat) (h : d < 10) : (Nat.digitChar d).isDigit = true := by
  interval_cases d <;> rfl

/-- The decimal digits of a number are digits. -/
theorem toDigitsCore_isDigit (fuel : Nat) :
    ∀ (n : Nat) (ds : List Char), (∀ c ∈ ds, c.isDigit = true) →
      ∀ c ∈ Nat.toDigitsCore 10 fuel n ds, c.isDigit = true := by
  induction fuel with
  | zero => intro n ds h; simpa [Nat.toDigitsCore] using h
  | succ fuel ih =>
    intro n ds h
    have hd : ∀ c ∈ Nat.digitChar (n % 10) :: ds, c.isDigit = true := by
      intro c hc
      rcases List.mem_cons.mp hc with rfl | hc
      · exact digitChar_isDigit _ (Nat.mod_lt _ (by decide))
      · exact h c hc
    simp only [Nat.toDigitsCore]
    split
    · exact hd
    · exact ih _ _ hd

/-- Writing digits in front of a text that is not empty gives a text that is not
empty. -/
theorem toDigitsCore_ne_nil (fuel : Nat) :
    ∀ (n : Nat) (ds : List Char), ds ≠ [] → Nat.toDigitsCore 10 fuel n ds ≠ [] := by
  induction fuel with
  | zero => intro n ds h; simpa [Nat.toDigitsCore] using h
  | succ fuel ih =>
    intro n ds _
    simp only [Nat.toDigitsCore]
    split
    · simp
    · exact ih _ _ (by simp)

/-- The decimal text of an integer consists of digits and, possibly, a minus sign. -/
theorem fmtD_chars (n : Int) : ∀ c ∈ (fmtD n).data, c = '-' ∨ c.isDigit = true := by
  intro c hc
  cases n with
  | ofNat m =>
    right
    exact toDigitsCore_isDigit _ _ [] (by simp) c hc
  | negSucc m =>
    simp only [fmtD, String.data_append, List.mem_append] at hc
    rcases hc with hc | hc
    · left
      simpa using hc
    · right
      exact toDigitsCore_isDigit _ _ [] (by simp) c hc

/-- The decimal text of an integer is not empty. -/
theorem fmtD_ne_nil (n : Int) : (fmtD n).data ≠ [] := by
  cases n with
  | ofNat m =>
    show Nat.toDigitsCore 10 (m + 1) m [] ≠ []
    simp only [Nat.toDigitsCore]
    split
    · simp
    · exact toDigitsCore_ne_nil _ _ _ (by simp)
  | negSucc m =>
    simp only [fmtD, String.data_append]
    simp

/-- A character of the decimal text of an integer is none of the characters that
delimit the parts of a URL. -/
theorem fmtD_plain (n : Int) (c : Char) (hc : c ∈ (fmtD n).data) :
    c ≠ '?' ∧ c ≠ '#' ∧ c ≠ '&' := by
  rcases fmtD_chars n c hc with rfl | h
  · decide
  · refine ⟨?_, ?_, ?_⟩ <;> (rintro rfl; exact absurd h (by decide))

/-- The query of a URL whose first question mark comes after a text without
question mark and number sign, and is followed by a text without number sign. -/
theorem urlQuery_of (pre q : List Char) (hpre : ∀ ch ∈ pre, ch ≠ '?' ∧ ch ≠ '#')
    (hq : ∀ ch ∈ q, ch ≠ '#') : urlQuery (String.mk (pre ++ '?' :: q)) = some q := by
  have h1 : (pre ++ '?' :: q).takeWhile (fun ch => ch != '#') = pre ++ '?' :: q := by
    rw [List.takeWhile_eq_self_iff]
    intro ch hch
    simp only [List.mem_append, List.mem_cons] at hch
    rcases hch with h | rfl | h
    · simpa using (hpre ch h).2
    · decide
    · simpa using hq ch h
  have h2 : ∀ p : List Char, (∀ ch ∈ p, ch ≠ '?') →
      (p ++ '?' :: q).dropWhile (fun ch => ch != '?') = '?' :: q := by
    intro p
    induction p with
    | nil => intro _; simp [List.dropWhile]
    | cons a p ih =>
      intro hp
      have ha : a ≠ '?' := hp a (List.mem_cons_self _ _)
      simp only [List.cons_append, List.dropWhile_cons, bne_iff_ne, ne_eq, ha,
        not_false_eq_true, if_true]
      exact ih (fun ch hch => hp ch (List.mem_cons_of_mem _ hch))
  simp only [urlQuery, h1, h2 pre (fun ch hch => (hpre ch hch).1)]

/-- The piece `api_id=<id>` reads as the parameter `api_id` with the value `<id>`. -/
theorem queryPair_api_id (id : List Char) :
    queryPair ("api_id=".data ++ id) = ("api_id", String.mk id) := rfl

/-- The piece `api_key=<key>` reads as the parameter `api_key` with the value
`<key>`. -/
theorem queryPair_api_key (key : List Char) :
    queryPair ("api_key=".data ++ key) = ("api_key", String.mk key) := rfl

/-- A query that ends with `api_id=<id>&api_key=<key>`, after nothing or after a
text that ends with an ampersand, has these two pieces when the two values contain
no ampersand. -/
theorem splitOn_credentials (y id key : List Char) (hy : y = [] ∨ ∃ x, y = x ++ ['&'])
    (hid : '&' ∉ id) (hkey : '&' ∉ key) :
    ("api_id=".data ++ id) ∈ splitOn '&' (y ++ (("api_id=".data ++ id)
        ++ '&' :: ("api_key=".data ++ key))) ∧
    ("api_key=".data ++ key) ∈ splitOn '&' (y ++ (("api_id=".data ++ id)
        ++ '&' :: ("api_key=".data ++ key))) := by
  have hA : '&' ∉ "api_id=".data ++ id := by
    simp only [List.mem_append, not_or]
    exact ⟨by decide, hid⟩
  have hK : '&' ∉ "api_key=".data ++ key := by
    simp only [List.mem_append, not_or]
    exact ⟨by decide, hkey⟩
  have h0 : splitOn '&' (("api_id=".data ++ id) ++ '&' :: ("api_key=".data ++ key))
      = ["api_id=".data ++ id, "api_key=".data ++ key] := by
    rw [splitOn_append_sep, splitOn_of_not_mem _ _ hA, splitOn_of_not_mem _ _ hK]
    rfl
  rcases hy with rfl | ⟨x, rfl⟩
  · rw [List.nil_append, h0]
    simp
  · rw [List.append_assoc, List.singleton_append, splitOn_append_sep, h0]
    simp

/-- The credentials are parameters of a URL of the form
`<pre>?<y>api_id=<id>&api_key=<key>`. -/
theorem hasParam_credentials (pre y id key : String)
    (hpre : ∀ ch ∈ pre.data, ch ≠ '?' ∧ ch ≠ '#') (hy : ∀ ch ∈ y.data, ch ≠ '#')
    (hform : y = "" ∨ ∃ x : String, y = x ++ "&")
    (hid : ∀ ch ∈ id.data, ch ≠ '&' ∧ ch ≠ '#')
    (hkey : ∀ ch ∈ key.data, ch ≠ '&' ∧ ch ≠ '#') :
    hasParam (pre ++ "?" ++ y ++ "api_id=" ++ id ++ "&api_key=" ++ key) "api_id" id ∧
    hasParam (pre ++ "?" ++ y ++ "api_id=" ++ id ++ "&api_key=" ++ key) "api_key" key := by
  have hurl : pre ++ "?" ++ y ++ "api_id=" ++ id ++ "&api_key=" ++ key
      = String.mk (pre.data ++ '?' :: (y.data ++ (("api_id=".data ++ id.data)
          ++ '&' :: ("api_key=".data ++ key.data)))) := by
    apply String.ext
    simp only [String.data_append, List.append_assoc]
    rfl
  have hq : ∀ ch ∈ y.data ++ (("api_id=".data ++ id.data)
      ++ '&' :: ("api_key=".data ++ key.data)), ch ≠ '#' := by
    intro ch hch
    simp only [List.mem_append, List.mem_cons] at hch
    rcases hch with h | (h | h) | rfl | h | h
    · exact hy ch h
    · intro hc; subst hc; exact absurd h (by decide)
    · exact (hid ch h).2
    · decide
    · intro hc; subst hc; exact absurd h (by decide)
    · exact (hkey ch h).2
  have hyl : y.data = [] ∨ ∃ x, y.data = x ++ ['&'] := by
    rcases hform with rfl | ⟨x, rfl⟩
    · left; rfl
    · right; exact ⟨x.data, by rw [String.data_append]⟩
  have hs := splitOn_credentials y.data id.data key.data hyl
    (fun h => (hid _ h).1 rfl) (fun h => (hkey _ h).1 rfl)
  simp only [hasParam, queryParams, hurl, urlQuery_of _ _ hpre hq, List.mem_map]
  exact ⟨⟨_, hs.1, queryPair_api_id _⟩, ⟨_, hs.2, queryPair_api_key _⟩⟩

/-- A request `http.NewRequest` returns has the method, the URL and the body it was
given, and no content type. -/
theorem Stdlib.newRequest_ok (lib : Stdlib) (method url : String) (body : Option String)
    (req : Request) (h : lib.NewRequest method url body = .ok req) :
    req = ⟨method, url, none, body⟩ := by
  unfold Stdlib.NewRequest at h
  split at h
  · exact absurd h (by simp)
  · simp only [Except.ok.injEq] at h
    exact h.symm

/-- A request `Get` hands to the transport is a GET of the URL it was given, without
content type and without body. -/
theorem Stdlib.get_ok (lib : Stdlib) (url : String) (req : Request)
    (h : lib.Get url = .ok req) : req = ⟨"GET", url, none, none⟩ :=
  Stdlib.newRequest_ok lib "GET" url none req h

/-- A request `Post` hands to the transport is a POST of the URL it was given, with
the content type and the body it was given. -/
theorem Stdlib.post_ok (lib : Stdlib) (url contentType body : String) (req : Request)
    (h : lib.Post url contentType body = .ok req) :
    req = ⟨"POST", url, some contentType, some body⟩ := by
  unfold Stdlib.Post at h
  split at h
  · exact absurd h (by simp)
  · rename_i r hn
    simp only [Except.ok.injEq] at h
    rw [← h, Stdlib.newRequest_ok lib _ _ _ _ hn]

/-- The request a call prepares goes to the URL of the call. -/
theorem Call.prepare_url (lib : Stdlib) (c : Client) (call : Call) (req : Request)
    (h : call.prepare lib c = .ok req) : req.URL = call.url c := by
  cases call <;> simp only [Call.prepare] at h
  case addRole role =>
    split at h
    · exact absurd h (by simp)
    · split at h
      · exact absurd h (by simp)
      · rename_i r hn
        simp only [Except.ok.injEq] at h
        subst h
        rw [Stdlib.post_ok lib _ _ _ _ hn]
        simp only [Call.url, endpointRole, String.append_assoc]; rfl
  case getRole roleID =>
    split at h
    · exact absurd h (by simp)
    · rename_i r hn
      simp only [Except.ok.injEq] at h
      subst h
      rw [Stdlib.get_ok lib _ _ hn]
      simp only [Call.url, endpointRole, String.append_assoc]; rfl
  case updateRole roleID role =>
    split at h
    · exact absurd h (by simp)
    · split at h
      · exact absurd h (by simp)
      · rename_i r hn
        simp only [Except.ok.injEq] at h
        subst h
        rw [Stdlib.newRequest_ok lib _ _ _ _ hn]
        simp only [Call.url, endpointRole, String.append_assoc]; rfl
  case deleteRole roleID =>
    split at h
    · exact absurd h (by simp)
    · rename_i r hn
      simp only [Except.ok.injEq] at h
      subst h
      rw [Stdlib.newRequest_ok lib _ _ _ _ hn]
      simp only [Call.url, endpointRole, String.append_assoc]; rfl
  case addUser user =>
    split at h
    · exact absurd h (by simp)
    · split at h
      · exact absurd h (by simp)
      · rename_i r hn
        simp only [Except.ok.injEq] at h
        subst h
        rw [Stdlib.post_ok lib _ _ _ _ hn]
        simp only [Call.url, endpointUser, String.append_assoc]; rfl
  case getUser userEmail accountID =>
    split at h
    · exact absurd h (by simp)
    · rename_i r hn
      simp only [Except.ok.injEq] at h
      subst h
      rw [Stdlib.get_ok lib _ _ hn]
      simp only [Call.url, endpointUser, String.append_assoc]; rfl
  case deleteUser userEmail accountID =>
    split at h
    · exact absurd h (by simp)
    · rename_i r hn
      simp only [Except.ok.injEq] at h
      subst h
      rw [Stdlib.newRequest_ok lib _ _ _ _ hn]
      simp only [Call.url, endpointUser, String.append_assoc]; rfl

/-- The credentials are parameters of the URL of a call, when the base URL has no
question mark and no number sign, the userEmail no number sign, and the two
credentials neither ampersand nor number sign. -/
theorem Call.url_hasParam (c : Client) (call : Call)
    (hbase : ∀ ch ∈ c.config.BaseURLAPI.data, ch ≠ '?' ∧ ch ≠ '#')
    (hemail : ∀ ch ∈ call.emailInURL.data, ch ≠ '#')
    (hid : ∀ ch ∈ c.config.APIID.data, ch ≠ '&' ∧ ch ≠ '#')
    (hkey : ∀ ch ∈ c.config.APIKey.data, ch ≠ '&' ∧ ch ≠ '#') :
    hasParam (call.url c) "api_id" c.config.APIID ∧
    hasParam (call.url c) "api_key" c.config.APIKey := by
  have hlit : ∀ (lit : String), (∀ ch ∈ lit.data, ch ≠ '?' ∧ ch ≠ '#') →
      ∀ ch ∈ (c.config.BaseURLAPI ++ lit).data, ch ≠ '?' ∧ ch ≠ '#' := by
    intro lit hl ch hch
    simp only [String.data_append, List.mem_append] at hch
    rcases hch with h | h
    · exact hbase ch h
    · exact hl ch h
  have hroles : ∀ ch ∈ (c.config.BaseURLAPI ++ "/user-management/v1/roles").data,
      ch ≠ '?' ∧ ch ≠ '#' := hlit _ (by decide)
  have husers : ∀ ch ∈ (c.config.BaseURLAPI ++ "/user-management/v1/users").data,
      ch ≠ '?' ∧ ch ≠ '#' := hlit _ (by decide)
  have hrole : ∀ roleID : Int,
      ∀ ch ∈ (c.config.BaseURLAPI ++ "/user-management/v1/roles/" ++ fmtD roleID).data,
        ch ≠ '?' ∧ ch ≠ '#' := by
    intro roleID ch hch
    rw [String.data_append] at hch
    rcases List.mem_append.mp hch with h | h
    · exact hlit _ (by decide) ch h
    · exact ⟨(fmtD_plain roleID ch h).1, (fmtD_plain roleID ch h).2.1⟩
  cases call with
  | addRole role =>
    have hu : (Call.addRole role).url c = c.config.BaseURLAPI ++ "/user-management/v1/roles"
        ++ "?" ++ "" ++ "api_id=" ++ c.config.APIID ++ "&api_key=" ++ c.config.APIKey := by
      simp only [Call.url, endpointRole, String.append_assoc]; rfl
    rw [hu]
    exact hasParam_credentials _ "" _ _ hroles (by simp) (Or.inl rfl) hid hkey
  | getRole roleID =>
    have hu : (Call.getRole roleID).url c = c.config.BaseURLAPI
        ++ "/user-management/v1/roles/" ++ fmtD roleID
        ++ "?" ++ "" ++ "api_id=" ++ c.config.APIID ++ "&api_key=" ++ c.config.APIKey := by
      simp only [Call.url, endpointRole, String.append_assoc]; rfl
    rw [hu]
    exact hasParam_credentials _ "" _ _ (hrole roleID) (by simp) (Or.inl rfl) hid hkey
  | updateRole roleID role =>
    have hu : (Call.updateRole roleID role).url c = c.config.BaseURLAPI
        ++ "/user-management/v1/roles/" ++ fmtD roleID
        ++ "?" ++ "" ++ "api_id=" ++ c.config.APIID ++ "&api_key=" ++ c.config.APIKey := by
      simp only [Call.url, endpointRole, String.append_assoc]; rfl
    rw [hu]
    exact hasParam_credentials _ "" _ _ (hrole roleID) (by simp) (Or.inl rfl) hid hkey
  | deleteRole roleID =>
    have hu : (Call.deleteRole roleID).url c = c.config.BaseURLAPI
        ++ "/user-management/v1/roles/" ++ fmtD roleID
        ++ "?" ++ "" ++ "api_id=" ++ c.config.APIID ++ "&api_key=" ++ c.config.APIKey := by
      simp only [Call.url, endpointRole, String.append_assoc]; rfl
    rw [hu]
    exact hasParam_credentials _ "" _ _ (hrole roleID) (by simp) (Or.inl rfl) hid hkey
  | addUser user =>
    have hu : (Call.addUser user).url c = c.config.BaseURLAPI ++ "/user-management/v1/users"
        ++ "?" ++ "" ++ "api_id=" ++ c.config.APIID ++ "&api_key=" ++ c.config.APIKey := by
      simp only [Call.url, endpointUser, String.append_assoc]; rfl
    rw [hu]
    exact hasParam_credentials _ "" _ _ husers (by simp) (Or.inl rfl) hid hkey
  | getUser userEmail accountID =>
    have hu : (Call.getUser userEmail accountID).url c = c.config.BaseURLAPI
        ++ "/user-management/v1/users" ++ "?"
        ++ ("userEmail=" ++ userEmail ++ "&accountId=" ++ fmtD accountID ++ "&")
        ++ "api_id=" ++ c.config.APIID ++ "&api_key=" ++ c.config.APIKey := by
      simp only [Call.url, endpointUser, String.append_assoc]; rfl
    rw [hu]
    refine hasParam_credentials _ _ _ _ husers ?_ (Or.inr ⟨_, rfl⟩) hid hkey
    intro ch hch
    simp only [String.data_append, List.mem_append] at hch
    rcases hch with (((h | h) | h) | h) | h
    · intro hc; subst hc; exact absurd h (by decide)
    · exact hemail ch h
    · intro hc; subst hc; exact absurd h (by decide)
    · exact (fmtD_plain accountID ch h).2.1
    · intro hc; subst hc; exact absurd h (by decide)
  | deleteUser userEmail accountID =>
    have hu : (Call.deleteUser userEmail accountID).url c = c.config.BaseURLAPI
        ++ "/user-management/v1/users" ++ "?"
        ++ ("userEmail=" ++ userEmail ++ "&accountId=" ++ fmtD accountID ++ "&")
        ++ "api_id=" ++ c.config.APIID ++ "&api_key=" ++ c.config.APIKey := by
      simp only [Call.url, endpointUser, String.append_assoc]; rfl
    rw [hu]
    refine hasParam_credentials _ _ _ _ husers ?_ (Or.inr ⟨_, rfl⟩) hid hkey
    intro ch hch
    simp only [String.data_append, List.mem_append] at hch
    rcases hch with (((h | h) | h) | h) | h
    · intro hc; subst hc; exact absurd h (by decide)
    · exact hemail ch h
    · intro hc; subst hc; exact absurd h (by decide)
    · exact (fmtD_plain accountID ch h).2.1
    · intro hc; subst hc; exact absurd h (by decide)

/-- C11, as stated, fails: GetUser with the userEmail `a#b` hands to the transport a
URL in which the number sign starts the fragment; the query of that URL is
`userEmail=a`, and `api_id` is not one of its parameters. -/
theorem credentials_in_query_counterexample :
    ((Call.getUser "a#b" 123).run testLib (serverClient 200 "")).sent.map Request.URL
      = ["http://127.0.0.1:8080/user-management/v1/users?userEmail=a#b&accountId=123"
          ++ "&api_id=foo&api_key=bar"] ∧
    queryParams ("http://127.0.0.1:8080/user-management/v1/users?userEmail=a#b&accountId=123"
          ++ "&api_id=foo&api_key=bar") = [("userEmail", "a")] ∧
    ¬ hasParam ("http://127.0.0.1:8080/user-management/v1/users?userEmail=a#b&accountId=123"
          ++ "&api_id=foo&api_key=bar") "api_id" "foo" := by
  refine ⟨by decide, by decide, by decide⟩

/-- C11, amended: whenever the base URL contains no question mark and no number
sign, the userEmail of GetUser and DeleteUser no number sign, and the two credentials
neither ampersand nor number sign, every request an operation hands to the
transport, for every library, every roleID and every accountID, has a URL whose
query, read as `name=value` pairs separated by ampersands, contains `api_id` with
the value APIID and `api_key` with the value APIKey.  (The arguments and the
credentials are written into the URL as they are, without escaping.) -/
theorem credentials_in_query (lib : Stdlib) (c : Client) (call : Call) (req : Request)
    (hbase : ∀ ch ∈ c.config.BaseURLAPI.data, ch ≠ '?' ∧ ch ≠ '#')
    (hemail : ∀ ch ∈ call.emailInURL.data, ch ≠ '#')
    (hid : ∀ ch ∈ c.config.APIID.data, ch ≠ '&' ∧ ch ≠ '#')
    (hkey : ∀ ch ∈ c.config.APIKey.data, ch ≠ '&' ∧ ch ≠ '#')
    (hreq : req ∈ (call.run lib c).sent) :
    hasParam req.URL "api_id" c.config.APIID ∧ hasParam req.URL "api_key" c.config.APIKey := by
  rw [Call.sent_eq] at hreq
  cases hp : call.prepare lib c with
  | error e => rw [hp] at hreq; simp at hreq
  | ok r =>
    rw [hp] at hreq
    simp only [List.mem_singleton] at hreq
    subst hreq
    rw [Call.prepare_url lib c call req hp]
    exact Call.url_hasParam c call hbase hemail hid hkey

/-- C11, amended, at the GetUser test: the URL of the request carries `api_key` with
the value `bar`. -/
theorem credentials_in_query_witness :
    hasParam "http://127.0.0.1:8080/user-management/v1/users?userEmail=example@example.com&accountId=123&api_id=foo&api_key=bar"
      "api_key" "bar" :=
  (credentials_in_query testLib (serverClient 200 "") (Call.getUser "example@example.com" 123)
    ⟨"GET", "http://127.0.0.1:8080/user-management/v1/users?userEmail=example@example.com&accountId=123&api_id=foo&api_key=bar", none, none⟩
    (by decide) (by decide) (by decide) (by decide) (by decide)).2

/-- Two texts that differ at a position both have stay different however they are
continued. -/
theorem append_ne_of_diverge (a b x y : List Char) (h : diverge a b = true) :
    a ++ x ≠ b ++ y := by
  induction a generalizing b with
  | nil => simp [diverge] at h
  | cons c cs ih =>
    cases b with
    | nil => simp [diverge] at h
    | cons d ds =>
      simp only [diverge, Bool.or_eq_true, bne_iff_ne, ne_eq] at h
      intro heq
      simp only [List.cons_append, List.cons.injEq] at heq
      rcases h with h | h
      · exact h heq.1
      · exact ih ds h heq.2

/-- Two texts that agree up to and including the first occurrence of a separator
agree before it and after it. -/
theorem split_at_sep (sep : Char) (l1 l2 x y : List Char) (h1 : sep ∉ l1) (h2 : sep ∉ l2)
    (h : l1 ++ sep :: x = l2 ++ sep :: y) : l1 = l2 ∧ x = y := by
  induction l1 generalizing l2 with
  | nil =>
    cases l2 with
    | nil => simpa using h
    | cons d ds =>
      simp only [List.nil_append, List.cons_append, List.cons.injEq] at h
      exact absurd (h.1 ▸ List.mem_cons_self _ _) h2
  | cons c cs ih =>
    cases l2 with
    | nil =>
      simp only [List.nil_append, List.cons_append, List.cons.injEq] at h
      exact absurd (h.1 ▸ List.mem_cons_self _ _) h1
    | cons d ds =>
      simp only [List.cons_append, List.cons.injEq] at h
      have := ih ds (fun hm => h1 (List.mem_cons_of_mem _ hm))
        (fun hm => h2 (List.mem_cons_of_mem _ hm)) h.2
      exact ⟨by rw [h.1, this.1], this.2⟩

/-- The decimal text of an integer has no blank. -/
theorem fmtD_no_blank (n : Int) : ' ' ∉ (fmtD n).data := by
  intro h
  rcases fmtD_chars n ' ' h with h1 | h1
  · exact absurd h1 (by decide)
  · exact absurd h1 (by decide)

/-- The phrases that name the operation in the transport and status errors of two
distinct operations differ, however they are continued. -/
theorem phrase_differ (call1 call2 : Call) (x y : List Char)
    (hop : call1.op ≠ call2.op) : call1.phrase.data ++ x ≠ call2.phrase.data ++ y := by
  intro h2
  cases call1 <;> cases call2 <;>
    first
    | exact absurd rfl hop
    | (simp only [Call.phrase, String.data_append, List.append_assoc,
        List.append_cancel_left_eq] at h2
       exact append_ne_of_diverge _ _ _ _ (by decide) h2)

/-- The transport errors of two distinct operations differ. -/
theorem transport_messages_differ (call1 call2 : Call) (e1 e2 : String)
    (hop : call1.op ≠ call2.op) :
    "Error from Incapsula service when " ++ call1.phrase ++ ": " ++ e1
      ≠ "Error from Incapsula service when " ++ call2.phrase ++ ": " ++ e2 := by
  intro h
  have h2 := congrArg String.data h
  simp only [String.data_append, List.append_assoc, List.append_cancel_left_eq] at h2
  exact phrase_differ call1 call2 _ _ hop h2

/-- The status errors of two distinct operations differ, whatever the two status
codes and the two bodies. -/
theorem status_messages_differ (call1 call2 : Call) (s1 s2 : Int) (b1 b2 : String)
    (hop : call1.op ≠ call2.op) :
    "Error status code " ++ fmtD s1 ++ " from Incapsula service when " ++ call1.phrase
        ++ ": " ++ b1
      ≠ "Error status code " ++ fmtD s2 ++ " from Incapsula service when " ++ call2.phrase
        ++ ": " ++ b2 := by
  intro h
  have h2 := congrArg String.data h
  simp only [String.data_append, List.append_assoc, List.append_cancel_left_eq] at h2
  have h3 := (split_at_sep ' ' (fmtD s1).data (fmtD s2).data
    ("from Incapsula service when ".data ++ (call1.phrase.data ++ (": ".data ++ b1.data)))
    ("from Incapsula service when ".data ++ (call2.phrase.data ++ (": ".data ++ b2.data)))
    (fmtD_no_blank s1) (fmtD_no_blank s2) h2).2
  rw [List.append_cancel_left_eq] at h3
  exact phrase_differ call1 call2 _ _ hop h3

/-- A text that starts with a character that is neither a digit nor the minus sign
is not the decimal text of an integer, however the two are continued. -/
theorem cons_ne_fmtD (n : Int) (ch : Char) (l x y : List Char)
    (hch : ch ≠ '-' ∧ ch.isDigit = false) : ch :: l ++ x ≠ (fmtD n).data ++ y := by
  intro h
  cases hd : (fmtD n).data with
  | nil => exact fmtD_ne_nil n hd
  | cons d ds =>
    rw [hd] at h
    simp only [List.cons_append, List.cons.injEq] at h
    have hmem : d ∈ (fmtD n).data := by rw [hd]; exact List.mem_cons_self _ _
    rcases fmtD_chars n d hmem with h1 | h1
    · exact hch.1 (h.1.trans h1)
    · rw [← h.1, hch.2] at h1
      exact absurd h1 (by decide)

/-- The head of the decode error of AddRole is not the head of the decode error of
GetRole or UpdateRole, which carries the role id. -/
theorem role_lead_ne (n : Int) (x y : List Char) :
    "Error parsing Role JSON response".data ++ x
      ≠ "Error parsing Role ".data ++ ((fmtD n).data ++ y) := by
  intro h
  have hs : "Error parsing Role JSON response".data
      = "Error parsing Role ".data ++ ('J' :: "SON response".data) := rfl
  rw [hs, List.append_assoc, List.append_cancel_left_eq] at h
  exact cons_ne_fmtD n 'J' _ _ _ (by decide) h

/-- The decode errors of two distinct operations differ, unless the two are GetRole
and UpdateRole. -/
theorem decode_messages_differ (call1 call2 : Call) (e1 e2 b1 b2 : String)
    (hop : call1.op ≠ call2.op)
    (hpair : ¬ (call1.op = .getRole ∧ call2.op = .updateRole) ∧
      ¬ (call1.op = .updateRole ∧ call2.op = .getRole)) :
    call1.parseLead ++ ": " ++ e1 ++ "\nresponse: " ++ b1
      ≠ call2.parseLead ++ ": " ++ e2 ++ "\nresponse: " ++ b2 := by
  intro h
  have h2 := congrArg String.data h
  cases call1 <;> cases call2 <;>
    first
    | exact absurd rfl hop
    | (simp [Call.op] at hpair; done)
    | (simp only [Call.parseLead, String.data_append, List.append_assoc,
        List.append_cancel_left_eq] at h2
       exact append_ne_of_diverge _ _ _ _ (by decide) h2)
    | (simp only [Call.parseLead, String.data_append, List.append_assoc] at h2
       exact role_lead_ne _ _ _ h2)
    | (simp only [Call.parseLead, String.data_append, List.append_assoc] at h2
       exact role_lead_ne _ _ _ h2.symm)

/-- The semantic errors of DeleteRole and DeleteUser differ. -/
theorem semantic_messages_differ (call1 call2 : Call) (b1 b2 : String)
    (hop : call1.op ≠ call2.op)
    (hd1 : call1.op = .deleteRole ∨ call1.op = .deleteUser)
    (hd2 : call2.op = .deleteRole ∨ call2.op = .deleteUser) :
    call1.semanticLead ++ ": " ++ fmtErr none ++ "\nresponse: " ++ b1
      ≠ call2.semanticLead ++ ": " ++ fmtErr none ++ "\nresponse: " ++ b2 := by
  intro h
  have h2 := congrArg String.data h
  cases call1 <;> cases call2 <;>
    first
    | exact absurd rfl hop
    | (simp [Call.op] at hd1; done)
    | (simp [Call.op] at hd2; done)
    | (simp only [Call.semanticLead, String.data_append, List.append_assoc,
        List.append_cancel_left_eq] at h2
       exact append_ne_of_diverge _ _ _ _ (by decide) h2)

/-- The serialization error of AddUser is not the one of AddRole and UpdateRole. -/
theorem marshal_messages_differ (e1 e2 : String) :
    "Failed to JSON marshal User: " ++ e1 ≠ "Failed to JSON marshal Role: " ++ e2 := by
  intro h
  have h2 := congrArg String.data h
  simp only [String.data_append] at h2
  exact append_ne_of_diverge _ _ _ _ (by decide) h2

/-- The error of a call that fails at the serialization of its record. -/
theorem Call.err_of_serialization (lib : Stdlib) (c : Client) (call : Call)
    (h : call.failure lib c = some .serialization) :
    ∃ e, (call.run lib c).err
      = some ((if call.op = .addUser then "Failed to JSON marshal User: "
          else "Failed to JSON marshal Role: ") ++ e) := by
  unfold Call.failure at h
  cases hm : call.marshalErr lib with
  | none =>
    rw [hm] at h
    simp only at h
    split at h
    · simp at h
    · split at h
      · simp at h
      · split at h
        · simp at h
        · split at h
          · simp at h
          · simp at h
          · split at h <;> simp at h
  | some e =>
    refine ⟨e, ?_⟩
    apply Call.err_of_prepare_error
    cases call <;> simp only [Call.marshalErr] at hm <;>
      first
      | exact absurd hm (by simp)
      | (split at hm
         · next e2 he =>
           simp only [Option.some.injEq] at hm
           simp [Call.prepare, Call.op, he, hm]
         · exact absurd hm (by simp))

/-- The error of a call that fails at the transport. -/
theorem Call.err_of_transport (lib : Stdlib) (c : Client) (call : Call)
    (h : call.failure lib c = some .transport) :
    ∃ e, (call.run lib c).err
      = some ("Error from Incapsula service when " ++ call.phrase ++ ": " ++ e) := by
  unfold Call.failure at h
  rw [Call.run_eq_pipeline, Call.pipeline]
  split at h
  · simp at h
  · split at h
    · simp at h
    · next req hp =>
      split at h
      · next e he => exact ⟨e, by simp only [hp, he, Call.interpret]⟩
      · split at h
        · simp at h
        · split at h
          · simp at h
          · simp at h
          · split at h <;> simp at h

/-- The error of a call that fails at the status code. -/
theorem Call.err_of_status (lib : Stdlib) (c : Client) (call : Call)
    (h : call.failure lib c = some .status) :
    ∃ s b, (call.run lib c).err
      = some ("Error status code " ++ fmtD s ++ " from Incapsula service when "
          ++ call.phrase ++ ": " ++ b) := by
  unfold Call.failure at h
  rw [Call.run_eq_pipeline, Call.pipeline]
  split at h
  · simp at h
  · split at h
    · simp at h
    · next req hp =>
      split at h
      · simp at h
      · next resp hr =>
        split at h
        · next hs =>
          exact ⟨resp.StatusCode, resp.Body, by
            simp only [hp, hr, Call.interpret]; rw [if_pos hs]⟩
        · split at h
          · simp at h
          · simp at h
          · split at h <;> simp at h

/-- The error of a call that fails at the decoding of the body. -/
theorem Call.err_of_decode (lib : Stdlib) (c : Client) (call : Call)
    (h : call.failure lib c = some .decode) :
    ∃ e b, (call.run lib c).err
      = some (call.parseLead ++ ": " ++ e ++ "\nresponse: " ++ b) := by
  unfold Call.failure at h
  rw [Call.run_eq_pipeline, Call.pipeline]
  split at h
  · simp at h
  · split at h
    · simp at h
    · next req hp =>
      split at h
      · simp at h
      · next resp hr =>
        split at h
        · simp at h
        · next hs =>
          split at h
          · next e he =>
            exact ⟨e, resp.Body, by
              simp only [hp, hr, Call.interpret, hs, if_false, he]⟩
          · simp at h
          · split at h <;> simp at h

/-- The error of a call that fails at the code of the envelope: the call is a delete
operation. -/
theorem Call.err_of_semantic (lib : Stdlib) (c : Client) (call : Call)
    (h : call.failure lib c = some .semantic) :
    (call.op = .deleteRole ∨ call.op = .deleteUser) ∧
    ∃ b, (call.run lib c).err
      = some (call.semanticLead ++ ": " ++ fmtErr none ++ "\nresponse: " ++ b) := by
  unfold Call.failure at h
  rw [Call.run_eq_pipeline, Call.pipeline]
  split at h
  · simp at h
  · split at h
    · simp at h
    · next req hp =>
      split at h
      · simp at h
      · next resp hr =>
        split at h
        · simp at h
        · next hs =>
          split at h
          · simp at h
          · simp at h
          · next env he =>
            split at h
            · next hc =>
              refine ⟨?_, resp.Body, by
                simp only [hp, hr, Call.interpret, hs, if_false, he]; rw [if_pos hc]⟩
              cases call <;> simp only [Call.unmarshal] at he <;>
                first
                | (left; rfl)
                | (right; rfl)
                | (split at he <;> simp at he)
            · simp at h

/-- C20, as stated, fails: GetRole and UpdateRole are distinct operations, both fail
at the decoding of the body when role 123 is answered with status 200 and the body
consisting of an opening brace, and both return the same text. -/
theorem messages_are_operation_specific_counterexample :
    (Call.getRole 123).op ≠ (Call.updateRole 123 testUpdateRole).op ∧
    (Call.getRole 123).failure testLib (serverClient 200 "\x7b") = some .decode ∧
    (Call.updateRole 123 testUpdateRole).failure testLib (serverClient 200 "\x7b")
      = some .decode ∧
    (Client.GetRole testLib (serverClient 200 "\x7b") 123).err
      = some ("Error parsing Role 123 JSON response: unexpected end of JSON input"
          ++ "\nresponse: \x7b") ∧
    (Client.UpdateRole testLib (serverClient 200 "\x7b") 123 testUpdateRole).err
      = (Client.GetRole testLib (serverClient 200 "\x7b") 123).err :=
  ⟨by decide, rfl, rfl, rfl, rfl⟩

/-- C20, amended. Two calls of distinct operations that end with an error of the same
kind return different texts, whatever their arguments and whatever the transport
answered to each, in these cases: the kind is transport, status or semantic; the kind
is decode and the two operations are not GetRole and UpdateRole, which share the text
"Error parsing Role (id) JSON response"; the kind is serialization and one of the two
is AddUser (AddRole and UpdateRole share "Failed to JSON marshal Role"). -/
theorem messages_are_operation_specific (lib : Stdlib) (c1 c2 : Client)
    (call1 call2 : Call) (k : ErrorKind)
    (hop : call1.op ≠ call2.op)
    (h1 : call1.failure lib c1 = some k) (h2 : call2.failure lib c2 = some k)
    (hdecode : k = .decode →
      ¬ (call1.op = .getRole ∧ call2.op = .updateRole) ∧
      ¬ (call1.op = .updateRole ∧ call2.op = .getRole))
    (hser : k = .serialization → call1.op = .addUser ∨ call2.op = .addUser) :
    ∃ m1 m2, (call1.run lib c1).err = some m1 ∧ (call2.run lib c2).err = some m2 ∧
      m1 ≠ m2 := by
  cases k with
  | serialization =>
    obtain ⟨e1, he1⟩ := Call.err_of_serialization lib c1 call1 h1
    obtain ⟨e2, he2⟩ := Call.err_of_serialization lib c2 call2 h2
    refine ⟨_, _, he1, he2, ?_⟩
    rcases hser rfl with hu | hu
    · have hn : call2.op ≠ .addUser := fun h => hop (hu.trans h.symm)
      rw [if_pos hu, if_neg hn]
      exact marshal_messages_differ e1 e2
    · have hn : call1.op ≠ .addUser := fun h => hop (h.trans hu.symm)
      rw [if_pos hu, if_neg hn]
      exact (marshal_messages_differ e2 e1).symm
  | transport =>
    obtain ⟨e1, he1⟩ := Call.err_of_transport lib c1 call1 h1
    obtain ⟨e2, he2⟩ := Call.err_of_transport lib c2 call2 h2
    exact ⟨_, _, he1, he2, transport_messages_differ call1 call2 e1 e2 hop⟩
  | status =>
    obtain ⟨s1, b1, he1⟩ := Call.err_of_status lib c1 call1 h1
    obtain ⟨s2, b2, he2⟩ := Call.err_of_status lib c2 call2 h2
    exact ⟨_, _, he1, he2, status_messages_differ call1 call2 s1 s2 b1 b2 hop⟩
  | decode =>
    obtain ⟨e1, b1, he1⟩ := Call.err_of_decode lib c1 call1 h1
    obtain ⟨e2, b2, he2⟩ := Call.err_of_decode lib c2 call2 h2
    exact ⟨_, _, he1, he2, decode_messages_differ call1 call2 e1 e2 b1 b2 hop (hdecode rfl)⟩
  | semantic =>
    obtain ⟨hd1, b1, he1⟩ := Call.err_of_semantic lib c1 call1 h1
    obtain ⟨hd2, b2, he2⟩ := Call.err_of_semantic lib c2 call2 h2
    exact ⟨_, _, he1, he2, semantic_messages_differ call1 call2 b1 b2 hop hd1 hd2⟩

/-- C20, at the malformed body of the tests: GetRole and DeleteRole of role 123, both
answered with status 200 and the body consisting of an opening brace, both fail at
the decoding and return different texts. -/
theorem messages_are_operation_specific_witness :
    (Call.getRole 123).failure testLib (serverClient 200 "\x7b") = some .decode ∧
    (Call.deleteRole 123).failure testLib (serverClient 200 "\x7b") = some .decode ∧
    ∃ m1 m2, ((Call.getRole 123).run testLib (serverClient 200 "\x7b")).err = some m1 ∧
      ((Call.deleteRole 123).run testLib (serverClient 200 "\x7b")).err = some m2 ∧
      m1 ≠ m2 :=
  ⟨rfl, rfl, messages_are_operation_specific testLib (serverClient 200 "\x7b")
    (serverClient 200 "\x7b") (Call.getRole 123) (Call.deleteRole 123) .decode
    (by decide) rfl rfl (fun _ => by decide) (fun h => absurd h (by decide))⟩

/-- The escape `\u00XY` of a character below 64 reads back as that character. -/
theorem parse_escaped_u (n : Nat) (hn : n < 64) (f : Nat) (tail : List Char) :
    parseStringBody (f + 1)
      ([backslash, 'u', '0', '0', "0123456789abcdef".data.getD (n / 16) '0',
        "0123456789abcdef".data.getD (n % 16) '0'] ++ tail)
      = (parseStringBody f tail).map (fun p => (Char.ofNat n :: p.1, p.2)) := by
  interval_cases n <;> rfl

/-- What `json.Marshal` writes for one character reads back as that character. -/
theorem parse_encodeChar (c : Char) (f : Nat) (tail : List Char) :
    parseStringBody (f + 1) (encodeChar c ++ tail)
      = (parseStringBody f tail).map (fun p => (c :: p.1, p.2)) := by
  unfold encodeChar
  split
  · next h => rcases h with h | h <;> subst h <;> rfl
  · next h1 =>
    split
    · next h => subst h; rfl
    · split
      · next h => subst h; rfl
      · split
        · next h => subst h; rfl
        · split
          · next h =>
            have hn : c.toNat < 64 := by
              rcases h with h | h | h | h
              · omega
              · subst h; decide
              · subst h; decide
              · subst h; decide
            have hc := parse_escaped_u c.toNat hn f tail
            rw [Char.ofNat_toNat] at hc
            exact hc
          · next h5 =>
            split
            · next h =>
              have hc : c = Char.ofNat 0x2028 := by rw [← h, Char.ofNat_toNat]
              subst hc; rfl
            · split
              · next h =>
                have hc : c = Char.ofNat 0x2029 := by rw [← h, Char.ofNat_toNat]
                subst hc; rfl
              · have hq : c ≠ dquote := fun h => h1 (Or.inl h)
                have hb : c ≠ backslash := fun h => h1 (Or.inr h)
                have hl : ¬ c.toNat < 0x20 := fun h => h5 (Or.inl h)
                show parseStringBody (f + 1) (c :: tail) = _
                simp only [parseStringBody, hq, hb, hl, if_false]

/-- What `json.Marshal` writes for the characters of a string, up to the closing
quote, reads back as those characters, with fuel for one step per character. -/
theorem parse_encoded_chars (cs : List Char) (f : Nat) (rest : List Char)
    (hf : cs.length + 1 ≤ f) :
    parseStringBody f ((cs.map encodeChar).flatten ++ dquote :: rest) = some (cs, rest) := by
  induction cs generalizing f with
  | nil =>
    obtain ⟨g, rfl⟩ : ∃ g, f = g + 1 := ⟨f - 1, by simp at hf; omega⟩
    rfl
  | cons c cs ih =>
    obtain ⟨g, rfl⟩ : ∃ g, f = g + 1 := ⟨f - 1, by simp at hf; omega⟩
    rw [List.map_cons, List.flatten_cons, List.append_assoc, parse_encodeChar,
      ih g (by simp at hf; omega)]
    rfl

/-- One character is written with at least one character. -/
theorem encodeChar_length (c : Char) : 1 ≤ (encodeChar c).length := by
  unfold encodeChar
  repeat (first | (simp only [List.length_cons, List.length_nil]; omega) | split)

/-- A string is written with at least as many characters as it has. -/
theorem encoded_length (cs : List Char) : cs.length ≤ ((cs.map encodeChar).flatten).length := by
  induction cs with
  | nil => simp
  | cons c cs ih =>
    have := encodeChar_length c
    simp only [List.map_cons, List.flatten_cons, List.length_append, List.length_cons]
    omega

/-- The text of a string as `json.Marshal` writes it: the opening quote and what
follows. -/
theorem encodeString_data (s : String) (rest : List Char) :
    (encodeString s).data ++ rest
      = dquote :: ((s.data.map encodeChar).flatten ++ dquote :: rest) := by
  simp [encodeString]

/-- A string written by `json.Marshal` reads back as that string. -/
theorem parseValue_encodeString (s : String) (f : Nat) (rest : List Char) :
    parseValue (f + 1) ((encodeString s).data ++ rest) = some (JSON.str s, rest) := by
  rw [encodeString_data]
  have hq : dquote ≠ lbrace := by decide
  have hb : dquote ≠ '[' := by decide
  simp only [parseValue, hq, hb, if_false, if_true]
  rw [parse_encoded_chars s.data _ rest (by
    have := encoded_length s.data
    simp only [List.length_append, List.length_cons]; omega)]
  rfl

/-- The text of the accumulating loop of `strings.Join`. -/
theorem intercalate_go_data (acc sep : String) (l : List String) :
    (String.intercalate.go acc sep l).data
      = acc.data ++ (l.map (fun a => sep.data ++ a.data)).flatten := by
  induction l generalizing acc with
  | nil => simp [String.intercalate.go]
  | cons a as ih =>
    simp only [String.intercalate.go, ih, String.data_append, List.map_cons,
      List.flatten_cons, List.append_assoc]

/-- White space is skipped up to a character that is not white space. -/
theorem skipSpace_cons (c : Char) (cs : List Char) (h : isSpace c = false) :
    skipSpace (c :: cs) = c :: cs := by
  simp [skipSpace, List.dropWhile, h]

/-- The first character of a string as `json.Marshal` writes it is the quote. -/
theorem skipSpace_encodeString (s : String) (rest : List Char) :
    skipSpace ((encodeString s).data ++ rest) = (encodeString s).data ++ rest := by
  rw [encodeString_data]
  exact skipSpace_cons _ _ (by decide)

/-- The last element of an array: a value followed by the closing bracket. -/
theorem parseElements_last (f : Nat) (cs rest : List Char) (v : JSON)
    (h : parseValue f cs = some (v, ']' :: rest)) :
    parseElements (f + 1) cs = some ([v], rest) := by
  rw [parseElements, h]
  simp only [skipSpace_cons ']' rest (by decide), if_true]

/-- An element of an array that is not the last: a value followed by a comma. -/
theorem parseElements_more (f : Nat) (cs rest : List Char) (v : JSON)
    (h : parseValue f cs = some (v, ',' :: rest)) :
    parseElements (f + 1) cs
      = (parseElements f (skipSpace rest)).map (fun p => (v :: p.1, p.2)) := by
  rw [parseElements, h]
  have hne : ¬ (',' = ']') := by decide
  simp only [skipSpace_cons ',' rest (by decide), hne, if_false, if_true]

/-- The elements of a slice of strings as `json.Marshal` writes them, up to the
closing bracket, read back as those strings. -/
theorem parseElements_strings (x : String) (xs : List String) (f : Nat) (rest : List Char)
    (hf : xs.length + 2 ≤ f) :
    parseElements f ((encodeString x).data
        ++ ((xs.map (fun a => ',' :: (encodeString a).data)).flatten ++ ']' :: rest))
      = some ((x :: xs).map JSON.str, rest) := by
  induction xs generalizing x f with
  | nil =>
    obtain ⟨g, rfl⟩ : ∃ g, f = g + 2 := ⟨f - 2, by simp at hf; omega⟩
    exact parseElements_last (g + 1) _ rest (JSON.str x) (parseValue_encodeString x g _)
  | cons y ys ih =>
    obtain ⟨g, rfl⟩ : ∃ g, f = g + 2 := ⟨f - 2, by simp at hf; omega⟩
    rw [List.map_cons, List.flatten_cons, List.append_assoc, List.cons_append,
      parseElements_more (g + 1) _ _ (JSON.str x) (parseValue_encodeString x g _),
      skipSpace_encodeString, ih y (g + 1) (by simp at hf ⊢; omega)]
    rfl

/-- The text of a slice of strings with at least one element, as `json.Marshal`
writes it. -/
theorem encodeSlice_cons_data (x : String) (xs : List String) (rest : List Char) :
    (encodeSlice encodeString (some (x :: xs))).data ++ rest
      = '[' :: ((encodeString x).data
          ++ ((xs.map (fun a => ',' :: (encodeString a).data)).flatten ++ ']' :: rest)) := by
  simp only [encodeSlice, String.intercalate, List.map_cons, intercalate_go_data,
    String.data_append, List.append_assoc, List.map_map]
  rfl

/-- A slice of strings is written with at least as many characters as it has
elements. -/
theorem joined_length (xs : List String) :
    xs.length ≤ ((xs.map (fun a => ',' :: (encodeString a).data)).flatten).length := by
  induction xs with
  | nil => simp
  | cons y ys ih =>
    simp only [List.map_cons, List.flatten_cons, List.length_append, List.length_cons]
    omega

/-- A slice of strings written by `json.Marshal` reads back as the document of the
slice. -/
theorem parseValue_encodeSlice (a : Slice String) (f : Nat) (rest : List Char)
    (hf : (a.getD []).length + 3 ≤ f) :
    parseValue f ((encodeSlice encodeString a).data ++ rest) = some (stringsJSON a, rest) := by
  obtain ⟨g, rfl⟩ : ∃ g, f = g + 1 := ⟨f - 1, by omega⟩
  cases a with
  | none =>
    show parseValue (g + 1) ('n' :: 'u' :: 'l' :: 'l' :: rest) = _
    have hl : "null".length = 4 := by decide
    simp [parseValue, dropWord, lbrace, dquote, List.isPrefixOf, stringsJSON, hl]
  | some xs =>
    cases xs with
    | nil =>
      show parseValue (g + 1) ('[' :: ']' :: rest) = _
      simp [parseValue, lbrace, skipSpace_cons ']' rest (by decide), stringsJSON]
    | cons x xs =>
      rw [encodeSlice_cons_data, encodeString_data]
      have h1 : ¬ ('[' = lbrace) := by decide
      have h2 : ¬ (dquote = ']') := by decide
      simp only [parseValue, h1, h2, if_false, if_true,
        skipSpace_cons dquote _ (by decide)]
      rw [← encodeString_data, parseElements_strings x xs g rest (by
        simp only [Option.getD_some, List.length_cons] at hf; omega)]
      rfl

/-- The text of a slice of strings starts with a character that is not white
space. -/
theorem skipSpace_encodeSlice (a : Slice String) (rest : List Char) :
    skipSpace ((encodeSlice encodeString a).data ++ rest)
      = (encodeSlice encodeString a).data ++ rest := by
  cases a with
  | none => rfl
  | some xs =>
    cases xs with
    | nil => rfl
    | cons x xs =>
      rw [encodeSlice_cons_data]
      exact skipSpace_cons _ _ (by decide)

/-- The text `json.Marshal` produces for an `UpdateRole`: one member per field,
named by the Go name of the field. -/
theorem marshalUpdateRole_data (r : UpdateRole) :
    (marshalUpdateRole r).data
      = lbrace :: ((encodeString "RoleName").data ++ ':' :: ((encodeString r.RoleName).data
          ++ ',' :: ((encodeString "RoleDescription").data
          ++ ':' :: ((encodeString r.RoleDescription).data
          ++ ',' :: ((encodeString "RoleAbilities").data
          ++ ':' :: ((encodeSlice encodeString r.RoleAbilities).data ++ [rbrace])))))) := by
  have h1 : jsonFieldName "RoleName" "json:roleName" = some "RoleName" := by decide
  have h2 : jsonFieldName "RoleDescription" "json:roleDescription"
      = some "RoleDescription" := by decide
  have h3 : jsonFieldName "RoleAbilities" "json:roleAbilities" = some "RoleAbilities" := by
    decide
  simp only [marshalUpdateRole, marshalStruct, updateRoleFields, List.zip_cons_cons,
    List.zip_nil_right, List.filterMap_cons, List.filterMap_nil, h1, h2, h3, Option.map_some',
    String.intercalate, intercalate_go_data, String.data_append, List.map_cons, List.map_nil,
    List.flatten_cons, List.flatten_nil, List.append_assoc, List.append_nil]
  rfl

/-- The last member of an object: a name, a colon, and a value followed by the
closing brace. -/
theorem parseMembers_last (f : Nat) (k : String) (cs rest : List Char) (v : JSON)
    (hs : skipSpace cs = cs) (h : parseValue f cs = some (v, rbrace :: rest)) :
    parseMembers (f + 1) ((encodeString k).data ++ ':' :: cs) = some ([(k, v)], rest) := by
  rw [encodeString_data, parseMembers]
  have hq : ¬ (dquote ≠ dquote) := by simp
  rw [if_neg hq, parse_encoded_chars k.data _ (':' :: cs) (by
    have := encoded_length k.data
    simp only [List.length_append, List.length_cons]; omega)]
  simp only [skipSpace_cons ':' cs (by decide), ne_eq, not_true_eq_false, if_false, hs, h,
    skipSpace_cons rbrace rest (by decide), if_true]

/-- A member of an object that is not the last: a name, a colon, and a value
followed by a comma. -/
theorem parseMembers_more (f : Nat) (k : String) (cs rest : List Char) (v : JSON)
    (hs : skipSpace cs = cs) (h : parseValue f cs = some (v, ',' :: rest)) :
    parseMembers (f + 1) ((encodeString k).data ++ ':' :: cs)
      = (parseMembers f (skipSpace rest)).map (fun p => ((k, v) :: p.1, p.2)) := by
  rw [encodeString_data, parseMembers]
  have hq : ¬ (dquote ≠ dquote) := by simp
  have hne : ¬ (',' = rbrace) := by decide
  rw [if_neg hq, parse_encoded_chars k.data _ (':' :: cs) (by
    have := encoded_length k.data
    simp only [List.length_append, List.length_cons]; omega)]
  simp only [skipSpace_cons ':' cs (by decide), ne_eq, not_true_eq_false, if_false, hs, h,
    skipSpace_cons ',' rest (by decide), hne, if_true]

/-- An object with at least one member: the opening brace and the members. -/
theorem parseValue_object (f : Nat) (k : String) (tail : List Char) :
    parseValue (f + 1) (lbrace :: ((encodeString k).data ++ tail))
      = (parseMembers f ((encodeString k).data ++ tail)).map
          (fun p => (JSON.obj p.1, p.2)) := by
  rw [encodeString_data]
  have hne : ¬ (dquote = rbrace) := by decide
  simp only [parseValue, if_true, skipSpace_cons dquote _ (by decide), hne, if_false]

/-- A slice of strings is written with at least as many characters as it has
elements. -/
theorem encodeSlice_length (a : Slice String) :
    (a.getD []).length ≤ (encodeSlice encodeString a).data.length := by
  cases a with
  | none => simp
  | some xs =>
    cases xs with
    | nil => simp
    | cons x xs =>
      have h := congrArg List.length (encodeSlice_cons_data x xs [])
      have := joined_length xs
      simp only [List.append_nil, List.length_cons, List.length_append] at h
      simp only [Option.getD_some, List.length_cons]
      omega

/-- The body of UpdateRole as the parser reads it, with enough fuel. -/
theorem parseValue_marshalUpdateRole (r : UpdateRole) (f : Nat)
    (hf : (r.RoleAbilities.getD []).length + 7 ≤ f) :
    parseValue f (marshalUpdateRole r).data
      = some (JSON.obj [("RoleName", JSON.str r.RoleName),
          ("RoleDescription", JSON.str r.RoleDescription),
          ("RoleAbilities", stringsJSON r.RoleAbilities)], []) := by
  obtain ⟨g, rfl⟩ : ∃ g, f = g + 4 := ⟨f - 4, by omega⟩
  rw [marshalUpdateRole_data, parseValue_object,
    parseMembers_more (g + 2) "RoleName" _ _ (JSON.str r.RoleName)
      (skipSpace_encodeString _ _) (parseValue_encodeString r.RoleName (g + 1) _),
    skipSpace_encodeString,
    parseMembers_more (g + 1) "RoleDescription" _ _ (JSON.str r.RoleDescription)
      (skipSpace_encodeString _ _) (parseValue_encodeString r.RoleDescription g _),
    skipSpace_encodeString,
    parseMembers_last g "RoleAbilities" _ [] (stringsJSON r.RoleAbilities)
      (skipSpace_encodeSlice _ _) (parseValue_encodeSlice r.RoleAbilities g _ (by omega))]
  rfl

/-- The body UpdateRole serializes is valid JSON: the object of the three fields of
the record, under the Go names of the fields. -/
theorem parseJSON_marshalUpdateRole (r : UpdateRole) :
    parseJSON (marshalUpdateRole r)
      = some (JSON.obj [("RoleName", JSON.str r.RoleName),
          ("RoleDescription", JSON.str r.RoleDescription),
          ("RoleAbilities", stringsJSON r.RoleAbilities)]) := by
  have hlen : (r.RoleAbilities.getD []).length + 5 ≤ (marshalUpdateRole r).length := by
    have h := congrArg List.length (marshalUpdateRole_data r)
    have := encodeSlice_length r.RoleAbilities
    simp only [List.length_cons, List.length_append] at h
    show _ ≤ (marshalUpdateRole r).data.length
    omega
  have hsk : skipSpace (marshalUpdateRole r).data = (marshalUpdateRole r).data := by
    rw [marshalUpdateRole_data]
    exact skipSpace_cons _ _ (by decide)
  have hdepth : (JSON.obj [("RoleName", JSON.str r.RoleName),
      ("RoleDescription", JSON.str r.RoleDescription),
      ("RoleAbilities", stringsJSON r.RoleAbilities)]).depth ≤ maxNestingDepth := by
    have hs : ∀ xs : List String, JSON.depth.elems (xs.map JSON.str) = 0 := by
      intro xs
      induction xs with
      | nil => rfl
      | cons x xs ih => simp [JSON.depth.elems, JSON.depth, ih]
    cases h : r.RoleAbilities with
    | none => simp [JSON.depth, JSON.depth.members, stringsJSON, maxNestingDepth]
    | some xs => simp [JSON.depth, JSON.depth.members, stringsJSON, maxNestingDepth, hs]
  rw [parseJSON, hsk, parseValue_marshalUpdateRole r _ (by omega)]
  simp only [skipSpace, List.dropWhile_nil, List.isEmpty_nil, hdepth, and_self, if_true]

/-- The requests UpdateRole hands to the transport carry the serialized record. -/
theorem updateRole_sent_body (jsonErr : String → String)
    (urlErr : String → String → Option String) (c : Client) (roleID : Int)
    (upd : UpdateRole) (req : Request)
    (hsent : req ∈ (c.UpdateRole (goStdlib jsonErr urlErr) roleID upd).sent) :
    req.Body = some (marshalUpdateRole upd) := by
  unfold Client.UpdateRole at hsent
  simp only [goStdlib] at hsent
  split at hsent
  · simp at hsent
  · next r hr =>
    have hreq := Stdlib.newRequest_ok _ _ _ _ r hr
    have hmem : req ∈ [r] := by
      repeat (first | exact hsent | split at hsent)
    rw [List.mem_singleton] at hmem
    rw [hmem, hreq]

/-- C16. For every UpdateRole value and every roleID, the body of a request UpdateRole
hands to the transport is the serialized record, which is valid JSON: the object of
the three members `RoleName`, `RoleDescription` and `RoleAbilities`, holding the
values of the record; none of its member names is, in any case of letters, the name
of an account field (`accountId`, `accountName`), whatever the field values. -/
theorem update_body_has_no_account_key (jsonErr : String → String)
    (urlErr : String → String → Option String) (c : Client) (roleID : Int)
    (upd : UpdateRole) (req : Request)
    (hsent : req ∈ (c.UpdateRole (goStdlib jsonErr urlErr) roleID upd).sent) :
    ∃ body j, req.Body = some body ∧ parseJSON body = some j ∧
      j = JSON.obj [("RoleName", JSON.str upd.RoleName),
        ("RoleDescription", JSON.str upd.RoleDescription),
        ("RoleAbilities", stringsJSON upd.RoleAbilities)] ∧
      ∀ k ∈ j.keys, isAccountKey k = false := by
  refine ⟨marshalUpdateRole upd, _, updateRole_sent_body jsonErr urlErr c roleID upd req hsent,
    parseJSON_marshalUpdateRole upd, rfl, ?_⟩
  intro k hk
  simp only [JSON.keys, List.map_cons, List.map_nil, List.mem_cons, List.mem_singleton,
    List.not_mem_nil, or_false] at hk
  rcases hk with rfl | rfl | rfl <;> decide

set_option maxRecDepth 100000 in
/-- C16, at the record of the tests: the request UpdateRole hands to the transport
for role 123 carries an object of three members, none of them an account field. -/
theorem update_body_has_no_account_key_witness :
    (⟨"PUT", "http://127.0.0.1:8080/user-management/v1/roles/123?api_id=foo&api_key=bar",
        none, some ("\x7b\"RoleName\":\"Foo\",\"RoleDescription\":\"Bar\","
          ++ "\"RoleAbilities\":[\"canManageApiKey\",\"canPurgeCache\"]\x7d")⟩ : Request)
      ∈ ((serverClient 200 "").UpdateRole testLib 123 testUpdateRole).sent ∧
    ∃ body j, some ("\x7b\"RoleName\":\"Foo\",\"RoleDescription\":\"Bar\","
          ++ "\"RoleAbilities\":[\"canManageApiKey\",\"canPurgeCache\"]\x7d") = some body ∧
      parseJSON body = some j ∧
      j = JSON.obj [("RoleName", JSON.str "Foo"), ("RoleDescription", JSON.str "Bar"),
        ("RoleAbilities", stringsJSON (some ["canManageApiKey", "canPurgeCache"]))] ∧
      ∀ k ∈ j.keys, isAccountKey k = false :=
  ⟨by decide, update_body_has_no_account_key (fun _ => "unexpected end of JSON input")
    urlControlErr (serverClient 200 "") 123 testUpdateRole
    ⟨"PUT", "http://127.0.0.1:8080/user-management/v1/roles/123?api_id=foo&api_key=bar",
        none, some ("\x7b\"RoleName\":\"Foo\",\"RoleDescription\":\"Bar\","
          ++ "\"RoleAbilities\":[\"canManageApiKey\",\"canPurgeCache\"]\x7d")⟩
    (by decide)⟩

/-- Members that select no field leave the struct as it is. -/
theorem decodeMembers_skip {α : Type} (fields : List (String × String))
    (setField : α → String → JSON → Option α) (r : α) (kvs : List (String × JSON))
    (h : kvs.all (fun kv => (findField fields kv.1).isNone) = true) :
    decodeMembers fields setField r kvs = some r := by
  induction kvs with
  | nil => rfl
  | cons kv rest ih =>
    simp only [List.all_cons, Bool.and_eq_true, Option.isNone_iff_eq_none] at h
    simp only [decodeMembers, h.1]
    exact ih h.2

/-- C22. Exact text of the semantic failure: whenever the request of DeleteRole or
DeleteUser is built and the transport answers it with status 200 and a body that
decodes into an envelope whose code is not 200, the operation hands that request to
the transport, and the error of DeleteRole is exactly
`Error deleting Role <roleID> JSON response: %!s(<nil>)`, a line feed, `response: `
and the raw body, and the error of DeleteUser is exactly
`Error deleting Email <userEmail> JSON response for Account ID <accountID>: %!s(<nil>)`,
a line feed, `response: ` and the raw body.  The cause slot is the verb `%s` on the
nil error for every envelope: the text depends on the arguments and the raw body
only, not on the code or the message of the envelope. -/
theorem semantic_message_exact (lib : Stdlib) (c : Client) (call : Call) (req : Request)
    (b : String) (re : Option String) (env : DeleteRoleResponse)
    (hprep : call.prepare lib c = .ok req)
    (hresp : c.httpClient req = .ok ⟨200, b, re⟩)
    (hdec : call.unmarshal lib b = .ok (.envelope env))
    (hcode : env.Code ≠ 200) :
    (call.run lib c).sent = [req] ∧
    (∀ roleID, call = .deleteRole roleID →
      (c.DeleteRole lib roleID).err
        = some ("Error deleting Role " ++ fmtD roleID
            ++ " JSON response: %!s(<nil>)\nresponse: " ++ b)) ∧
    (∀ userEmail accountID, call = .deleteUser userEmail accountID →
      (c.DeleteUser lib userEmail accountID).err
        = some ("Error deleting Email " ++ userEmail ++ " JSON response for Account ID "
            ++ fmtD accountID ++ ": %!s(<nil>)\nresponse: " ++ b)) ∧
    ((∃ roleID, call = .deleteRole roleID) ∨
      (∃ userEmail accountID, call = .deleteUser userEmail accountID)) ∧
    fmtErr none = "%!s(<nil>)" := by
  have key : (call.run lib c).err
      = some (call.semanticLead ++ ": " ++ fmtErr none ++ "\nresponse: " ++ b) := by
    rw [Call.run_of_prepare lib c call req hprep, hresp]
    simp only [Call.interpret, ne_eq, not_true_eq_false, if_false, hdec]
    rw [if_pos hcode]
  refine ⟨?_, ?_, ?_, ?_, rfl⟩
  · rw [Call.run_of_prepare lib c call req hprep]
    exact Call.interpret_sent lib call req _
  · intro roleID h
    subst h
    have h2 : (c.DeleteRole lib roleID).err = ((Call.deleteRole roleID).run lib c).err := rfl
    rw [h2, key]
    simp only [Call.semanticLead, fmtErr, String.append_assoc]
    rfl
  · intro userEmail accountID h
    subst h
    have h2 : (c.DeleteUser lib userEmail accountID).err
        = ((Call.deleteUser userEmail accountID).run lib c).err := rfl
    rw [h2, key]
    simp only [Call.semanticLead, fmtErr, String.append_assoc]
    rfl
  · cases call <;> simp only [Call.unmarshal] at hdec <;>
      (try (split at hdec <;> simp at hdec)) <;> simp

/-- C22, at the semantic error of the two delete operations: status 200 and an
envelope with the code 1 and the message `fail` give the text with `%!s(<nil>)`; the
code and the message are in the raw body only. -/
theorem semantic_message_exact_witness :
    ((serverClient 200 "\x7b\"code\":1,\"message\":\"fail\"\x7d").DeleteRole testLib 123).err
      = some ("Error deleting Role 123 JSON response: %!s(<nil>)\nresponse: "
          ++ "\x7b\"code\":1,\"message\":\"fail\"\x7d") ∧
    ((serverClient 200 "\x7b\"code\":1,\"message\":\"fail\"\x7d").DeleteUser testLib
        "example@example.com" 123).err
      = some ("Error deleting Email example@example.com JSON response for Account ID 123"
          ++ ": %!s(<nil>)\nresponse: " ++ "\x7b\"code\":1,\"message\":\"fail\"\x7d") :=
  ⟨(semantic_message_exact testLib
      (serverClient 200 "\x7b\"code\":1,\"message\":\"fail\"\x7d") (Call.deleteRole 123) _
      "\x7b\"code\":1,\"message\":\"fail\"\x7d" none ⟨1, "fail", none⟩
      rfl rfl rfl (by decide)).2.1 123 rfl,
   (semantic_message_exact testLib
      (serverClient 200 "\x7b\"code\":1,\"message\":\"fail\"\x7d")
      (Call.deleteUser "example@example.com" 123) _
      "\x7b\"code\":1,\"message\":\"fail\"\x7d" none ⟨1, "fail", none⟩
      rfl rfl rfl (by decide)).2.2.1 "example@example.com" 123 rfl⟩

/-- A document whose numbers fit a float64 decodes into an `interface{}`. -/
theorem decodeInterface_of_fit (v : JSON) (h : v.numbersFit = true) :
    ∃ x, decodeInterface v = some x := by
  cases v with
  | null => exact ⟨none, rfl⟩
  | bool b => exact ⟨some (.bool b), by simp [decodeInterface, h]⟩
  | num lit => exact ⟨some (.num lit), by simp [decodeInterface, h]⟩
  | str s => exact ⟨some (.str s), by simp [decodeInterface, h]⟩
  | arr xs => exact ⟨some (.arr xs), by simp [decodeInterface, h]⟩
  | obj kvs => exact ⟨some (.obj kvs), by simp [decodeInterface, h]⟩

/-- The folding of encoding/json does not tell the two cases of a letter of a field
name apart. -/
theorem foldEqChar_case (lo up : Char) (hlo : lo.isAlpha = true) (hup : up.isAlpha = true)
    (h1 : lo.toUpper = up) (h2 : up.toUpper = up)
    (hs : (lo = 's' ∨ lo = 'S') ↔ (up = 's' ∨ up = 'S'))
    (hk : (lo = 'k' ∨ lo = 'K') ↔ (up = 'k' ∨ up = 'K')) (tc : Char) :
    foldEqChar lo tc = foldEqChar up tc := by
  unfold foldEqChar
  split
  · rw [hlo, hup, h1, h2]
    by_cases hu : up = tc.toUpper
    · have hd : decide (up = tc.toUpper) = true := decide_eq_true hu
      simp only [hd, Bool.and_true, Bool.or_true]
    · have hd : decide (up = tc.toUpper) = false := decide_eq_false hu
      have hne1 : decide (lo = tc) = false :=
        decide_eq_false (fun h => hu (by rw [← h, h1]))
      have hne2 : decide (up = tc) = false :=
        decide_eq_false (fun h => hu (by rw [← h, h2]))
      simp only [hd, hne1, hne2, Bool.and_false, Bool.or_false]
  · have e1 : (decide (lo = 's') || decide (lo = 'S'))
        = (decide (up = 's') || decide (up = 'S')) := by
      rw [← Bool.decide_or, ← Bool.decide_or]
      exact decide_eq_decide.mpr hs
    have e2 : (decide (lo = 'k') || decide (lo = 'K'))
        = (decide (up = 'k') || decide (up = 'K')) := by
      rw [← Bool.decide_or, ← Bool.decide_or]
      exact decide_eq_decide.mpr hk
    rw [e1, e2]

/-- Two field names whose letters fold alike compare alike with every member name. -/
theorem equalFold_case (s t : List Char) (h : foldsAlike s t = true) (k : List Char) :
    equalFold s k = equalFold t k := by
  induction s generalizing t k with
  | nil =>
    cases t with
    | nil => rfl
    | cons b t => simp [foldsAlike] at h
  | cons a s ih =>
    cases t with
    | nil => simp [foldsAlike] at h
    | cons b t =>
      simp only [foldsAlike, Bool.and_eq_true, Bool.or_eq_true, decide_eq_true_eq] at h
      obtain ⟨hab, hst⟩ := h
      cases k with
      | nil => rfl
      | cons c cs =>
        have hc : foldEqChar a c = foldEqChar b c := by
          rcases hab with hab | ⟨⟨⟨⟨⟨h1, h2⟩, h3⟩, h4⟩, h5⟩, h6⟩
          · rw [hab]
          · exact foldEqChar_case a b h1 h2 h3 h4 h5 h6 c
        simp only [equalFold, hc, ih t hst cs]

/-- A member name selects no field when it differs, also up to case, from the name
of every field. -/
theorem findField_none (fields : List (String × String)) (k : String)
    (h : ∀ f ∈ fields, ∀ n, jsonFieldName f.1 f.2 = some n →
      n ≠ k ∧ equalFold n.data k.data = false) : findField fields k = none := by
  have hnamed : ∀ x ∈ fields.filterMap
      (fun f => (jsonFieldName f.1 f.2).map (fun n => (f.1, n))),
      x.2 ≠ k ∧ equalFold x.2.data k.data = false := by
    intro x hx
    obtain ⟨f, hf, hfx⟩ := List.mem_filterMap.mp hx
    cases hn : jsonFieldName f.1 f.2 with
    | none => rw [hn] at hfx; simp at hfx
    | some n =>
      rw [hn] at hfx
      simp only [Option.map_some', Option.some.injEq] at hfx
      rw [← hfx]
      exact h f hf n hn
  have h1 : (fields.filterMap
      (fun f => (jsonFieldName f.1 f.2).map (fun n => (f.1, n)))).find?
      (fun f => f.2 = k) = none := by
    rw [List.find?_eq_none]
    intro x hx
    simpa using (hnamed x hx).1
  have h2 : (fields.filterMap
      (fun f => (jsonFieldName f.1 f.2).map (fun n => (f.1, n)))).find?
      (fun f => equalFold f.2.data k.data) = none := by
    rw [List.find?_eq_none]
    intro x hx
    simpa using (hnamed x hx).2
  simp only [findField, h1, h2, Option.map_none']

/-- A field known to encoding/json under its Go name is not selected by a member
name that differs, up to case, from a key that folds like the Go name. -/
theorem field_not_selected (go camel tag k : String)
    (hj : jsonFieldName go tag = some go)
    (hfold : foldsAlike camel.data go.data = true)
    (hrefl : equalFold go.data go.data = true)
    (hk : equalFold camel.data k.data = false) :
    ∀ n, jsonFieldName go tag = some n → n ≠ k ∧ equalFold n.data k.data = false := by
  intro n hn
  rw [hj] at hn
  simp only [Option.some.injEq] at hn
  subst hn
  have hgo : equalFold go.data k.data = false := by
    rw [← equalFold_case camel.data go.data hfold, hk]
  refine ⟨?_, hgo⟩
  intro h
  rw [← h, hrefl] at hgo
  exact absurd hgo (by simp)

/-- A member name that differs, up to case, from the nine keys of a role selects no
field of `RoleDetails`. -/
theorem findField_role_none (k : String)
    (h : ∀ key ∈ (Call.getRole 0).schemaKeys, equalFold key.data k.data = false) :
    findField roleDetailsFields k = none := by
  apply findField_none
  intro f hf
  simp only [roleDetailsFields, List.mem_cons, List.mem_singleton, List.not_mem_nil,
    or_false] at hf
  rcases hf with rfl | rfl | rfl | rfl | rfl | rfl | rfl | rfl | rfl
  · exact field_not_selected "RoleID" "roleId" "json:roleId" k (by decide) (by decide)
      (by decide) (h "roleId" (by decide))
  · exact field_not_selected "RoleName" "roleName" "json:roleName" k (by decide) (by decide)
      (by decide) (h "roleName" (by decide))
  · exact field_not_selected "RoleDescription" "roleDescription" "json:roleDescription" k (by decide) (by decide)
      (by decide) (h "roleDescription" (by decide))
  · exact field_not_selected "AccountID" "accountId" "json:accountId" k (by decide) (by decide)
      (by decide) (h "accountId" (by decide))
  · exact field_not_selected "AccountName" "accountName" "json:accountName" k (by decide) (by decide)
      (by decide) (h "accountName" (by decide))
  · exact field_not_selected "RoleAbilities" "roleAbilities" "json:roleAbilities" k (by decide) (by decide)
      (by decide) (h "roleAbilities" (by decide))
  · exact field_not_selected "UserAssignment" "userAssignment" "json:userAssignment" k (by decide) (by decide)
      (by decide) (h "userAssignment" (by decide))
  · exact field_not_selected "UpdateDate" "updateDate" "json:updateDate" k (by decide) (by decide)
      (by decide) (h "updateDate" (by decide))
  · exact field_not_selected "IsEditable" "isEditable" "json:isEditable" k (by decide) (by decide)
      (by decide) (h "isEditable" (by decide))

/-- A member name that differs, up to case, from the six keys of a user and from
`roleDetails` selects no field of `User`. -/
theorem findField_user_none (k : String)
    (h : ∀ key ∈ (Call.getUser "" 0).foldedKeys, equalFold key.data k.data = false) :
    findField userFields k = none := by
  apply findField_none
  intro f hf
  simp only [userFields, List.mem_cons, List.mem_singleton, List.not_mem_nil,
    or_false] at hf
  rcases hf with rfl | rfl | rfl | rfl | rfl | rfl
  · exact field_not_selected "UserID" "userId" "json:userId" k (by decide) (by decide)
      (by decide) (h "userId" (by decide))
  · exact field_not_selected "AccountID" "accountId" "json:accountId" k (by decide) (by decide)
      (by decide) (h "accountId" (by decide))
  · exact field_not_selected "FirstName" "firstName" "json:firstName" k (by decide) (by decide)
      (by decide) (h "firstName" (by decide))
  · exact field_not_selected "LastName" "lastName" "json:lastName" k (by decide) (by decide)
      (by decide) (h "lastName" (by decide))
  · exact field_not_selected "UserEmail" "userEmail" "json:userEmail" k (by decide) (by decide)
      (by decide) (h "userEmail" (by decide))
  · exact field_not_selected "RoleDetails" "roleDetails" "json:rolesDetails" k (by decide) (by decide)
      (by decide) (h "roleDetails" (by decide))

/-- A document that carries, up to case, none of the keys of a role decodes into the
`RoleDetails` it is decoded over. -/
theorem decodeStruct_role_untouched (r : RoleDetails) (j : JSON)
    (h : carriesNoKeyUpToCase (Call.getRole 0).schemaKeys j = true) :
    decodeStruct roleDetailsFields RoleDetails.setField r j = some r := by
  cases j with
  | null => rfl
  | obj kvs =>
    apply decodeMembers_skip
    simp only [carriesNoKeyUpToCase, List.all_eq_true, Bool.not_eq_true'] at h
    simp only [List.all_eq_true, Option.isNone_iff_eq_none]
    intro kv hkv
    exact findField_role_none kv.1 (fun key hkey => h kv hkv key hkey)
  | bool _ => simp [carriesNoKeyUpToCase] at h
  | num _ => simp [carriesNoKeyUpToCase] at h
  | str _ => simp [carriesNoKeyUpToCase] at h
  | arr _ => simp [carriesNoKeyUpToCase] at h

/-- A document that carries, up to case, none of the keys of a user nor `roleDetails`
decodes into the `User` it is decoded over. -/
theorem decodeStruct_user_untouched (r : User) (j : JSON)
    (h : carriesNoKeyUpToCase (Call.getUser "" 0).foldedKeys j = true) :
    decodeStruct userFields User.setField r j = some r := by
  cases j with
  | null => rfl
  | obj kvs =>
    apply decodeMembers_skip
    simp only [carriesNoKeyUpToCase, List.all_eq_true, Bool.not_eq_true'] at h
    simp only [List.all_eq_true, Option.isNone_iff_eq_none]
    intro kv hkv
    exact findField_user_none kv.1 (fun key hkey => h kv hkv key hkey)
  | bool _ => simp [carriesNoKeyUpToCase] at h
  | num _ => simp [carriesNoKeyUpToCase] at h
  | str _ => simp [carriesNoKeyUpToCase] at h
  | arr _ => simp [carriesNoKeyUpToCase] at h

set_option maxRecDepth 100000 in
/-- C21, as stated, fails on the code, because encoding/json matches a member name to
a field without regard to the case of its letters, and knows the fields under their
Go names (the struct tags lack the quotes it reads).  GetRole answered with status
200 and the body `{"ROLEID":7}`, an object that carries none of the nine camelCase
keys of a role, returns a record whose RoleID is 7, not the zero record; answered
with `{"ROLEID":"x"}` it returns an error and no record.  GetUser answered with
`{"roleDetails":[{"roleId":7}]}`, an object that carries none of the six keys of a
user, returns a record whose RoleDetails holds one element. -/
theorem zero_record_on_200_counterexample :
    (parseJSON "\x7b\"ROLEID\":7\x7d" = some (JSON.obj [("ROLEID", JSON.num "7")]) ∧
      carriesNoKey (Call.getRole 123).schemaKeys (JSON.obj [("ROLEID", JSON.num "7")])
        = true ∧
      ((serverClient 200 "\x7b\"ROLEID\":7\x7d").GetRole testLib 123).err = none ∧
      ((serverClient 200 "\x7b\"ROLEID\":7\x7d").GetRole testLib 123).record
        = some { RoleDetails.zero with RoleID := 7 } ∧
      ((serverClient 200 "\x7b\"ROLEID\":7\x7d").GetRole testLib 123).record
        ≠ some RoleDetails.zero) ∧
    (parseJSON "\x7b\"ROLEID\":\"x\"\x7d" = some (JSON.obj [("ROLEID", JSON.str "x")]) ∧
      carriesNoKey (Call.getRole 123).schemaKeys (JSON.obj [("ROLEID", JSON.str "x")])
        = true ∧
      ((serverClient 200 "\x7b\"ROLEID\":\"x\"\x7d").GetRole testLib 123).err ≠ none ∧
      ((serverClient 200 "\x7b\"ROLEID\":\"x\"\x7d").GetRole testLib 123).record = none) ∧
    (parseJSON "\x7b\"roleDetails\":[\x7b\"roleId\":7\x7d]\x7d"
        = some (JSON.obj [("roleDetails", JSON.arr [JSON.obj [("roleId", JSON.num "7")]])]) ∧
      carriesNoKey (Call.getUser "example@example.com" 123).schemaKeys
        (JSON.obj [("roleDetails", JSON.arr [JSON.obj [("roleId", JSON.num "7")]])]) = true ∧
      ((serverClient 200 "\x7b\"roleDetails\":[\x7b\"roleId\":7\x7d]\x7d").GetUser testLib
        "example@example.com" 123).err = none ∧
      ((serverClient 200 "\x7b\"roleDetails\":[\x7b\"roleId\":7\x7d]\x7d").GetUser testLib
        "example@example.com" 123).record
        = some { User.zero with RoleDetails := some [⟨7, ""⟩] }) := by
  refine ⟨⟨rfl, by decide, by decide, by decide, by decide⟩,
    ⟨rfl, by decide, by decide, by decide⟩,
    ⟨rfl, by decide, by decide, by decide⟩⟩

/-- C21, amended. No application-level check on a 200 response: for AddRole, GetRole,
UpdateRole, AddUser and GetUser, whenever the request of the operation is built and
the transport answers it with status 200 and a body that encoding/json accepts as a
document (nesting of at most 10000 included) and that is JSON `null`, the empty
object, or an object none of whose member names equals, up to the case of its
letters, a key of the entity (for a user: nor the name `roleDetails`), the operation
hands that request to the transport and returns no error and the record of the
entity all of whose fields have their zero values. -/
theorem zero_record_on_200 (jsonErr : String → String)
    (urlErr : String → String → Option String) (c : Client) (call : Call) (req : Request)
    (b : String) (re : Option String) (j : JSON)
    (hcall : call.op ≠ .deleteRole ∧ call.op ≠ .deleteUser)
    (hprep : call.prepare (goStdlib jsonErr urlErr) c = .ok req)
    (hresp : c.httpClient req = .ok ⟨200, b, re⟩)
    (hbody : parseJSON b = some j)
    (hnone : carriesNoKeyUpToCase call.foldedKeys j = true) :
    (call.run (goStdlib jsonErr urlErr) c).sent = [req] ∧
    (call.run (goStdlib jsonErr urlErr) c).err = none ∧
    (call.run (goStdlib jsonErr urlErr) c).record = call.zeroRecord ∧
    call.zeroRecord ≠ none := by
  rw [Call.run_of_prepare _ c call req hprep, hresp]
  cases call <;> simp only [Call.op, ne_eq, not_true_eq_false, and_false, false_and] at hcall <;>
    simp only [Call.foldedKeys] at hnone
  · simp [Call.interpret, Call.unmarshal, goStdlib, unmarshal, hbody, Call.zeroRecord,
      decodeStruct_role_untouched _ j hnone]
  · simp [Call.interpret, Call.unmarshal, goStdlib, unmarshal, hbody, Call.zeroRecord,
      decodeStruct_role_untouched _ j hnone]
  · simp [Call.interpret, Call.unmarshal, goStdlib, unmarshal, hbody, Call.zeroRecord,
      decodeStruct_role_untouched _ j hnone]
  · simp [Call.interpret, Call.unmarshal, goStdlib, unmarshal, hbody, Call.zeroRecord,
      decodeStruct_user_untouched _ j hnone]
  · simp [Call.interpret, Call.unmarshal, goStdlib, unmarshal, hbody, Call.zeroRecord,
      decodeStruct_user_untouched _ j hnone]

set_option maxRecDepth 100000 in
/-- C21, at the five operations: AddRole answered with `null`, GetRole answered with
the error envelope of the tests, UpdateRole answered with the empty object, AddUser
answered with an object of one foreign member and GetUser answered with the empty
object each hand their request to the transport and return no error and the zero
record. -/
theorem zero_record_on_200_witness :
    (((serverClient 200 "null").AddRole testLib testCreateRole).err = none ∧
      ((serverClient 200 "null").AddRole testLib testCreateRole).record
        = some RoleDetails.zero) ∧
    (((serverClient 200 "\x7b\"errorCode\":1, \"message\": \"Test Error\"\x7d").GetRole
        testLib 123).err = none ∧
      ((serverClient 200 "\x7b\"errorCode\":1, \"message\": \"Test Error\"\x7d").GetRole
        testLib 123).record = some RoleDetails.zero) ∧
    (((serverClient 200 "\x7b\x7d").UpdateRole testLib 123 testUpdateRole).err = none ∧
      ((serverClient 200 "\x7b\x7d").UpdateRole testLib 123 testUpdateRole).record
        = some RoleDetails.zero) ∧
    (((serverClient 200 "\x7b\"status\":\"ok\"\x7d").AddUser testLib testCreateUser).err
        = none ∧
      ((serverClient 200 "\x7b\"status\":\"ok\"\x7d").AddUser testLib testCreateUser).record
        = some User.zero) ∧
    (((serverClient 200 "\x7b\x7d").GetUser testLib "example@example.com" 123).err = none ∧
      ((serverClient 200 "\x7b\x7d").GetUser testLib "example@example.com" 123).record
        = some User.zero) :=
  have h1 := zero_record_on_200 (fun _ => "unexpected end of JSON input") urlControlErr
    (serverClient 200 "null") (Call.addRole testCreateRole) _
    "null" none JSON.null (by decide) rfl rfl rfl rfl
  have h2 := zero_record_on_200 (fun _ => "unexpected end of JSON input") urlControlErr
    (serverClient 200 "\x7b\"errorCode\":1, \"message\": \"Test Error\"\x7d")
    (Call.getRole 123) _
    "\x7b\"errorCode\":1, \"message\": \"Test Error\"\x7d" none
    (JSON.obj [("errorCode", JSON.num "1"), ("message", JSON.str "Test Error")])
    (by decide) rfl rfl rfl (by decide)
  have h3 := zero_record_on_200 (fun _ => "unexpected end of JSON input") urlControlErr
    (serverClient 200 "\x7b\x7d") (Call.updateRole 123 testUpdateRole) _
    "\x7b\x7d" none (JSON.obj []) (by decide) rfl rfl rfl rfl
  have h4 := zero_record_on_200 (fun _ => "unexpected end of JSON input") urlControlErr
    (serverClient 200 "\x7b\"status\":\"ok\"\x7d") (Call.addUser testCreateUser) _
    "\x7b\"status\":\"ok\"\x7d" none (JSON.obj [("status", JSON.str "ok")])
    (by decide) rfl rfl rfl (by decide)
  have h5 := zero_record_on_200 (fun _ => "unexpected end of JSON input") urlControlErr
    (serverClient 200 "\x7b\x7d") (Call.getUser "example@example.com" 123) _
    "\x7b\x7d" none (JSON.obj []) (by decide) rfl rfl rfl rfl
  ⟨⟨h1.2.1, by decide⟩, ⟨h2.2.1, by decide⟩, ⟨h3.2.1, by decide⟩, ⟨h4.2.1, by decide⟩,
    ⟨h5.2.1, by decide⟩⟩

/-- The text of nested arrays is read as the nested document. -/
theorem parseValue_nested (n : Nat) : ∀ (f : Nat) (rest : List Char), 2 * n + 1 ≤ f →
    parseValue f (List.replicate (n + 1) '[' ++ (List.replicate (n + 1) ']' ++ rest))
      = some (JSON.nested n, rest) := by
  induction n with
  | zero =>
    intro f rest hf
    obtain ⟨g, rfl⟩ : ∃ g, f = g + 1 := ⟨f - 1, by omega⟩
    have h1 : ¬ ('[' = lbrace) := by decide
    simp only [List.replicate, List.nil_append, List.cons_append, parseValue, h1, if_false,
      if_true, skipSpace_cons ']' rest (by decide), JSON.nested]
  | succ n ih =>
    intro f rest hf
    obtain ⟨g, rfl⟩ : ∃ g, f = g + 2 := ⟨f - 2, by omega⟩
    have h1 : ¬ ('[' = lbrace) := by decide
    have h2 : ¬ ('[' = ']') := by decide
    have hr : List.replicate (n + 1 + 1) ']' ++ rest
        = List.replicate (n + 1) ']' ++ (']' :: rest) := by
      rw [List.replicate_succ' (n + 1) ']', List.append_assoc]; rfl
    have hin := ih g (']' :: rest) (by omega)
    have hel := parseElements_last g _ rest _ hin
    rw [List.replicate_succ, List.cons_append, hr]
    rw [parseValue]
    simp only [h1, if_false, if_true]
    rw [List.replicate_succ, List.cons_append, skipSpace_cons '[' _ (by decide)]
    simp only [h2, if_false]
    rw [← List.cons_append, ← List.replicate_succ, hel]
    rfl

/-- The nested document of `n + 1` arrays has the depth `n + 1`. -/
theorem JSON.depth_nested (n : Nat) : (JSON.nested n).depth = n + 1 := by
  induction n with
  | zero => rfl
  | succ n ih => simp [JSON.nested, JSON.depth, JSON.depth.elems, ih]

/-- The last member `"code":200` of a body is read with any fuel of at least two. -/
theorem parseMembers_code (g : Nat) :
    parseMembers (g + 2) (skipSpace "\"code\":200\x7d".data)
      = some ([("code", JSON.num "200")], []) := by
  have hv : parseValue (g + 1) "200\x7d".data = some (JSON.num "200", rbrace :: []) := rfl
  exact parseMembers_last (g + 1) "code" "200\x7d".data [] (JSON.num "200") rfl hv

/-- A body whose `debug_info` is at least 10000 nested arrays is not accepted: with
the object around them the nesting is beyond 10000. -/
theorem parseJSON_deepBody (m : Nat) (hm : 10000 ≤ m) : parseJSON (deepBody m) = none := by
  obtain ⟨n, rfl⟩ : ∃ n, m = n + 1 := ⟨m - 1, by omega⟩
  have he : (encodeString "debug_info").data = "\"debug_info\"".data := rfl
  have hlen : 2 * (deepBody (n + 1)).length + 2 = (4 * n + 56) + 1 + 1 := by
    have h12 : ",\"code\":200\x7d".data.length = 12 := rfl
    have h13 : "\"debug_info\"".data.length = 12 := rfl
    simp only [deepBody, String.length, nestedText, he, List.length_cons, List.length_append,
      List.length_replicate, h12, h13]
    omega
  have hv : parseValue (4 * n + 56)
      (List.replicate (n + 1) '[' ++ (List.replicate (n + 1) ']'
        ++ ',' :: "\"code\":200\x7d".data))
      = some (JSON.nested n, ',' :: "\"code\":200\x7d".data) :=
    parseValue_nested n (4 * n + 56) _ (by omega)
  have hmore := parseMembers_more (4 * n + 56) "debug_info"
    (nestedText (n + 1) ++ ",\"code\":200\x7d".data) "\"code\":200\x7d".data (JSON.nested n)
    (by simp only [nestedText, List.replicate_succ, List.cons_append]
        exact skipSpace_cons '[' _ (by decide))
    (by simpa only [nestedText, List.append_assoc] using hv)
  have ht := parseMembers_code (4 * n + 54)
  have ho := parseValue_object (4 * n + 56 + 1) "debug_info"
    (':' :: (nestedText (n + 1) ++ ",\"code\":200\x7d".data))
  rw [hmore, ht] at ho
  have hd : (JSON.obj [("debug_info", JSON.nested n), ("code", JSON.num "200")]).depth
      = n + 2 := by
    simp [JSON.depth, JSON.depth.members, JSON.depth_nested]
  have hdata : skipSpace (deepBody (n + 1)).data
      = lbrace :: ((encodeString "debug_info").data
          ++ ':' :: (nestedText (n + 1) ++ ",\"code\":200\x7d".data)) :=
    skipSpace_cons lbrace _ (by decide)
  rw [parseJSON, hlen, hdata, ho]
  simp only [Option.map_some', hd, maxNestingDepth]
  have hgt : ¬ (n + 2 ≤ 10000) := by omega
  simp [hgt]

/-- A member name that differs, up to case, from the three keys of the envelope
selects no field of it. -/
theorem findField_envelope_none (k : String)
    (h : ∀ key ∈ (Call.deleteRole 0).schemaKeys, equalFold key.data k.data = false) :
    findField deleteResponseFields k = none := by
  apply findField_none
  intro f hf
  simp only [deleteResponseFields, List.mem_cons, List.mem_singleton, List.not_mem_nil,
    or_false] at hf
  have key : ∀ go tag name : String, jsonFieldName go tag = some name →
      equalFold name.data name.data = true → equalFold name.data k.data = false →
      ∀ n, jsonFieldName go tag = some n → n ≠ k ∧ equalFold n.data k.data = false := by
    intro go tag name hj hrefl hk n hn
    rw [hj] at hn
    simp only [Option.some.injEq] at hn
    subst hn
    refine ⟨?_, hk⟩
    intro heq
    rw [← heq, hrefl] at hk
    exact absurd hk (by simp)
  rcases hf with rfl | rfl | rfl
  · exact key "Code" "json:\"code\"" "code" (by decide) (by decide) (h "code" (by decide))
  · exact key "Message" "json:\"message\"" "message" (by decide) (by decide)
      (h "message" (by decide))
  · exact key "DebugInfo" "json:\"debug_info\"" "debug_info" (by decide) (by decide)
      (h "debug_info" (by decide))

/-- Decoding the members of a body of a delete operation succeeds, and the code of
the envelope is the integer of the member `code`, or the code it had when there is
no such member. -/
theorem decodeMembers_envelope (kvs : List (String × JSON)) :
    ∀ r0 : DeleteRoleResponse, (kvs.map Prod.fst).count "code" ≤ 1 →
      (∀ kv ∈ kvs,
        (kv.1 = "code" ∧ kv.2.asInt.isSome = true) ∨
        (kv.1 = "message" ∧ kv.2.asString.isSome = true) ∨
        (kv.1 = "debug_info" ∧ kv.2.numbersFit = true) ∨
        (∀ key ∈ (Call.deleteRole 0).schemaKeys, equalFold key.data kv.1.data = false)) →
      ∃ env, decodeMembers deleteResponseFields DeleteRoleResponse.setField r0 kvs = some env ∧
        env.Code = memberOr kvs "code" JSON.asInt r0.Code := by
  have f1 : findField deleteResponseFields "code" = some "Code" := by decide
  have f2 : findField deleteResponseFields "message" = some "Message" := by decide
  have f3 : findField deleteResponseFields "debug_info" = some "DebugInfo" := by decide
  induction kvs with
  | nil => intro r0 _ _; exact ⟨r0, rfl, by simp [memberOr]⟩
  | cons kv rest ih =>
    intro r0 hcount hok
    obtain ⟨k, v⟩ := kv
    have hk := hok (k, v) (List.mem_cons_self _ _)
    have hrest : ∀ x ∈ rest,
        (x.1 = "code" ∧ x.2.asInt.isSome = true) ∨
        (x.1 = "message" ∧ x.2.asString.isSome = true) ∨
        (x.1 = "debug_info" ∧ x.2.numbersFit = true) ∨
        (∀ key ∈ (Call.deleteRole 0).schemaKeys, equalFold key.data x.1.data = false) :=
      fun x hx => hok x (List.mem_cons_of_mem _ hx)
    simp only [List.map_cons] at hcount
    have hcount2 : (rest.map Prod.fst).count "code" ≤ 1 := by
      have := List.count_le_count_cons "code" k (rest.map Prod.fst)
      omega
    rcases hk with ⟨h1, hv⟩ | ⟨h2, hv⟩ | ⟨h3, hv⟩ | hother
    · simp only at h1 hv
      subst h1
      have hnotin : "code" ∉ rest.map Prod.fst := by
        rw [List.count_cons_self] at hcount
        exact List.count_eq_zero.mp (by omega)
      obtain ⟨a, ha⟩ := Option.isSome_iff_exists.mp hv
      obtain ⟨env, he, hc⟩ := ih { r0 with Code := a } hcount2 hrest
      refine ⟨env, ?_, ?_⟩
      · simp [decodeMembers, f1, DeleteRoleResponse.setField, decodeInt_of_asInt _ v a ha, he]
      · rw [hc, memberOr_absent _ rest _ _ hnotin, memberOr_cons_same, ha]
        rfl
    · simp only at h2 hv
      subst h2
      have hne : "code" ≠ "message" := by decide
      obtain ⟨a, ha⟩ := Option.isSome_iff_exists.mp hv
      obtain ⟨env, he, hc⟩ := ih { r0 with Message := a } hcount2 hrest
      refine ⟨env, ?_, ?_⟩
      · simp [decodeMembers, f2, DeleteRoleResponse.setField,
          decodeString_of_asString _ v a ha, he]
      · rw [hc, memberOr_cons_ne _ _ _ _ _ _ hne]
    · simp only at h3 hv
      subst h3
      have hne : "code" ≠ "debug_info" := by decide
      obtain ⟨x, hx⟩ := decodeInterface_of_fit v hv
      obtain ⟨env, he, hc⟩ := ih { r0 with DebugInfo := x } hcount2 hrest
      refine ⟨env, ?_, ?_⟩
      · simp [decodeMembers, f3, DeleteRoleResponse.setField, hx, he]
      · rw [hc, memberOr_cons_ne _ _ _ _ _ _ hne]
    · simp only at hother
      have hnone := findField_envelope_none k hother
      have hne : "code" ≠ k := by
        intro heq
        have := hother "code" (by decide)
        rw [← heq] at this
        exact absurd this (by decide)
      obtain ⟨env, he, hc⟩ := ih r0 hcount2 hrest
      refine ⟨env, ?_, ?_⟩
      · simp only [decodeMembers, hnone, he]
      · rw [hc, memberOr_cons_ne _ _ _ _ _ _ hne]

/-- DeleteRole of the test client answered with status 200 and a body that is not
accepted returns the decode error, with the text of `json.Unmarshal` as its cause. -/
theorem deleteRole_rejected_body (jsonErr : String → String) (body : String)
    (hp : parseJSON body = none) :
    ((serverClient 200 body).DeleteRole (goStdlib jsonErr urlControlErr) 123).err
      = some ("Error parsing Delete Role 123 JSON response: " ++ jsonErr body
          ++ "\nresponse: " ++ body) := by
  have hrun : ((serverClient 200 body).DeleteRole (goStdlib jsonErr urlControlErr) 123).err
      = ((Call.deleteRole 123).run (goStdlib jsonErr urlControlErr)
          (serverClient 200 body)).err := rfl
  have hprep : (Call.deleteRole 123).prepare (goStdlib jsonErr urlControlErr)
      (serverClient 200 body)
      = .ok ⟨"DELETE",
          "http://127.0.0.1:8080/user-management/v1/roles/123?api_id=foo&api_key=bar",
          none, none⟩ := rfl
  rw [hrun, Call.run_of_prepare _ _ _ _ hprep]
  simp only [serverClient, Call.interpret, ne_eq, not_true_eq_false, if_false,
    Call.unmarshal, goStdlib, unmarshal, hp, Call.parseLead, String.append_assoc]
  rfl

set_option exponentiation.threshold 2000 in
set_option maxRecDepth 100000 in
/-- C23, as stated, fails.  DeleteRole answered with status 200, the code 200, the
message `OK` and the number `1e400` as `debug_info` returns the decode error, where
the same body with the number `1e300`, and the same body without `debug_info`,
return no error: `json.Unmarshal` stores a number of an `interface{}` as a float64
and fails on a number beyond its range.  Answered with the code 200 and 10000 arrays
nested inside one another as `debug_info` it returns the decode error too:
encoding/json accepts no document nested deeper than 10000.  And a second member
that names the code decides the outcome, whatever `debug_info` is: the bodies
`{"code":200,"Code":1}` and `{"code":200,"code":1}` give the semantic error, a member
name being matched to a field up to the case of its letters and the last member
that is matched being the one kept. -/
theorem delete_outcome_ignores_debug_info_counterexample :
    ((Call.deleteRole 123).failure testLib
        (serverClient 200 "\x7b\"code\":200,\"message\":\"OK\",\"debug_info\":1e400\x7d")
      = some .decode ∧
    (∃ msg, ((serverClient 200
        "\x7b\"code\":200,\"message\":\"OK\",\"debug_info\":1e400\x7d").DeleteRole
          testLib 123).err = some msg ∧
      startsWith msg "Error parsing Delete Role 123 JSON response") ∧
    ((serverClient 200 "\x7b\"code\":200,\"message\":\"OK\",\"debug_info\":1e300\x7d").DeleteRole
      testLib 123).err = none ∧
    ((serverClient 200 "\x7b\"code\":200,\"message\":\"OK\"\x7d").DeleteRole
      testLib 123).err = none) ∧
    ((serverClient 200 (deepBody 10000)).DeleteRole
        (goStdlib (fun _ => "exceeded max depth") urlControlErr) 123).err
      = some ("Error parsing Delete Role 123 JSON response: exceeded max depth\nresponse: "
          ++ deepBody 10000) ∧
    ((serverClient 200 "\x7b\"code\":200,\"Code\":1\x7d").DeleteRole testLib 123).err
      = some ("Error deleting Role 123 JSON response: %!s(<nil>)\nresponse: "
          ++ "\x7b\"code\":200,\"Code\":1\x7d") ∧
    ((serverClient 200 "\x7b\"code\":200,\"code\":1\x7d").DeleteUser testLib
        "example@example.com" 123).err
      = some ("Error deleting Email example@example.com JSON response for Account ID 123"
          ++ ": %!s(<nil>)\nresponse: " ++ "\x7b\"code\":200,\"code\":1\x7d") := by
  refine ⟨⟨by decide, ⟨_, rfl, by decide⟩, by decide, by decide⟩, ?_, by decide, by decide⟩
  have hp : parseJSON (deepBody 10000) = none := by
    apply parseJSON_deepBody
    decide
  exact deleteRole_rejected_body (fun _ => "exceeded max depth") (deepBody 10000) hp

/-- C23, amended. For DeleteRole and DeleteUser, whenever the request of the
operation is built and the transport answers it with status 200 and a body that
encoding/json accepts as a document (nesting of at most 10000 included) and that is
a JSON object in which every member is `code` with an integer of 64 bits, `message`
with a string, `debug_info` with any JSON value none of whose numbers is beyond the
range of a float64 (a string, a number, a boolean, an object, an array or `null`),
or a member whose name differs, up to the case of its letters, from `code`,
`message` and `debug_info`, and in which `code` occurs at most once, the operation
hands that request to the transport and returns no error when the code is 200 and
the semantic error otherwise, whatever `debug_info` is and also when it is absent.
(An object without `code` has the code 0.) -/
theorem delete_outcome_ignores_debug_info (jsonErr : String → String)
    (urlErr : String → String → Option String) (c : Client) (call : Call) (req : Request)
    (b : String) (re : Option String) (kvs : List (String × JSON)) (n : Int)
    (hcall : call.op = .deleteRole ∨ call.op = .deleteUser)
    (hprep : call.prepare (goStdlib jsonErr urlErr) c = .ok req)
    (hresp : c.httpClient req = .ok ⟨200, b, re⟩)
    (hbody : parseJSON b = some (.obj kvs))
    (honce : (kvs.map Prod.fst).count "code" ≤ 1)
    (hmembers : ∀ kv ∈ kvs,
      (kv.1 = "code" ∧ kv.2.asInt.isSome = true) ∨
      (kv.1 = "message" ∧ kv.2.asString.isSome = true) ∨
      (kv.1 = "debug_info" ∧ kv.2.numbersFit = true) ∨
      (∀ key ∈ (Call.deleteRole 0).schemaKeys, equalFold key.data kv.1.data = false))
    (hcode : memberOr kvs "code" JSON.asInt 0 = n) :
    (call.run (goStdlib jsonErr urlErr) c).sent = [req] ∧
    (n = 200 → (call.run (goStdlib jsonErr urlErr) c).err = none) ∧
    (n ≠ 200 → (call.run (goStdlib jsonErr urlErr) c).err
      = some (call.semanticLead ++ ": %!s(<nil>)\nresponse: " ++ b)) := by
  obtain ⟨env, he, hc⟩ := decodeMembers_envelope kvs DeleteRoleResponse.zero honce hmembers
  have hc2 : env.Code = n := by rw [hc, ← hcode]; rfl
  have hu : call.unmarshal (goStdlib jsonErr urlErr) b = .ok (.envelope env) := by
    cases call <;> simp only [Call.op, reduceCtorEq, or_self] at hcall <;>
      simp only [Call.unmarshal, goStdlib, unmarshal, hbody, decodeStruct, he]
  rw [Call.run_of_prepare _ c call req hprep]
  refine ⟨Call.interpret_sent _ call req _, ?_⟩
  rw [hresp]
  simp only [Call.interpret, ne_eq, not_true_eq_false, if_false, hu, hc2]
  constructor
  · intro h
    simp [h]
  · intro h
    rw [if_pos h]
    simp only [fmtErr, String.append_assoc]
    rfl

set_option exponentiation.threshold 2000 in
set_option maxRecDepth 100000 in
/-- C23, at the body of the tests and variations of it.  With the code 200,
DeleteRole returns no error when `debug_info` is the string of the tests, an object
holding an array, a number, and DeleteUser returns none when it is a boolean and
when it is `null`; with the code 1 and no `debug_info`, DeleteUser returns the
semantic error. -/
theorem delete_outcome_ignores_debug_info_witness :
    ((Call.deleteRole 123).run testLib (serverClient 200
      "\x7b\"code\": 200, \"debug_info\": \"\x7b\x7d\", \"message\": \"OK\"\x7d")).err = none ∧
    ((Call.deleteRole 123).run testLib (serverClient 200
      "\x7b\"code\": 200, \"debug_info\": \x7b\"ids\": [1, 2.5]\x7d\x7d")).err = none ∧
    ((Call.deleteRole 123).run testLib (serverClient 200
      "\x7b\"code\": 200, \"debug_info\": 1e300, \"requestId\": 7\x7d")).err = none ∧
    ((Call.deleteUser "example@example.com" 123).run testLib (serverClient 200
      "\x7b\"debug_info\": true, \"code\": 200\x7d")).err = none ∧
    ((Call.deleteUser "example@example.com" 123).run testLib (serverClient 200
      "\x7b\"debug_info\": null, \"code\": 200\x7d")).err = none ∧
    ((Call.deleteUser "example@example.com" 123).run testLib (serverClient 200
      "\x7b\"code\": 1, \"message\": \"fail\"\x7d")).err
      = some ("Error deleting Email example@example.com JSON response for Account ID 123"
          ++ ": %!s(<nil>)\nresponse: " ++ "\x7b\"code\": 1, \"message\": \"fail\"\x7d") :=
  ⟨(delete_outcome_ignores_debug_info (fun _ => "unexpected end of JSON input") urlControlErr
      (serverClient 200
        "\x7b\"code\": 200, \"debug_info\": \"\x7b\x7d\", \"message\": \"OK\"\x7d")
      (Call.deleteRole 123) _
      "\x7b\"code\": 200, \"debug_info\": \"\x7b\x7d\", \"message\": \"OK\"\x7d" none
      [("code", JSON.num "200"), ("debug_info", JSON.str "\x7b\x7d"), ("message", JSON.str "OK")]
      200 (by decide) rfl rfl rfl (by decide) (by decide) (by decide)).2.1 rfl,
   (delete_outcome_ignores_debug_info (fun _ => "unexpected end of JSON input") urlControlErr
      (serverClient 200 "\x7b\"code\": 200, \"debug_info\": \x7b\"ids\": [1, 2.5]\x7d\x7d")
      (Call.deleteRole 123) _
      "\x7b\"code\": 200, \"debug_info\": \x7b\"ids\": [1, 2.5]\x7d\x7d" none
      [("code", JSON.num "200"),
        ("debug_info", JSON.obj [("ids", JSON.arr [JSON.num "1", JSON.num "2.5"])])]
      200 (by decide) rfl rfl rfl (by decide) (by decide) (by decide)).2.1 rfl,
   (delete_outcome_ignores_debug_info (fun _ => "unexpected end of JSON input") urlControlErr
      (serverClient 200 "\x7b\"code\": 200, \"debug_info\": 1e300, \"requestId\": 7\x7d")
      (Call.deleteRole 123) _
      "\x7b\"code\": 200, \"debug_info\": 1e300, \"requestId\": 7\x7d" none
      [("code", JSON.num "200"), ("debug_info", JSON.num "1e300"),
        ("requestId", JSON.num "7")]
      200 (by decide) rfl rfl rfl (by decide) (by decide) (by decide)).2.1 rfl,
   (delete_outcome_ignores_debug_info (fun _ => "unexpected end of JSON input") urlControlErr
      (serverClient 200 "\x7b\"debug_info\": true, \"code\": 200\x7d")
      (Call.deleteUser "example@example.com" 123) _
      "\x7b\"debug_info\": true, \"code\": 200\x7d" none
      [("debug_info", JSON.bool true), ("code", JSON.num "200")]
      200 (by decide) rfl rfl rfl (by decide) (by decide) (by decide)).2.1 rfl,
   (delete_outcome_ignores_debug_info (fun _ => "unexpected end of JSON input") urlControlErr
      (serverClient 200 "\x7b\"debug_info\": null, \"code\": 200\x7d")
      (Call.deleteUser "example@example.com" 123) _
      "\x7b\"debug_info\": null, \"code\": 200\x7d" none
      [("debug_info", JSON.null), ("code", JSON.num "200")]
      200 (by decide) rfl rfl rfl (by decide) (by decide) (by decide)).2.1 rfl,
   (delete_outcome_ignores_debug_info (fun _ => "unexpected end of JSON input") urlControlErr
      (serverClient 200 "\x7b\"code\": 1, \"message\": \"fail\"\x7d")
      (Call.deleteUser "example@example.com" 123) _
      "\x7b\"code\": 1, \"message\": \"fail\"\x7d" none
      [("code", JSON.num "1"), ("message", JSON.str "fail")]
      1 (by decide) rfl rfl rfl (by decide) (by decide) (by decide)).2.2 (by decide)⟩

/-- The loop of the destroy check is decided by the first resource of the type it
looks for. -/
theorem destroyLoop_eq (entries : List (String × ResourceState)) :
    destroyLoop entries
      = match (entries.filter (fun e => e.2.Type_ = aclSecurityRuleType)).head? with
        | none => none
        | some e =>
          if e.2.Primary.ID = "" then
            some "Incapsula acl security rule - rule ID () does not exist"
          else
            some ("Incapsula acl security rule for site site_id ("
              ++ e.2.Primary.ID ++ ") still exists") := by
  induction entries with
  | nil => rfl
  | cons e rest ih =>
    obtain ⟨name, res⟩ := e
    by_cases ht : res.Type_ = aclSecurityRuleType
    · by_cases hid : res.Primary.ID = ""
      · simp [destroyLoop, ht, hid]
      · simp [destroyLoop, ht, hid]
    · simp only [destroyLoop, ne_eq, ht, not_false_eq_true, if_true, ih,
        List.filter_cons, decide_False, Bool.false_eq_true, if_false]

/-- C24. The destroy check of the ACL security rule: for every Terraform state (and
every order in which its resources are visited), `testAccCheckACLSecurityRuleDestroy`
returns nil if and only if the root module contains no resource of type
`incapsula_acl_security_rule`; when the root module contains such a resource it
returns an error, the one of the first such resource visited, whatever the ID of
that resource is: the `does not exist` error when the ID is empty, the
`still exists` error with the ID when it is not; and resources of any other type
never cause an error: the result is that of the state without them. -/
theorem destroy_check (state : State) :
    (testAccCheckACLSecurityRuleDestroy state = none ↔
      ∀ e ∈ state.RootModule.Resources, e.2.Type_ ≠ aclSecurityRuleType) ∧
    ((∃ e ∈ state.RootModule.Resources, e.2.Type_ = aclSecurityRuleType) →
      ∃ msg, testAccCheckACLSecurityRuleDestroy state = some msg) ∧
    (∀ e, state.RootModule.aclRules.head? = some e →
      (e.2.Primary.ID = "" → testAccCheckACLSecurityRuleDestroy state
        = some "Incapsula acl security rule - rule ID () does not exist") ∧
      (e.2.Primary.ID ≠ "" → testAccCheckACLSecurityRuleDestroy state
        = some ("Incapsula acl security rule for site site_id (" ++ e.2.Primary.ID
            ++ ") still exists"))) ∧
    testAccCheckACLSecurityRuleDestroy state
      = testAccCheckACLSecurityRuleDestroy ⟨⟨state.RootModule.aclRules⟩⟩ := by
  have hempty : state.RootModule.aclRules = [] ↔
      ∀ e ∈ state.RootModule.Resources, e.2.Type_ ≠ aclSecurityRuleType := by
    simp only [ModuleState.aclRules, List.filter_eq_nil_iff, decide_eq_true_eq]
  have hex : (∃ e ∈ state.RootModule.Resources, e.2.Type_ = aclSecurityRuleType) ↔
      state.RootModule.aclRules ≠ [] := by
    rw [ne_eq, hempty]
    push_neg
    rfl
  have hrun : testAccCheckACLSecurityRuleDestroy state
      = match state.RootModule.aclRules.head? with
        | none => none
        | some e =>
          if e.2.Primary.ID = "" then
            some "Incapsula acl security rule - rule ID () does not exist"
          else
            some ("Incapsula acl security rule for site site_id ("
              ++ e.2.Primary.ID ++ ") still exists") :=
    destroyLoop_eq state.RootModule.Resources
  have hfilter : testAccCheckACLSecurityRuleDestroy ⟨⟨state.RootModule.aclRules⟩⟩
      = testAccCheckACLSecurityRuleDestroy state := by
    rw [hrun]
    have h := destroyLoop_eq state.RootModule.aclRules
    simp only [ModuleState.aclRules, List.filter_filter, Bool.and_self] at h
    exact h
  rw [hex, ← hempty]
  refine ⟨?_, ?_, ?_, hfilter.symm⟩
  · rw [hrun]
    cases hl : state.RootModule.aclRules with
    | nil => simp
    | cons r rs =>
      simp only [List.head?_cons, reduceCtorEq, iff_false]
      split <;> simp
  · intro hne
    rw [hrun]
    cases hl : state.RootModule.aclRules with
    | nil => exact absurd hl hne
    | cons r rs =>
      simp only [List.head?_cons]
      split
      · exact ⟨_, rfl⟩
      · exact ⟨_, rfl⟩
  · intro e he
    rw [hrun, he]
    exact ⟨fun h => by simp only [h, if_true], fun h => by simp only [h, if_false]⟩

/-- C24, at three states: a root module with a site and an ACL security rule of ID
`42` gives the `still exists` error, whichever of the two is visited first; a root
module with an ACL security rule of empty ID gives the `does not exist` error; a
root module with the site only gives nil. -/
theorem destroy_check_witness :
    testAccCheckACLSecurityRuleDestroy
        ⟨⟨[("incapsula_site.example-site", ⟨"incapsula_site", ⟨"7"⟩⟩),
          ("incapsula_acl_security_rule.example-global-blacklist-country-rule",
            ⟨"incapsula_acl_security_rule", ⟨"42"⟩⟩)]⟩⟩
      = some "Incapsula acl security rule for site site_id (42) still exists" ∧
    testAccCheckACLSecurityRuleDestroy
        ⟨⟨[("incapsula_acl_security_rule.example-global-blacklist-country-rule",
            ⟨"incapsula_acl_security_rule", ⟨""⟩⟩),
          ("incapsula_site.example-site", ⟨"incapsula_site", ⟨"7"⟩⟩)]⟩⟩
      = some "Incapsula acl security rule - rule ID () does not exist" ∧
    testAccCheckACLSecurityRuleDestroy
        ⟨⟨[("incapsula_site.example-site", ⟨"incapsula_site", ⟨"7"⟩⟩)]⟩⟩
      = none :=
  ⟨((destroy_check
      ⟨⟨[("incapsula_site.example-site", ⟨"incapsula_site", ⟨"7"⟩⟩),
        ("incapsula_acl_security_rule.example-global-blacklist-country-rule",
          ⟨"incapsula_acl_security_rule", ⟨"42"⟩⟩)]⟩⟩).2.2.1
        ("incapsula_acl_security_rule.example-global-blacklist-country-rule",
          ⟨"incapsula_acl_security_rule", ⟨"42"⟩⟩) (by decide)).2 (by decide),
   ((destroy_check
      ⟨⟨[("incapsula_acl_security_rule.example-global-blacklist-country-rule",
          ⟨"incapsula_acl_security_rule", ⟨""⟩⟩),
        ("incapsula_site.example-site", ⟨"incapsula_site", ⟨"7"⟩⟩)]⟩⟩).2.2.1
        ("incapsula_acl_security_rule.example-global-blacklist-country-rule",
          ⟨"incapsula_acl_security_rule", ⟨""⟩⟩) (by decide)).1 (by decide),
   (destroy_check
      ⟨⟨[("incapsula_site.example-site", ⟨"incapsula_site", ⟨"7"⟩⟩)]⟩⟩).1.mpr (by decide)⟩

end Incapsula
